import Mathlib

/-!
# Certificate collection and filter pipeline

A shallow embedding of the certificate state provider
(`src/Frontend/src/context/CertContext.jsx`) and of the fixture module
(`src/Frontend/src/data/mockCerts.js`), followed by theorems about the
filter / sort / paginate pipeline and the mutators.

Conventions of the embedding

* JavaScript numbers that hold counters, indices and time values are `Int`
  (or `Nat` where the source can only produce a length). A like or view
  count that the source computes and stores is rounded to the nearest double
  (`roundToDouble`); the differences that the sort comparator returns are
  read by their sign only, which rounding keeps.
* A value that may be `NaN` is an `Option Int`, with `none` for `NaN`.
* React state is an explicit record `State`; a state setter followed by the
  re-run of the filter effect is a function `State → State`.
* The built-ins of the JavaScript host whose results depend on Unicode
  tables, the locale or the date parser are fields of `Host`.
-/

namespace CertifyHub

/-! ## Data model -/

/-- The author snapshot embedded in every certificate record. -/
structure Author where
  id : String
  name : String
  jobTitle : String
  unit : String
  email : String
  avatarUrl : String
  deriving DecidableEq, Repr

/-- A certificate record, with the fields of the fixture objects of
`mockCerts.js` and the `isLikedByUser` flag that `toggleLike` adds
(`undefined`, which is falsy, is `false`). -/
structure Certificate where
  id : String
  title : String
  category : String
  subcategory : String
  issuer : String
  date : String
  fileUrl : String
  author : Author
  remarks : String
  links : List String
  tags : List String
  contactsEnabled : Bool
  likes : Int
  views : Int
  visibility : String
  isLikedByUser : Bool := false
  deriving DecidableEq, Repr

/-- The `dateRange` state object `{ start, end }`; `null` is `none`. -/
structure DateRange where
  start : Option String
  end_ : Option String
  deriving DecidableEq, Repr

/-- The state held by `CertProvider` (its `useState` cells). -/
structure State where
  certificates : List Certificate
  filteredCertificates : List Certificate
  isLoading : Bool
  error : Option String
  searchQuery : String
  selectedCategories : List String
  selectedTags : List String
  selectedUnits : List String
  dateRange : DateRange
  sortBy : String
  sortOrder : String
  currentPage : Int
  deriving DecidableEq, Repr

/-- The page size: `const [itemsPerPage] = useState(12)`, never set again. -/
def itemsPerPage : Nat := 12

/-! ## Array built-ins -/

/-- Built-in `Array.prototype.slice(start, end)` for integer arguments: a negative
index counts from the end, both indices are clamped to `[0, length]`, and
the result is empty when the clamped end is not after the clamped start. -/
def jsSlice {α : Type} (xs : List α) (start stop : Int) : List α :=
  let len : Int := xs.length
  let k : Int := if start < 0 then max (len + start) 0 else min start len
  let fin : Int := if stop < 0 then max (len + stop) 0 else min stop len
  (xs.drop k.toNat).take (fin - k).toNat

/-! ## Pagination -/

/-- Source `getPaginatedCertificates`: the window of the derived view shown on
the current page. -/
def getPaginatedCertificates (s : State) : List Certificate :=
  let startIndex : Int := (s.currentPage - 1) * itemsPerPage
  let endIndex : Int := startIndex + itemsPerPage
  jsSlice s.filteredCertificates startIndex endIndex

/-- Source `getTotalPages`: `Math.ceil(filteredCertificates.length / itemsPerPage)`.
The quotient of an array length by 12 is computed in double precision; it is
exact when 12 divides the length and otherwise lies strictly between two
consecutive integers, so `Math.ceil` returns the integer ceiling. -/
def getTotalPages (s : State) : Nat :=
  (s.filteredCertificates.length + (itemsPerPage - 1)) / itemsPerPage

/-! ## Host built-ins -/

/-- The built-ins of the JavaScript host that the provider calls and whose
results depend on Unicode tables, on the date parser or on the locale.

* `toLowerCase s` is `s.toLowerCase()`.
* `parseDate s` is the time value (milliseconds since the epoch) of
  `new Date(s)`, and `none` when the result is an Invalid Date, whose time
  value is `NaN`.
* `localeCompare a b` is `a.localeCompare(b)`. ECMA-262 requires it to be a
  consistent comparator defining a total ordering on all strings; the two
  law fields record that requirement. -/
structure Host where
  toLowerCase : String → String
  parseDate : String → Option Int
  localeCompare : String → String → Int
  localeCompare_swap : ∀ a b, 0 < localeCompare a b ↔ localeCompare b a < 0
  localeCompare_trans :
    ∀ a b c, localeCompare a b ≤ 0 → localeCompare b c ≤ 0 → localeCompare a c ≤ 0

/-! ## String built-ins -/

/-- Built-in `String.prototype.includes` on character lists: `t` occurs in `s` as a
contiguous block. -/
def includesChars : List Char → List Char → Bool
  | [], t => t.isEmpty
  | c :: cs, t => t.isPrefixOf (c :: cs) || includesChars cs t

/-- Built-in `s.includes(t)`. -/
def includes (s t : String) : Bool :=
  includesChars s.data t.data

/-- The code points that `String.prototype.trim` strips: the ECMAScript
WhiteSpace and LineTerminator productions. -/
def isWhiteSpace (c : Char) : Bool :=
  let n := c.toNat
  n == 0x09 || n == 0x0A || n == 0x0B || n == 0x0C || n == 0x0D || n == 0x20 ||
  n == 0xA0 || n == 0x1680 || (0x2000 ≤ n && n ≤ 0x200A) || n == 0x2028 ||
  n == 0x2029 || n == 0x202F || n == 0x205F || n == 0x3000 || n == 0xFEFF

/-- Built-in `s.trim()`. -/
def trim (s : String) : String :=
  ⟨((s.data.dropWhile isWhiteSpace).reverse.dropWhile isWhiteSpace).reverse⟩

/-- Truthiness of a string value: every string but the empty one. -/
def truthy (s : String) : Bool :=
  !s.data.isEmpty

/-- Truthiness of a value that is `null` or a string. -/
def truthyOpt : Option String → Bool
  | none => false
  | some s => truthy s

/-! ## Fixture module `mockCerts.js` -/

/-- Fixture record `cert_001`. -/
def cert_001 : Certificate where
  id := "cert_001"
  title := "Spring Boot Professional Certificate"
  category := "Development"
  subcategory := "Backend"
  issuer := "Coursera"
  date := "2025-06-12"
  fileUrl := "/mock/certs/springboot.pdf"
  author :=
    { id := "u_001", name := "Radhe Ambhure", jobTitle := "Software Engineer",
      unit := "Platform", email := "radhe@example.com",
      avatarUrl := "/avatars/radhe.jpg" }
  remarks := "Completed the Coursera specialization on Spring Boot. This course covered advanced topics including security, testing, and microservices architecture. Helpful resources: https://spring.io/guides"
  links := ["https://course.example.com", "https://spring.io/guides"]
  tags := ["spring", "backend", "java", "microservices"]
  contactsEnabled := true
  likes := 12
  views := 123
  visibility := "public"

/-- Fixture record `cert_002`. -/
def cert_002 : Certificate where
  id := "cert_002"
  title := "AWS Solutions Architect Associate"
  category := "Cloud"
  subcategory := "Architecture"
  issuer := "Amazon Web Services"
  date := "2025-05-20"
  fileUrl := "/mock/certs/aws-saa.pdf"
  author :=
    { id := "u_002", name := "Sarah Chen", jobTitle := "Cloud Architect",
      unit := "Infrastructure", email := "sarah.chen@example.com",
      avatarUrl := "/avatars/sarah.jpg" }
  remarks := "Comprehensive certification covering AWS cloud services, architecture patterns, and best practices. Highly recommend the official AWS training materials."
  links := ["https://aws.amazon.com/certification/", "https://acloud.guru"]
  tags := ["aws", "cloud", "architecture", "solutions"]
  contactsEnabled := true
  likes := 24
  views := 234
  visibility := "public"

/-- Fixture record `cert_003`. -/
def cert_003 : Certificate where
  id := "cert_003"
  title := "React Advanced Patterns"
  category := "Development"
  subcategory := "Frontend"
  issuer := "Epic React"
  date := "2025-04-15"
  fileUrl := "/mock/certs/react-advanced.pdf"
  author :=
    { id := "u_003", name := "Mike Rodriguez", jobTitle := "Frontend Developer",
      unit := "User Experience", email := "mike.r@example.com",
      avatarUrl := "/avatars/mike.jpg" }
  remarks := "Advanced React patterns including compound components, render props, and custom hooks. Excellent for senior developers looking to level up."
  links := ["https://epicreact.dev", "https://reactjs.org/docs"]
  tags := ["react", "frontend", "javascript", "patterns"]
  contactsEnabled := true
  likes := 18
  views := 156
  visibility := "public"

/-- Fixture record `cert_004`. -/
def cert_004 : Certificate where
  id := "cert_004"
  title := "Cybersecurity Fundamentals"
  category := "Security"
  subcategory := "General"
  issuer := "CompTIA"
  date := "2025-03-28"
  fileUrl := "/mock/certs/security-plus.pdf"
  author :=
    { id := "u_004", name := "Alex Thompson", jobTitle := "Security Analyst",
      unit := "Security", email := "alex.t@example.com",
      avatarUrl := "/avatars/alex.jpg" }
  remarks := "Foundation certification covering network security, cryptography, and incident response. Great starting point for security careers."
  links := ["https://comptia.org", "https://cybrary.it"]
  tags := ["security", "comptia", "networking", "fundamentals"]
  contactsEnabled := true
  likes := 15
  views := 189
  visibility := "public"

/-- Fixture record `cert_005`. -/
def cert_005 : Certificate where
  id := "cert_005"
  title := "Data Science with Python"
  category := "Data Science"
  subcategory := "Analytics"
  issuer := "Coursera"
  date := "2025-02-14"
  fileUrl := "/mock/certs/data-science-python.pdf"
  author :=
    { id := "u_005", name := "Emily Wang", jobTitle := "Data Scientist",
      unit := "Analytics", email := "emily.w@example.com",
      avatarUrl := "/avatars/emily.jpg" }
  remarks := "Comprehensive course covering pandas, numpy, matplotlib, and scikit-learn. Perfect for analysts transitioning to data science."
  links := ["https://coursera.org/learn/python-data-science", "https://kaggle.com/learn"]
  tags := ["python", "data-science", "pandas", "machine-learning"]
  contactsEnabled := true
  likes := 31
  views := 278
  visibility := "public"

/-- Fixture record `cert_006`. -/
def cert_006 : Certificate where
  id := "cert_006"
  title := "Kubernetes Administration"
  category := "DevOps"
  subcategory := "Container Orchestration"
  issuer := "Cloud Native Computing Foundation"
  date := "2025-01-30"
  fileUrl := "/mock/certs/cka.pdf"
  author :=
    { id := "u_006", name := "David Kim", jobTitle := "DevOps Engineer",
      unit := "Platform", email := "david.k@example.com",
      avatarUrl := "/avatars/david.jpg" }
  remarks := "Hands-on certification for Kubernetes cluster administration. Covers installation, configuration, and troubleshooting."
  links := ["https://kubernetes.io/training/", "https://github.com/cncf/curriculum"]
  tags := ["kubernetes", "devops", "containers", "orchestration"]
  contactsEnabled := true
  likes := 22
  views := 167
  visibility := "public"

/-- Fixture record `cert_007`. -/
def cert_007 : Certificate where
  id := "cert_007"
  title := "Product Management Fundamentals"
  category := "Business"
  subcategory := "Product"
  issuer := "Product School"
  date := "2024-12-10"
  fileUrl := "/mock/certs/product-mgmt.pdf"
  author :=
    { id := "u_007", name := "Lisa Martinez", jobTitle := "Product Manager",
      unit := "Product", email := "lisa.m@example.com",
      avatarUrl := "/avatars/lisa.jpg" }
  remarks := "Essential skills for product management including user research, roadmap planning, and stakeholder communication."
  links := ["https://productschool.com", "https://productplan.com/learn/"]
  tags := ["product-management", "strategy", "user-research", "roadmap"]
  contactsEnabled := true
  likes := 19
  views := 145
  visibility := "public"

/-- Fixture record `cert_008`. -/
def cert_008 : Certificate where
  id := "cert_008"
  title := "Machine Learning Specialization"
  category := "Data Science"
  subcategory := "Machine Learning"
  issuer := "Stanford Online"
  date := "2024-11-22"
  fileUrl := "/mock/certs/ml-stanford.pdf"
  author :=
    { id := "u_008", name := "James Wilson", jobTitle := "ML Engineer",
      unit := "AI Research", email := "james.w@example.com",
      avatarUrl := "/avatars/james.jpg" }
  remarks := "Stanford's comprehensive ML course covering supervised and unsupervised learning, neural networks, and practical applications."
  links := ["https://coursera.org/learn/machine-learning", "https://cs229.stanford.edu"]
  tags := ["machine-learning", "stanford", "neural-networks", "algorithms"]
  contactsEnabled := true
  likes := 45
  views := 389
  visibility := "public"

/-- Fixture record `cert_009`. -/
def cert_009 : Certificate where
  id := "cert_009"
  title := "UX Design Certificate"
  category := "Design"
  subcategory := "User Experience"
  issuer := "Google"
  date := "2024-10-15"
  fileUrl := "/mock/certs/google-ux.pdf"
  author :=
    { id := "u_009", name := "Anna Foster", jobTitle := "UX Designer",
      unit := "User Experience", email := "anna.f@example.com",
      avatarUrl := "/avatars/anna.jpg" }
  remarks := "Google's UX Design Certificate covering user research, wireframing, prototyping, and usability testing."
  links := ["https://grow.google/certificates/ux-design/", "https://figma.com/resources/"]
  tags := ["ux-design", "google", "figma", "user-research"]
  contactsEnabled := true
  likes := 28
  views := 203
  visibility := "public"

/-- Fixture record `cert_010`. -/
def cert_010 : Certificate where
  id := "cert_010"
  title := "Agile Project Management"
  category := "Management"
  subcategory := "Project Management"
  issuer := "Scrum Alliance"
  date := "2024-09-08"
  fileUrl := "/mock/certs/scrum-master.pdf"
  author :=
    { id := "u_010", name := "Robert Brown", jobTitle := "Scrum Master",
      unit := "Delivery", email := "robert.b@example.com",
      avatarUrl := "/avatars/robert.jpg" }
  remarks := "Certified Scrum Master training covering agile principles, sprint planning, and team facilitation techniques."
  links := ["https://scrumalliance.org", "https://agilemanifesto.org"]
  tags := ["agile", "scrum", "project-management", "facilitation"]
  contactsEnabled := true
  likes := 16
  views := 134
  visibility := "public"

/-- The fixture collection `mockCertificates`. -/
def mockCertificates : List Certificate :=
  [cert_001, cert_002, cert_003, cert_004, cert_005,
   cert_006, cert_007, cert_008, cert_009, cert_010]

/-- The predicate of `searchCertificates`: the lower-cased query occurs in
the lower-cased title, category, issuer, one of the tags, or author name. -/
def matchesSearch (h : Host) (searchTerm : String) (cert : Certificate) : Bool :=
  includes (h.toLowerCase cert.title) searchTerm ||
  includes (h.toLowerCase cert.category) searchTerm ||
  includes (h.toLowerCase cert.issuer) searchTerm ||
  cert.tags.any (fun tag => includes (h.toLowerCase tag) searchTerm) ||
  includes (h.toLowerCase cert.author.name) searchTerm

/-- Source `searchCertificates(query)`: filters the fixture `mockCertificates`. -/
def searchCertificates (h : Host) (query : String) : List Certificate :=
  let searchTerm := h.toLowerCase query
  mockCertificates.filter (matchesSearch h searchTerm)

/-- Source `getCertificatesByCategory(category)`. -/
def getCertificatesByCategory (category : String) : List Certificate :=
  mockCertificates.filter (fun cert => cert.category == category)

/-! ## The filter effect -/

/-- The relational operators `>=` and `<=` on two time values: `a <= b`,
which is `false` as soon as one side is `NaN`. -/
def timeLe : Option Int → Option Int → Bool
  | some x, some y => decide (x ≤ y)
  | _, _ => false

/-- The predicate of the date-range step:
`certDate >= new Date(start) && certDate <= new Date(end)`. -/
def inDateRange (h : Host) (start stop : String) (cert : Certificate) : Bool :=
  let certDate := h.parseDate cert.date
  timeLe (h.parseDate start) certDate && timeLe certDate (h.parseDate stop)

/-- The `switch (sortBy)` of the sort comparator: the value of `comparison`,
`none` when the subtraction of two time values yields `NaN`. -/
def comparison (h : Host) (sortBy : String) (a b : Certificate) : Option Int :=
  if sortBy = "date" then
    match h.parseDate a.date, h.parseDate b.date with
    | some x, some y => some (x - y)
    | _, _ => none
  else if sortBy = "likes" then some (a.likes - b.likes)
  else if sortBy = "views" then some (a.views - b.views)
  else if sortBy = "title" then some (h.localeCompare a.title b.title)
  else some 0

/-- The comparator passed to `filtered.sort`:
`sortOrder === 'desc' ? -comparison : comparison`. -/
def compareFn (h : Host) (sortBy sortOrder : String) (a b : Certificate) : Option Int :=
  if sortOrder = "desc" then (comparison h sortBy a b).map (fun v => -v)
  else comparison h sortBy a b

/-- The number that `Array.prototype.sort` reads off a comparator result:
`NaN` counts as `+0`. -/
def sortCompare {α : Type} (cmp : α → α → Option Int) (a b : α) : Int :=
  (cmp a b).getD 0

/-- The order that a comparator induces: `a` may stand before `b`. -/
def SortLE {α : Type} (cmp : α → α → Option Int) (a b : α) : Prop :=
  sortCompare cmp a b ≤ 0

instance {α : Type} (cmp : α → α → Option Int) : DecidableRel (SortLE cmp) :=
  fun a b => inferInstanceAs (Decidable (sortCompare cmp a b ≤ 0))

/-- Built-in `Array.prototype.sort(cmp)`. The built-in is a stable sort; it is
modelled by stable insertion sort. For a consistent comparator every stable
sort returns the same list, and for an inconsistent one ECMA-262 leaves the
order to the implementation. -/
def jsSort {α : Type} (cmp : α → α → Option Int) (xs : List α) : List α :=
  xs.insertionSort (SortLE cmp)

/-- The search step of the filter effect: when `searchQuery.trim()` is
truthy the list is replaced by `searchCertificates(searchQuery)`. -/
def searchStep (h : Host) (searchQuery : String) (filtered : List Certificate) :
    List Certificate :=
  if truthy (trim searchQuery) then searchCertificates h searchQuery else filtered

/-- The category step of the filter effect. -/
def categoryStep (selectedCategories : List String) (filtered : List Certificate) :
    List Certificate :=
  if selectedCategories.length > 0 then
    filtered.filter (fun cert => selectedCategories.contains cert.category)
  else filtered

/-- The tag step of the filter effect. -/
def tagStep (selectedTags : List String) (filtered : List Certificate) :
    List Certificate :=
  if selectedTags.length > 0 then
    filtered.filter (fun cert => selectedTags.any (fun tag => cert.tags.contains tag))
  else filtered

/-- The unit step of the filter effect. -/
def unitStep (selectedUnits : List String) (filtered : List Certificate) :
    List Certificate :=
  if selectedUnits.length > 0 then
    filtered.filter (fun cert => selectedUnits.contains cert.author.unit)
  else filtered

/-- The date-range step of the filter effect, guarded by
`dateRange.start && dateRange.end`. -/
def dateStep (h : Host) (dateRange : DateRange) (filtered : List Certificate) :
    List Certificate :=
  match dateRange.start, dateRange.end_ with
  | some start, some stop =>
    if truthy start && truthy stop then filtered.filter (inDateRange h start stop)
    else filtered
  | _, _ => filtered

/-- The list before sorting: the five filter steps of the effect, in the
order of the source. -/
def filterSteps (h : Host) (s : State) : List Certificate :=
  dateStep h s.dateRange
    (unitStep s.selectedUnits
      (tagStep s.selectedTags
        (categoryStep s.selectedCategories
          (searchStep h s.searchQuery s.certificates))))

/-- The list that the filter effect stores in `filteredCertificates`. -/
def derivedView (h : Host) (s : State) : List Certificate :=
  jsSort (compareFn h s.sortBy s.sortOrder) (filterSteps h s)

/-- The body of the filter effect: `setFilteredCertificates(filtered)` and
`setCurrentPage(1)`. -/
def filterEffect (h : Host) (s : State) : State :=
  { s with filteredCertificates := derivedView h s, currentPage := 1 }

/-! ## Number arithmetic

Like and view counts are Number values, IEEE 754 doubles. The embedding
holds the integer-valued ones as `Int`. A sum or difference of two of them is
the exact result rounded to the nearest double, ties going to the even
significand. Every integer of magnitude up to `2^53 = 9007199254740992` is a
double, so arithmetic that stays within that range is exact; beyond it the
doubles are spaced 2, 4, 8, ... apart. -/

/-- The spacing of the doubles at the magnitude `m`: the least power of two
`u`, reached from `u` by at most `fuel` doublings, with `m / u < 2^53`. -/
def spacingFrom : Nat → Nat → Nat → Nat
  | 0, _, u => u
  | fuel + 1, m, u => if m / u < 9007199254740992 then u else spacingFrom fuel m (2 * u)

/-- The double nearest to the integer `n`, ties to the even significand. The
1024 doublings cover every finite double; magnitudes from `2^1024` on, where
the host yields `Infinity`, are outside the embedding. -/
def roundToDouble (n : Int) : Int :=
  let m := n.natAbs
  let u := spacingFrom 1024 m 1
  let q := m / u
  let r := m % u
  let k := if 2 * r < u then q else if u < 2 * r then q + 1 else if q % 2 = 0 then q else q + 1
  n.sign * ((k * u : Nat) : Int)

/-- The operator `+` on two integer-valued Numbers. -/
def numAdd (a b : Int) : Int :=
  roundToDouble (a + b)

/-- The operator `-` on two integer-valued Numbers. -/
def numSub (a b : Int) : Int :=
  roundToDouble (a - b)

/-! ## Mutators

Each mutator is modelled at the point where its simulated delay has elapsed
and React has re-rendered: the new collection is stored and the filter
effect, whose dependency list contains `certificates`, has run again. -/

/-- A partial field set, the `updates` argument of `updateCertificate`:
`none` for a field that the object does not name. -/
structure Updates where
  id : Option String := none
  title : Option String := none
  category : Option String := none
  subcategory : Option String := none
  issuer : Option String := none
  date : Option String := none
  fileUrl : Option String := none
  author : Option Author := none
  remarks : Option String := none
  links : Option (List String) := none
  tags : Option (List String) := none
  contactsEnabled : Option Bool := none
  likes : Option Int := none
  views : Option Int := none
  visibility : Option String := none
  isLikedByUser : Option Bool := none
  deriving DecidableEq, Repr

/-- The object spread `{ ...cert, ...updates }`. -/
def applyUpdates (cert : Certificate) (u : Updates) : Certificate where
  id := u.id.getD cert.id
  title := u.title.getD cert.title
  category := u.category.getD cert.category
  subcategory := u.subcategory.getD cert.subcategory
  issuer := u.issuer.getD cert.issuer
  date := u.date.getD cert.date
  fileUrl := u.fileUrl.getD cert.fileUrl
  author := u.author.getD cert.author
  remarks := u.remarks.getD cert.remarks
  links := u.links.getD cert.links
  tags := u.tags.getD cert.tags
  contactsEnabled := u.contactsEnabled.getD cert.contactsEnabled
  likes := u.likes.getD cert.likes
  views := u.views.getD cert.views
  visibility := u.visibility.getD cert.visibility
  isLikedByUser := u.isLikedByUser.getD cert.isLikedByUser

/-- Source `setCertificates(next)` with a freshly built array, followed by the
re-run of the filter effect that the changed dependency triggers. -/
def setCertificates (h : Host) (s : State) (next : List Certificate) : State :=
  filterEffect h { s with certificates := next }

/-- Source `updateCertificate(certificateId, updates)`: the resulting state and the
returned success status. -/
def updateCertificate (h : Host) (s : State) (certificateId : String)
    (updates : Updates) : State × Bool :=
  let updatedCertificates :=
    s.certificates.map
      (fun cert => if cert.id = certificateId then applyUpdates cert updates else cert)
  ({ setCertificates h s updatedCertificates with isLoading := false }, true)

/-- Source `deleteCertificate(certificateId)`: the resulting state and the returned
success status. -/
def deleteCertificate (h : Host) (s : State) (certificateId : String) : State × Bool :=
  let updatedCertificates := s.certificates.filter (fun cert => cert.id != certificateId)
  ({ setCertificates h s updatedCertificates with isLoading := false }, true)

/-- Source `toggleLike(certificateId)`: the resulting state and the returned
success status. The record read is the first one with the identifier; the
Update writes into every record with the identifier. -/
def toggleLike (h : Host) (s : State) (certificateId : String) : State × Bool :=
  match s.certificates.find? (fun c => c.id == certificateId) with
  | none => (s, false)
  | some cert =>
    let newLikes := if cert.isLikedByUser then numSub cert.likes 1 else numAdd cert.likes 1
    let r := updateCertificate h s certificateId
      { likes := some newLikes, isLikedByUser := some (!cert.isLikedByUser) }
    (r.1, true)

/-- Source `incrementViews(certificateId)`: the resulting state. The record read
is the first one with the identifier; the Update writes into every record
with the identifier. -/
def incrementViews (h : Host) (s : State) (certificateId : String) : State :=
  match s.certificates.find? (fun c => c.id == certificateId) with
  | none => s
  | some cert =>
    (updateCertificate h s certificateId { views := some (numAdd cert.views 1) }).1

/-! ## Setters of the filter and sort parameters

A setter stores the new value; the filter effect runs again when the stored
value differs from the previous one. String values are compared by value,
arrays and objects by identity, and every handler of the presentation layer
passes a freshly built array or object. -/

/-- Source `setSearchQuery(q)`. -/
def setSearchQuery (h : Host) (s : State) (q : String) : State :=
  if q = s.searchQuery then s else filterEffect h { s with searchQuery := q }

/-- Source `setSelectedCategories(cs)` with a freshly built array. -/
def setSelectedCategories (h : Host) (s : State) (cs : List String) : State :=
  filterEffect h { s with selectedCategories := cs }

/-- Source `setSelectedTags(ts)` with a freshly built array. -/
def setSelectedTags (h : Host) (s : State) (ts : List String) : State :=
  filterEffect h { s with selectedTags := ts }

/-- Source `setSelectedUnits(us)` with a freshly built array. -/
def setSelectedUnits (h : Host) (s : State) (us : List String) : State :=
  filterEffect h { s with selectedUnits := us }

/-- Source `setDateRange(r)` with a freshly built object. -/
def setDateRange (h : Host) (s : State) (r : DateRange) : State :=
  filterEffect h { s with dateRange := r }

/-- Source `setSortBy(k)`. -/
def setSortBy (h : Host) (s : State) (k : String) : State :=
  if k = s.sortBy then s else filterEffect h { s with sortBy := k }

/-- Source `setSortOrder(o)`. -/
def setSortOrder (h : Host) (s : State) (o : String) : State :=
  if o = s.sortOrder then s else filterEffect h { s with sortOrder := o }

/-! ## A host instance for evaluation

The theorems below hold for every `Host`. To evaluate the definitions on the
fixture, `sampleHost` lower-cases ASCII letters, parses date-only ISO strings
`YYYY-MM-DD` and compares strings by code point. -/

/-- The value of a decimal digit. -/
def digitVal (c : Char) : Option Nat :=
  if c.isDigit then some (c.toNat - 48) else none

/-- Leap years of the proleptic Gregorian calendar. -/
def isLeapYear (y : Nat) : Bool :=
  (y % 4 == 0 && y % 100 != 0) || y % 400 == 0

/-- The number of days of month `m` of year `y`, and `0` for no month. -/
def daysInMonth (y m : Nat) : Nat :=
  if m = 2 then (if isLeapYear y then 29 else 28)
  else if m = 4 ∨ m = 6 ∨ m = 9 ∨ m = 11 then 30
  else if 1 ≤ m ∧ m ≤ 12 then 31
  else 0

/-- The days from 1970-01-01 to the civil date `y`-`m`-`d`. -/
def daysFromCivil (y m d : Nat) : Int :=
  let y1 : Int := if m ≤ 2 then (y : Int) - 1 else y
  let era : Int := y1 / 400
  let yoe : Int := y1 - era * 400
  let mp : Int := if m ≤ 2 then (m : Int) + 9 else (m : Int) - 3
  let doy : Int := (153 * mp + 2) / 5 + (d : Int) - 1
  let doe : Int := yoe * 365 + yoe / 4 - yoe / 100 + doy
  era * 146097 + doe - 719468

/-- The time value of a date-only ISO string, midnight UTC of that day. -/
def parseIsoDate (s : String) : Option Int :=
  match s.data with
  | [y1, y2, y3, y4, s1, m1, m2, s2, d1, d2] =>
    if s1 = '-' ∧ s2 = '-' then
      match digitVal y1, digitVal y2, digitVal y3, digitVal y4,
            digitVal m1, digitVal m2, digitVal d1, digitVal d2 with
      | some a, some b, some c, some d, some e, some f, some g, some i =>
        let y := 1000 * a + 100 * b + 10 * c + d
        let m := 10 * e + f
        let day := 10 * g + i
        if 1 ≤ day ∧ day ≤ daysInMonth y m then
          some (daysFromCivil y m day * 86400000)
        else none
      | _, _, _, _, _, _, _, _ => none
    else none
  | _ => none

/-- Comparison of two strings by code point, as `-1`, `0` or `1`. -/
def codePointCompare (a b : String) : Int :=
  if a < b then -1 else if a = b then 0 else 1

/-- The host instance used to evaluate the definitions. -/
def sampleHost : Host where
  toLowerCase := fun s => ⟨s.data.map Char.toLower⟩
  parseDate := parseIsoDate
  localeCompare := codePointCompare
  localeCompare_swap := by
    intro a b
    unfold codePointCompare
    rcases lt_trichotomy a b with hlt | heq | hgt
    · have h1 : ¬ b < a := lt_asymm hlt
      have h2 : b ≠ a := fun e => (lt_irrefl a) (e ▸ hlt)
      simp [hlt, h1, h2]
    · subst heq
      simp
    · have h1 : ¬ a < b := lt_asymm hgt
      have h2 : a ≠ b := fun e => (lt_irrefl b) (e ▸ hgt)
      simp [hgt, h1, h2]
  localeCompare_trans := by
    intro a b c hab hbc
    have key : ∀ x y : String, codePointCompare x y ≤ 0 ↔ x ≤ y := by
      intro x y
      unfold codePointCompare
      rcases lt_trichotomy x y with hlt | heq | hgt
      · simp [hlt, le_of_lt hlt]
      · subst heq
        simp
      · have h1 : ¬ x < y := lt_asymm hgt
        have h2 : x ≠ y := fun e => (lt_irrefl y) (e ▸ hgt)
        simp [h1, h2, not_le_of_lt hgt]
    rw [key] at hab hbc ⊢
    exact le_trans hab hbc

/-! ## Provider life cycle and sample states -/

/-- The state of the provider at its first render: the `useState`
defaults. -/
def initialState : State where
  certificates := []
  filteredCertificates := []
  isLoading := true
  error := none
  searchQuery := ""
  selectedCategories := []
  selectedTags := []
  selectedUnits := []
  dateRange := { start := none, end_ := none }
  sortBy := "date"
  sortOrder := "desc"
  currentPage := 1

/-- Source `loadCertificates`: the mount effect once its delay has elapsed, followed
by the filter effect that the new `certificates` value triggers. -/
def loadCertificates (h : Host) (s : State) : State :=
  filterEffect h
    { s with certificates := mockCertificates, filteredCertificates := mockCertificates,
             isLoading := false, error := none }

/-- The state of the provider after the fixture has been loaded. -/
def loadedState (h : Host) : State :=
  loadCertificates h initialState

/-- Source `setCurrentPage(p)`; the current page is no dependency of the filter
effect. -/
def setCurrentPage (s : State) (p : Int) : State :=
  { s with currentPage := p }

/-- The page shown when the current page is `p`. -/
def pageAt (s : State) (p : Int) : List Certificate :=
  getPaginatedCertificates (setCurrentPage s p)

/-- Thirteen records: the fixture followed by three more records. -/
def thirteenCertificates : List Certificate :=
  mockCertificates ++
    [{ cert_001 with id := "cert_011", title := "Docker Essentials", date := "2024-08-01" },
     { cert_002 with id := "cert_012", title := "Terraform Associate", date := "2024-07-01" },
     { cert_003 with id := "cert_013", title := "Vue Mastery", date := "2024-06-01" }]

/-- A provider state holding thirteen records, none filtered out. -/
def thirteenState (h : Host) : State :=
  setCertificates h (loadedState h) thirteenCertificates

/-- A record outside the fixture, none of whose searched fields holds a
space. -/
def plainCert : Certificate :=
  { cert_001 with
    id := "cert_100", title := "Rust", category := "Systems", issuer := "Ferrous",
    tags := ["rust"], author := { cert_001.author with name := "Ann" } }

/-- The fixture loaded, the query "spring" typed, then record `cert_001`
deleted. -/
def searchedThenDeleted : State :=
  (deleteCertificate sampleHost
    (setSearchQuery sampleHost (loadedState sampleHost) "spring") "cert_001").1

/-- The fixture loaded, the collection replaced by two records that both
have 12 likes, and the sort key set to the like count. -/
def tiedState : State :=
  setSortBy sampleHost
    (setCertificates sampleHost (loadedState sampleHost)
      [cert_001, { cert_002 with likes := 12 }])
    "likes"

/-- The loaded fixture with ascending direction. -/
def ascendingState : State :=
  setSortOrder sampleHost (loadedState sampleHost) "asc"

/-- The state holding thirteen records, moved to page 2. -/
def pageTwoState : State :=
  setCurrentPage (thirteenState sampleHost) 2

/-- The loaded fixture with a category selected that no record carries. -/
def noMatchState : State :=
  setSelectedCategories sampleHost (loadedState sampleHost) ["Astronomy"]

/-! ## The filter and sort parameters as one type -/

/-- A call of one of the seven setters of a filter or sort parameter. -/
inductive ParamChange where
  | searchQuery (q : String)
  | selectedCategories (cs : List String)
  | selectedTags (ts : List String)
  | selectedUnits (us : List String)
  | dateRange (r : DateRange)
  | sortBy (k : String)
  | sortOrder (o : String)
  deriving DecidableEq, Repr

/-- The state after the setter call. -/
def applyChange (h : Host) (s : State) : ParamChange → State
  | .searchQuery q => setSearchQuery h s q
  | .selectedCategories cs => setSelectedCategories h s cs
  | .selectedTags ts => setSelectedTags h s ts
  | .selectedUnits us => setSelectedUnits h s us
  | .dateRange r => setDateRange h s r
  | .sortBy k => setSortBy h s k
  | .sortOrder o => setSortOrder h s o

/-- The setter call changes the stored value: a string differs from the
stored one; an array or object is a fresh one. -/
def changesParam (s : State) : ParamChange → Bool
  | .searchQuery q => decide (q ≠ s.searchQuery)
  | .sortBy k => decide (k ≠ s.sortBy)
  | .sortOrder o => decide (o ≠ s.sortOrder)
  | _ => true

/-! ## Properties stated in the words of the specification -/

/-- The query `q`, compared case-insensitively, is a substring of `field`. -/
def OccursIn (h : Host) (q field : String) : Prop :=
  (h.toLowerCase q).data <:+: (h.toLowerCase field).data

/-- The query occurs in the title, category, issuer, at least one tag, or
the author name of the record. -/
def TextMatch (h : Host) (q : String) (cert : Certificate) : Prop :=
  OccursIn h q cert.title ∨ OccursIn h q cert.category ∨ OccursIn h q cert.issuer ∨
  (∃ tag ∈ cert.tags, OccursIn h q tag) ∨ OccursIn h q cert.author.name

/-- Both bounds of the date range are set. -/
def bothBoundsSet (r : DateRange) : Bool :=
  truthyOpt r.start && truthyOpt r.end_

/-- The completion date of the record lies within `[start, end]`, both ends
included: the three strings are dates and their time values are in order. -/
def WithinRange (h : Host) (r : DateRange) (cert : Certificate) : Prop :=
  ∃ a b, r.start = some a ∧ r.end_ = some b ∧
    ∃ x d y, h.parseDate a = some x ∧ h.parseDate cert.date = some d ∧
      h.parseDate b = some y ∧ x ≤ d ∧ d ≤ y

/-- Chronological order of two records: both completion dates are dates and
the first is not after the second. -/
def DateLE (h : Host) (a b : Certificate) : Prop :=
  ∃ x y, h.parseDate a.date = some x ∧ h.parseDate b.date = some y ∧ x ≤ y

/-- The order of two records by the sort key `k`: chronological for "date",
numeric for "likes" and "views", the locale comparison for "title", and no
constraint for any other value, for which the comparator returns 0. -/
def KeyLE (h : Host) (k : String) (a b : Certificate) : Prop :=
  if k = "date" then DateLE h a b
  else if k = "likes" then a.likes ≤ b.likes
  else if k = "views" then a.views ≤ b.views
  else if k = "title" then h.localeCompare a.title b.title ≤ 0
  else True

/-- Every record of the list has a completion date that the host parses. -/
def DatesValid (h : Host) (l : List Certificate) : Prop :=
  ∀ c ∈ l, (h.parseDate c.date).isSome = true

/-- A comparator is consistent on a list: swapping the arguments swaps the
sign, and "not after" is transitive. -/
def ConsistentOn {α : Type} (c : α → α → Int) (l : List α) : Prop :=
  (∀ a ∈ l, ∀ b ∈ l, (0 < c a b ↔ c b a < 0)) ∧
  (∀ a ∈ l, ∀ b ∈ l, ∀ d ∈ l, c a b ≤ 0 → c b d ≤ 0 → c a d ≤ 0)

/-- The derived view for a sort direction, all other parameters as in `s`. -/
def viewWithOrder (h : Host) (s : State) (o : String) : List Certificate :=
  derivedView h { s with sortOrder := o }

/-- No two different records of the list tie on the sort key `k`. -/
def NoTies (h : Host) (k : String) (l : List Certificate) : Prop :=
  ∀ a ∈ l, ∀ b ∈ l, sortCompare (comparison h k) a b = 0 → a = b

/-! ## Create -/

/-- A record draft, the `certificateData` argument of `addCertificate`: the
descriptive fields that the certificate form submits, and the fields `id`,
`likes`, `views` and `isLikedByUser` when the object carries them. The date
is `none` when the object has none; the form submits a string, empty when no
date was picked. The form's `file` handle has no counterpart in a
certificate record and is left out. -/
structure Draft where
  title : String
  category : String
  subcategory : String
  issuer : String
  date : Option String
  fileUrl : String
  author : Author
  remarks : String
  links : List String
  tags : List String
  contactsEnabled : Bool
  visibility : String
  id : Option String := none
  likes : Option Int := none
  views : Option Int := none
  isLikedByUser : Option Bool := none
  deriving DecidableEq, Repr

/-- The template literal of the new identifier: "cert_" followed by the decimal
digits of `Date.now()`, a count of milliseconds. -/
def newCertificateId (now : Nat) : String :=
  "cert_" ++ Nat.repr now

/-- The value of `certificateData.date || today`: the draft's date when it is
truthy, else the current day. -/
def draftDate (draft : Draft) (today : String) : String :=
  match draft.date with
  | some d => if truthy d then d else today
  | none => today

/-- The object `newCertificate` built by `addCertificate`: the spread of the
draft, then `id`, `likes`, `views` and `date`, which replace what the draft
carries. Here `now` is `Date.now()` and `today` is
`new Date().toISOString().split('T')[0]`. -/
def newCertificate (draft : Draft) (now : Nat) (today : String) : Certificate where
  id := newCertificateId now
  title := draft.title
  category := draft.category
  subcategory := draft.subcategory
  issuer := draft.issuer
  date := draftDate draft today
  fileUrl := draft.fileUrl
  author := draft.author
  remarks := draft.remarks
  links := draft.links
  tags := draft.tags
  contactsEnabled := draft.contactsEnabled
  likes := 0
  views := 0
  visibility := draft.visibility
  isLikedByUser := draft.isLikedByUser.getD false

/-- Source `addCertificate(certificateData)`: the resulting state and the returned
success status. -/
def addCertificate (h : Host) (s : State) (draft : Draft) (now : Nat) (today : String) :
    State × Bool :=
  let updatedCertificates := newCertificate draft now today :: s.certificates
  ({ setCertificates h s updatedCertificates with isLoading := false }, true)

/-- The lookup of a record by identifier, `certificates.find(c => c.id === id)`. -/
def findCertificate (certs : List Certificate) (certificateId : String) :
    Option Certificate :=
  certs.find? (fun c => c.id == certificateId)

/-- The state after `n` successive calls of `incrementViews` with one
identifier. -/
def incrementViewsTimes (h : Host) (s : State) (certificateId : String) : Nat → State
  | 0 => s
  | n + 1 => incrementViews h (incrementViewsTimes h s certificateId n) certificateId

/-! ## The mutators as one type -/

/-- A call of one of the five mutators, with its arguments and, for Create,
the clock readings it takes. -/
inductive MutatorCall where
  | create (draft : Draft) (now : Nat) (today : String)
  | update (certificateId : String) (updates : Updates)
  | delete (certificateId : String)
  | toggleLike (certificateId : String)
  | incrementViews (certificateId : String)
  deriving DecidableEq, Repr

/-- The state after the mutator call. -/
def applyMutator (h : Host) (s : State) : MutatorCall → State
  | .create draft now today => (addCertificate h s draft now today).1
  | .update certificateId updates => (updateCertificate h s certificateId updates).1
  | .delete certificateId => (deleteCertificate h s certificateId).1
  | .toggleLike certificateId => (toggleLike h s certificateId).1
  | .incrementViews certificateId => incrementViews h s certificateId

/-! ## Analytics -/

/-- An entry of the `categories` table of `mockCerts.js`. -/
structure Category where
  value : String
  label : String
  count : Nat
  deriving DecidableEq, Repr

/-- The table `categories` of the fixture module. -/
def categories : List Category :=
  [{ value := "Development", label := "Development", count := 2 },
   { value := "Cloud", label := "Cloud", count := 1 },
   { value := "Security", label := "Security", count := 1 },
   { value := "Data Science", label := "Data Science", count := 2 },
   { value := "DevOps", label := "DevOps", count := 1 },
   { value := "Business", label := "Business", count := 1 },
   { value := "Design", label := "Design", count := 1 },
   { value := "Management", label := "Management", count := 1 }]

/-- An entry of `categoryData`: the name and the value. The third property,
`color`, is drawn from `Math.random()` and is not part of the embedding. -/
structure CategoryDatum where
  name : String
  value : Nat
  deriving DecidableEq, Repr

/-- The `categoryData` of `getAnalyticsData`, computed in the provider state
`s`: one entry per known category, its value the length of
`getCertificatesByCategory(cat.value)`. -/
def categoryData (_s : State) : List CategoryDatum :=
  categories.map
    (fun cat => { name := cat.label, value := (getCertificatesByCategory cat.value).length })

/-- The number of records of a collection whose category is `category`. -/
def countInCategory (certs : List Certificate) (category : String) : Nat :=
  (certs.filter (fun cert => cert.category == category)).length

/-! ## Sample drafts and states for the mutators -/

/-- The draft of scenario D: title "X", category "Development", issuer "Y",
date "2025-01-01" and a file reference; it also carries an identifier and
counters of its own. -/
def scenarioDraft : Draft where
  title := "X"
  category := "Development"
  subcategory := ""
  issuer := "Y"
  date := some "2025-01-01"
  fileUrl := "/mock/certs/x.pdf"
  author := cert_001.author
  remarks := ""
  links := []
  tags := []
  contactsEnabled := true
  visibility := "public"
  id := some "cert_001"
  likes := some 7
  views := some 9

/-- The loaded fixture after two Create calls made at the same clock
reading. -/
def createdTwice : State :=
  (addCertificate sampleHost
    (addCertificate sampleHost (loadedState sampleHost) scenarioDraft 1730000000000
      "2024-10-27").1
    scenarioDraft 1730000000000 "2024-10-27").1

/-- The loaded fixture after record `cert_004`, the one record of category
"Security", was deleted. -/
def securityDeleted : State :=
  (deleteCertificate sampleHost (loadedState sampleHost) "cert_004").1

/-- A collection of one record that is flagged as liked while its like count
is 0. -/
def likedWithoutLikes : List Certificate :=
  [{ cert_001 with likes := 0, isLikedByUser := true }]

/-! ## Properties of collections in the words of the specification -/

/-- The identifiers of the collection are pairwise distinct. -/
def IdsDistinct (certs : List Certificate) : Prop :=
  (certs.map (fun c => c.id)).Nodup

/-- Every like count and view count of the collection is non-negative. -/
def CountsNonNeg (certs : List Certificate) : Prop :=
  ∀ c ∈ certs, 0 ≤ c.likes ∧ 0 ≤ c.views

/-- The value of a field after a merge: the value the partial set names,
or the old value when the partial set does not name the field. -/
def MergedField {α : Type} (named : Option α) (old result : α) : Prop :=
  (∀ v, named = some v → result = v) ∧ (named = none → result = old)

/-- The record `result` is `old` with each field named in `u` replaced and
every other field unchanged. -/
def MergedRecord (u : Updates) (old result : Certificate) : Prop :=
  MergedField u.id old.id result.id ∧
  MergedField u.title old.title result.title ∧
  MergedField u.category old.category result.category ∧
  MergedField u.subcategory old.subcategory result.subcategory ∧
  MergedField u.issuer old.issuer result.issuer ∧
  MergedField u.date old.date result.date ∧
  MergedField u.fileUrl old.fileUrl result.fileUrl ∧
  MergedField u.author old.author result.author ∧
  MergedField u.remarks old.remarks result.remarks ∧
  MergedField u.links old.links result.links ∧
  MergedField u.tags old.tags result.tags ∧
  MergedField u.contactsEnabled old.contactsEnabled result.contactsEnabled ∧
  MergedField u.likes old.likes result.likes ∧
  MergedField u.views old.views result.views ∧
  MergedField u.visibility old.visibility result.visibility ∧
  MergedField u.isLikedByUser old.isLikedByUser result.isLikedByUser

/-- The record after a like toggle: the flag flipped, the like count up by one
when the record was not liked and down by one when it was, every other
field as before. -/
def toggled (c : Certificate) : Certificate :=
  { c with
    likes := if c.isLikedByUser then c.likes - 1 else c.likes + 1,
    isLikedByUser := !c.isLikedByUser }

/-- The mutator call cannot bring in a negative counter: an Update names no
negative like or view count, and a like toggle does not hit a record that is
flagged as liked while its like count is 0. -/
def KeepsCountsNonNeg (s : State) : MutatorCall → Prop
  | .update _ updates =>
    (∀ v, updates.likes = some v → 0 ≤ v) ∧ (∀ v, updates.views = some v → 0 ≤ v)
  | .toggleLike certificateId =>
    ∀ c, findCertificate s.certificates certificateId = some c →
      c.isLikedByUser = true → 0 < c.likes
  | _ => True

/-- The number that a list of decimal digit characters denotes. -/
def decimalValue (cs : List Char) : Nat :=
  cs.foldl (fun acc c => 10 * acc + (c.toNat - 48)) 0

/-- The collection with the record `cert` replaced by `g cert`, every other
record and the order as before. -/
def updateAt (certs : List Certificate) (cert : Certificate)
    (g : Certificate → Certificate) : List Certificate :=
  certs.map (fun c => if c = cert then g c else c)

/-- The record with its view count raised by `n`, every other field as
before. -/
def viewed (c : Certificate) (n : Nat) : Certificate :=
  { c with views := c.views + n }

/-! ## Certificate details page -/

/-- The lookup of `loadCertificate` in `CertificateDetails.jsx`, run in the
provider state `s`: `mockCertificates.find(c => c.id === id)`. -/
def loadCertificate (_s : State) (certificateId : String) : Option Certificate :=
  mockCertificates.find? (fun c => c.id == certificateId)

/-- The page shows "Certificate Not Found": `if (!certificate)`. -/
def reportsNotFound (s : State) (certificateId : String) : Bool :=
  (loadCertificate s certificateId).isNone

/-- The loaded fixture after the draft of scenario D was created. -/
def scenarioCreated : State :=
  (addCertificate sampleHost (loadedState sampleHost) scenarioDraft 1730000000000
    "2024-10-27").1

/-! ## Update calls in flight -/

/-- The array that a call of `updateCertificate` passes to `setCertificates`
when it resolves: the map of `certificates` as the call's closure holds it,
the collection of the render in which the call was started. -/
def updatedFromSnapshot (snapshot : List Certificate) (certificateId : String)
    (updates : Updates) : List Certificate :=
  snapshot.map
    (fun cert => if cert.id = certificateId then applyUpdates cert updates else cert)

/-- Two calls of `updateCertificate` started in the state `s`, both in
flight at the same time; the call for `idFirst` resolves first and the call
for `idSecond` second. Each resolution stores its array and the filter
effect runs. -/
def resolveInFlight (h : Host) (s : State) (idFirst : String) (uFirst : Updates)
    (idSecond : String) (uSecond : Updates) : State :=
  let afterFirst : State :=
    { setCertificates h s (updatedFromSnapshot s.certificates idFirst uFirst)
      with isLoading := false }
  { setCertificates h afterFirst (updatedFromSnapshot s.certificates idSecond uSecond)
    with isLoading := false }

/-! ## Authentication provider -/

/-- A user record of `mockUsers.js`; its optional `socialLinks` map plays no
part in the provider and is left out. -/
structure User where
  id : String
  name : String
  jobTitle : String
  unit : String
  email : String
  avatarUrl : String
  isManager : Bool
  joinDate : String
  certificationCount : Nat
  bio : String
  skills : List String
  deriving DecidableEq, Repr

/-- Source `hasPermission(permission)` of `AuthContext.jsx`, for the current
user `user`, `none` when it is `null`. -/
def hasPermission (user : Option User) (permission : String) : Bool :=
  match user with
  | none => false
  | some u =>
    if permission = "manage_unit_certs" then u.isManager
    else if permission = "export_data" then u.isManager
    else if permission = "view_analytics" then true
    else if permission = "add_certificate" then true
    else false

/-! ## Certificate form -/

/-- Source `handleAddTag` of `CertificateForm.jsx`: the tag list and the text of
the tag input after the call, from the tag list `tags` and the typed text
`currentTag`. -/
def handleAddTag (h : Host) (tags : List String) (currentTag : String) :
    List String × String :=
  if truthy (trim currentTag) && !(tags.contains (trim currentTag)) then
    (tags ++ [h.toLowerCase (trim currentTag)], "")
  else (tags, currentTag)

/-- The uploaded file held by the form's `file` field. -/
structure FileHandle where
  name : String
  size : Nat
  deriving DecidableEq, Repr

/-- The `formData` state of the certificate form. -/
structure FormData where
  title : String
  category : String
  subcategory : String
  issuer : String
  date : String
  file : Option FileHandle
  fileUrl : String
  links : List String
  remarks : String
  tags : List String
  visibility : String
  contactsEnabled : Bool
  deriving DecidableEq, Repr

/-- Source `validateForm`: the object `newErrors` as the list of its properties in
insertion order, and the returned flag `Object.keys(newErrors).length === 0`. -/
def validateForm (formData : FormData) : List (String × String) × Bool :=
  let e1 : List (String × String) :=
    if !truthy (trim formData.title) then [("title", "Title is required")] else []
  let e2 : List (String × String) :=
    if !truthy formData.category then e1 ++ [("category", "Category is required")] else e1
  let e3 : List (String × String) :=
    if !truthy (trim formData.issuer) then e2 ++ [("issuer", "Issuer is required")] else e2
  let e4 : List (String × String) :=
    if !truthy formData.date then e3 ++ [("date", "Completion date is required")] else e3
  let e5 : List (String × String) :=
    if !formData.file.isSome && !truthy formData.fileUrl then
      e4 ++ [("file", "Certificate file is required")]
    else e4
  (e5, e5.length == 0)

/-- A form with every required field filled in. -/
def filledForm : FormData where
  title := "X"
  category := "Development"
  subcategory := ""
  issuer := "Y"
  date := "2025-01-01"
  file := none
  fileUrl := "/mock/certs/x.pdf"
  links := [""]
  remarks := ""
  tags := []
  visibility := "public"
  contactsEnabled := true

/-! ## Further properties in the words of the specification -/

/-- The text holds a character that is not whitespace. -/
def NonBlank (text : String) : Prop :=
  ∃ c ∈ text.data, isWhiteSpace c = false

/-- The required field `field` of the form is missing. -/
def MissingField (formData : FormData) (field : String) : Prop :=
  (field = "title" ∧ ¬ NonBlank formData.title) ∨
  (field = "category" ∧ formData.category = "") ∨
  (field = "issuer" ∧ ¬ NonBlank formData.issuer) ∨
  (field = "date" ∧ formData.date = "") ∨
  (field = "file" ∧ formData.file = none ∧ formData.fileUrl = "")

/-- The mutator call cannot bring in a second record with an identifier the
collection holds: an Update names no identifier other than the one it
addresses, and a Create takes a clock reading whose identifier the
collection does not hold. -/
def KeepsIdsDistinct (s : State) : MutatorCall → Prop
  | .update certificateId updates => ∀ i, updates.id = some i → i = certificateId
  | .create _ now _ => ∀ c ∈ s.certificates, c.id ≠ newCertificateId now
  | _ => True

/-- Two provider states agree on the collection and on the seven filter and
sort parameters. -/
def SameInputs (s t : State) : Prop :=
  s.certificates = t.certificates ∧ s.searchQuery = t.searchQuery ∧
  s.selectedCategories = t.selectedCategories ∧ s.selectedTags = t.selectedTags ∧
  s.selectedUnits = t.selectedUnits ∧ s.dateRange = t.dateRange ∧
  s.sortBy = t.sortBy ∧ s.sortOrder = t.sortOrder

/-! ## Analytics: monthly series and top issuers

`getAnalyticsData` counts in plain objects, `acc[key] = (acc[key] || 0) + 1`.
Such an object is held as the list of its own properties in creation order.
For a key that names a member of `Object.prototype` the read `acc[key]`
yields that member, which is truthy, so the sum is not a number (for
`__proto__` the assignment then stores nothing); the embedding gives no
result (`none`). Strings are compared by code point, which is the
order of their code units as long as they stay in the Basic Multilingual
Plane. -/

/-- The names of the members of `Object.prototype`. -/
def prototypeNames : List String :=
  ["constructor", "__defineGetter__", "__defineSetter__", "hasOwnProperty",
   "__lookupGetter__", "__lookupSetter__", "isPrototypeOf", "propertyIsEnumerable",
   "toString", "valueOf", "__proto__", "toLocaleString"]

/-- The statement `acc[key] = (acc[key] || 0) + 1` for a key that names no
member of `Object.prototype`: the count of an own property goes up by one,
and a key not yet present becomes the last property, with count 1. -/
def bump : List (String × Nat) → String → List (String × Nat)
  | [], key => [(key, 1)]
  | (k, n) :: rest, key => if k = key then (k, n + 1) :: rest else (k, n) :: bump rest key

/-- One step of the `reduce` that counts keys. -/
def countKey (acc : Option (List (String × Nat))) (key : String) :
    Option (List (String × Nat)) :=
  match acc with
  | none => none
  | some props => if prototypeNames.contains key then none else some (bump props key)

/-- The object built by `keys.reduce((acc, key) => ..., {})`. -/
def tally (keys : List String) : Option (List (String × Nat)) :=
  keys.foldl countKey (some [])

/-- The key is an array index: the canonical decimal form of an integer below
`2^32 - 1`. -/
def isArrayIndex (key : String) : Bool :=
  match key.data with
  | [] => false
  | c :: cs =>
    (c :: cs).all Char.isDigit && (cs.isEmpty || c != '0') &&
      decide (decimalValue (c :: cs) < 4294967295)

/-- Built-in `Object.entries`: the own properties, array-index keys first in
ascending numeric order, then the other keys in creation order. -/
def objectEntries (props : List (String × Nat)) : List (String × Nat) :=
  (props.filter (fun e => isArrayIndex e.1)).insertionSort
      (fun a b => decimalValue a.1.data ≤ decimalValue b.1.data)
    ++ props.filter (fun e => !isArrayIndex e.1)

/-- Built-in `substring(0, 7)` of a date string. -/
def monthKey (date : String) : String :=
  ⟨date.data.take 7⟩

/-- The three-way comparison of two strings by code point. -/
def compareChars : List Char → List Char → Int
  | [], [] => 0
  | [], _ :: _ => -1
  | _ :: _, [] => 1
  | a :: as, b :: bs =>
    if a.toNat < b.toNat then -1
    else if b.toNat < a.toNat then 1
    else compareChars as bs

/-- The string of an entry `[key, count]`, as `sort()` without a comparator
takes it: the key, a comma, the decimal digits of the count. -/
def entryString (e : String × Nat) : String :=
  e.1 ++ "," ++ Nat.repr e.2

/-- The comparison of `sort()` without a comparator, on entries. -/
def defaultCompare (a b : String × Nat) : Option Int :=
  some (compareChars (entryString a).data (entryString b).data)

/-- The entries behind `monthlyChartData`, in the provider state `s`: the
counts per `YYYY-MM` key, sorted, and the last six of them (`slice(-6)`). -/
def monthlyEntries (s : State) : Option (List (String × Nat)) :=
  (tally (s.certificates.map (fun cert => monthKey cert.date))).map
    (fun props =>
      jsSlice (jsSort defaultCompare (objectEntries props)) (-6)
        (jsSort defaultCompare (objectEntries props)).length)

/-- An entry of `monthlyChartData`. -/
structure MonthDatum where
  month : String
  certificates : Nat
  deriving DecidableEq, Repr

/-- The `monthlyChartData` of `getAnalyticsData`; `label key` is the host's
rendering `new Date(key + '-01').toLocaleDateString('en-US', ...)`. -/
def monthlyChartData (label : String → String) (s : State) : Option (List MonthDatum) :=
  (monthlyEntries s).map
    (fun entries => entries.map (fun e => { month := label e.1, certificates := e.2 }))

/-- The comparator `([, a], [, b]) => b - a` of the issuer sort. -/
def issuerCompare (a b : String × Nat) : Option Int :=
  some ((b.2 : Int) - (a.2 : Int))

/-- An entry of `topIssuers`. -/
structure IssuerDatum where
  name : String
  value : Nat
  deriving DecidableEq, Repr

/-- The `topIssuers` of `getAnalyticsData`, in the provider state `s`. -/
def topIssuers (s : State) : Option (List IssuerDatum) :=
  (tally (s.certificates.map (fun cert => cert.issuer))).map
    (fun props =>
      (jsSlice (jsSort issuerCompare (objectEntries props)) 0 5).map
        (fun e => { name := e.1, value := e.2 }))

/-- The date string has the shape `YYYY-MM-DD`: ten characters, digits but
for the two dashes. -/
def wellFormedDate (date : String) : Bool :=
  match date.data with
  | [y1, y2, y3, y4, s1, m1, m2, s2, d1, d2] =>
    y1.isDigit && y2.isDigit && y3.isDigit && y4.isDigit && s1 == '-' &&
      m1.isDigit && m2.isDigit && s2 == '-' && d1.isDigit && d2.isDigit
  | _ => false

/-- The year that a date string or a `YYYY-MM` key starts with. -/
def yearOf (date : String) : Nat :=
  decimalValue (date.data.take 4)

/-- The month of a date string or of a `YYYY-MM` key. -/
def monthOf (date : String) : Nat :=
  decimalValue ((date.data.drop 5).take 2)

/-- The year-month of the first date or key is before that of the second. -/
def YearMonthLT (a b : String) : Prop :=
  yearOf a < yearOf b ∨ (yearOf a = yearOf b ∧ monthOf a < monthOf b)

/-- The number of records of the collection issued by `issuer`. -/
def countByIssuer (certs : List Certificate) (issuer : String) : Nat :=
  (certs.filter (fun cert => cert.issuer == issuer)).length

/-- The number of records of the collection whose completion date has the
year and the month of `key`. -/
def countInMonth (certs : List Certificate) (key : String) : Nat :=
  (certs.filter
    (fun cert => yearOf cert.date == yearOf key && monthOf cert.date == monthOf key)).length

/-- No issuer of the collection names a member of `Object.prototype`. -/
def PlainIssuers (certs : List Certificate) : Prop :=
  ∀ c ∈ certs, prototypeNames.contains c.issuer = false

/-- The value of `acc[key] || 0` for an object held as its property list. -/
def countOf (props : List (String × Nat)) (key : String) : Nat :=
  (props.lookup key).getD 0

/-- The key has the shape `YYYY-MM`: seven characters, digits but for the
dash. -/
def wellFormedKey (key : String) : Bool :=
  match key.data with
  | [y1, y2, y3, y4, s1, m1, m2] =>
    y1.isDigit && y2.isDigit && y3.isDigit && y4.isDigit && s1 == '-' &&
      m1.isDigit && m2.isDigit
  | _ => false

/-- The character is one of the ten digits. -/
def IsDigit (c : Char) : Prop :=
  48 ≤ c.toNat ∧ c.toNat ≤ 57

/-! ## Collections that Update can leave behind -/

/-- The integer has magnitude at most `2^53`, the range within which every
integer is a double. -/
def InExactRange (n : Int) : Prop :=
  -9007199254740992 ≤ n ∧ n ≤ 9007199254740992

/-- The loaded fixture after an Update of `cert_001` whose partial set names
the identifier "cert_002": the first two records carry that identifier. -/
def duplicatedIdState : State :=
  (updateCertificate sampleHost (loadedState sampleHost) "cert_001"
    { id := some "cert_002" }).1

/-- The loaded fixture after an Update of `cert_001` whose partial set names
the like count and the view count `2^53`. -/
def largeCountState : State :=
  (updateCertificate sampleHost (loadedState sampleHost) "cert_001"
    { likes := some 9007199254740992, views := some 9007199254740992 }).1

/-- Four records of the fixture, three of them with another completion
date. -/
def fourDated : List Certificate :=
  [{ cert_001 with date := "2025-03-01" }, cert_002,
   { cert_003 with date := "2025-01-01" }, { cert_004 with date := "2025-02-01" }]

/-- The fixture loaded, the collection replaced by `fourDated`, the text
"not a date" stored as the completion date of `cert_002` by an Update, and
the direction set to ascending; the sort key is the default, "date". -/
def unparsableDateState : State :=
  setSortOrder sampleHost
    (updateCertificate sampleHost
      (setCertificates sampleHost (loadedState sampleHost) fourDated)
      "cert_002" { date := some "not a date" }).1
    "asc"

/-- A form with every required field filled in, the issuer being the text
"constructor". -/
def constructorForm : FormData :=
  { filledForm with issuer := "constructor" }

/-- The record draft with the fields of `constructorForm`. -/
def constructorDraft : Draft :=
  { scenarioDraft with issuer := "constructor", id := none, likes := none, views := none }

/-- The loaded fixture after the Create of `constructorDraft`. -/
def constructorState : State :=
  (addCertificate sampleHost (loadedState sampleHost) constructorDraft 1730000000000
    "2024-10-27").1

set_option maxRecDepth 100000

/-! ## Pagination -/

theorem jsSlice_length_le {α : Type} (xs : List α) (a : Int) :
    (jsSlice xs a (a + 12)).length ≤ 12 := by
  unfold jsSlice
  simp only [List.length_take, List.length_drop]
  split_ifs <;> omega

theorem jsSlice_chunk {α : Type} (xs : List α) (i : Nat) :
    jsSlice xs ((i : Int) * 12) ((i : Int) * 12 + 12) = (xs.drop (12 * i)).take 12 := by
  unfold jsSlice
  have h1 : ¬ ((i : Int) * 12 < 0) := by omega
  have h2 : ¬ ((i : Int) * 12 + 12 < 0) := by omega
  simp only [h1, h2, if_false]
  by_cases hle : 12 * i ≤ xs.length
  · have hk : (min ((i : Int) * 12) (xs.length : Int)).toNat = 12 * i := by omega
    rw [hk, List.take_eq_take]
    simp only [List.length_drop]
    omega
  · have hk : (min ((i : Int) * 12) (xs.length : Int)).toNat = xs.length := by omega
    rw [hk, List.drop_length, List.drop_eq_nil_of_le (by omega)]
    simp only [List.take_nil]

theorem chunks_flatten {α : Type} (xs : List α) (n : Nat) :
    ((List.range n).map (fun i => (xs.drop (12 * i)).take 12)).flatten
      = xs.take (12 * n) := by
  induction n with
  | zero => simp
  | succ n ih =>
    rw [List.range_succ, List.map_append, List.flatten_append, ih]
    rw [Nat.mul_succ, List.take_add]
    simp

theorem pageAt_succ (s : State) (i : Nat) :
    pageAt s ((i : Int) + 1) = (s.filteredCertificates.drop (12 * i)).take 12 := by
  have := jsSlice_chunk s.filteredCertificates i
  simpa [pageAt, setCurrentPage, getPaginatedCertificates, itemsPerPage] using this

theorem length_le_totalPages (s : State) :
    s.filteredCertificates.length ≤ 12 * getTotalPages s := by
  unfold getTotalPages itemsPerPage
  omega

/-- C1: every page holds at most 12 records, the total page count is the
ceiling of the view length over 12, the pages 1 to the total page count
concatenated in order give back the view, and a view of 13 records has a
first page of 12 records, 2 pages, and a second page with the remaining
record. -/
theorem C1_pages_partition_view (s : State) :
    (∀ p : Int, (pageAt s p).length ≤ 12) ∧
    ⌈(s.filteredCertificates.length : ℚ) / 12⌉₊ = getTotalPages s ∧
    ((List.range (getTotalPages s)).map (fun i : Nat => pageAt s ((i : Int) + 1))).flatten
      = s.filteredCertificates ∧
    (s.filteredCertificates.length = 13 →
      (pageAt s 1).length = 12 ∧ getTotalPages s = 2 ∧ (pageAt s 2).length = 1 ∧
      pageAt s 1 ++ pageAt s 2 = s.filteredCertificates) := by
  have htot := length_le_totalPages s
  refine ⟨?_, ?_, ?_, ?_⟩
  · intro p
    simpa [pageAt, setCurrentPage, getPaginatedCertificates, itemsPerPage] using
      jsSlice_length_le s.filteredCertificates ((p - 1) * 12)
  · apply le_antisymm
    · rw [Nat.ceil_le, div_le_iff₀ (by norm_num)]
      exact_mod_cast (by omega : s.filteredCertificates.length ≤ getTotalPages s * 12)
    · have hc := Nat.le_ceil ((s.filteredCertificates.length : ℚ) / 12)
      rw [div_le_iff₀ (by norm_num)] at hc
      have hc2 : s.filteredCertificates.length
          ≤ ⌈(s.filteredCertificates.length : ℚ) / 12⌉₊ * 12 := by
        exact_mod_cast hc
      unfold getTotalPages itemsPerPage
      omega
  · have hfun : (fun i : Nat => pageAt s ((i : Int) + 1))
        = (fun i : Nat => (s.filteredCertificates.drop (12 * i)).take 12) :=
      funext (pageAt_succ s)
    rw [hfun, chunks_flatten, List.take_of_length_le htot]
  · intro h13
    have e1 := pageAt_succ s 0
    have e2 := pageAt_succ s 1
    simp only [Nat.cast_zero, zero_add, Nat.cast_one, mul_zero, List.drop_zero, mul_one]
      at e1 e2
    norm_num at e2
    rw [e1, e2]
    refine ⟨?_, ?_, ?_, ?_⟩
    · simp [h13]
    · unfold getTotalPages itemsPerPage; omega
    · simp [h13]
    · rw [List.take_of_length_le
        (by simp [h13] : (List.drop 12 s.filteredCertificates).length ≤ 12)]
      exact List.take_append_drop 12 _

/-- C1 at the state holding thirteen records: 12 records on page 1, 2 pages,
1 record on page 2. -/
theorem C1_pages_partition_view_witness :
    (thirteenState sampleHost).filteredCertificates.length = 13 ∧
    (pageAt (thirteenState sampleHost) 1).length = 12 ∧
    getTotalPages (thirteenState sampleHost) = 2 ∧
    (pageAt (thirteenState sampleHost) 2).length = 1 ∧
    pageAt (thirteenState sampleHost) 1 ++ pageAt (thirteenState sampleHost) 2
      = (thirteenState sampleHost).filteredCertificates :=
  ⟨by decide, (C1_pages_partition_view (thirteenState sampleHost)).2.2.2 (by decide)⟩

/-! ## The text step -/

/-- C2, evaluated: with the query "spring" active, deleting `cert_001`
removes it from the collection, yet the derived view still shows it, because
the text step filters the fixture instead of the current collection. -/
theorem C2_view_shows_deleted_record :
    searchedThenDeleted.certificates.length = 9 ∧
    cert_001 ∉ searchedThenDeleted.certificates ∧
    searchedThenDeleted.filteredCertificates = [cert_001] := by
  decide

theorem includesChars_iff (s t : List Char) : includesChars s t = true ↔ t <:+: s := by
  induction s with
  | nil => simp [includesChars]
  | cons c cs ih =>
    rw [includesChars, Bool.or_eq_true, ih, List.infix_cons_iff, List.isPrefixOf_iff_prefix]

theorem includes_iff (h : Host) (q field : String) :
    includes (h.toLowerCase field) (h.toLowerCase q) = true ↔ OccursIn h q field :=
  includesChars_iff _ _

theorem matchesSearch_iff (h : Host) (q : String) (cert : Certificate) :
    matchesSearch h (h.toLowerCase q) cert = true ↔ TextMatch h q cert := by
  unfold matchesSearch TextMatch
  simp only [Bool.or_eq_true, includes_iff, List.any_eq_true, or_assoc]

theorem truthy_trim_iff (q : String) :
    truthy (trim q) = true ↔ ∃ c ∈ q.data, isWhiteSpace c = false := by
  unfold truthy trim
  simp only [Bool.not_eq_true', List.isEmpty_eq_false, ne_eq, List.reverse_eq_nil_iff,
    List.dropWhile_eq_nil_iff, List.mem_reverse, not_forall, Bool.not_eq_true]
  constructor
  · rintro ⟨c, hc, hw⟩
    exact ⟨c, (List.dropWhile_sublist _).subset hc, hw⟩
  · rintro ⟨c, hc, hw⟩
    refine ⟨c, ?_, hw⟩
    have hsplit := List.takeWhile_append_dropWhile isWhiteSpace q.data
    rw [← hsplit] at hc
    rcases List.mem_append.mp hc with ht | hd
    · have := List.mem_takeWhile_imp ht
      rw [hw] at this
      exact absurd this (by decide)
    · exact hd

/-- C3, as stated, fails: the query " " is not empty and occurs in no
searched field of `plainCert`, yet the text step keeps the record. -/
theorem C3_blank_query_keeps_unmatched_record :
    (" " : String) ≠ "" ∧
    plainCert ∈ searchStep sampleHost " " [plainCert] ∧
    ¬ TextMatch sampleHost " " plainCert := by
  refine ⟨by decide, by decide, ?_⟩
  rw [← matchesSearch_iff]
  decide

/-- C3, amended: for a query holding a non-whitespace character, and the
collection being the fixture collection, the text step keeps a record of the
collection exactly when the query, compared case-insensitively, is a
substring of its title, category, issuer, one of its tags or its author
name; for a query without a non-whitespace character the step keeps every
record of any collection. -/
theorem C3_text_step_keeps_matching_records (h : Host) (q : String)
    (certs : List Certificate) :
    ((∃ c ∈ q.data, isWhiteSpace c = false) → certs = mockCertificates →
      ∀ cert ∈ certs, (cert ∈ searchStep h q certs ↔ TextMatch h q cert)) ∧
    ((∀ c ∈ q.data, isWhiteSpace c = true) → searchStep h q certs = certs) := by
  constructor
  · intro hq hfix cert hmem
    have ht : truthy (trim q) = true := (truthy_trim_iff q).mpr hq
    subst hfix
    simp only [searchStep, ht, if_true, searchCertificates, List.mem_filter,
      matchesSearch_iff, hmem, true_and]
  · intro hq
    have ht : truthy (trim q) = false := by
      rw [← Bool.not_eq_true, truthy_trim_iff]
      rintro ⟨c, hc, hw⟩
      rw [hq c hc] at hw
      exact absurd hw (by decide)
    simp [searchStep, ht]

/-- C3 amended, at the fixture: the query "Spring" keeps `cert_001`, whose
title holds it. -/
theorem C3_text_step_keeps_matching_records_witness :
    (∃ c ∈ ("Spring" : String).data, isWhiteSpace c = false) ∧
    (cert_001 ∈ searchStep sampleHost "Spring" mockCertificates ↔
      TextMatch sampleHost "Spring" cert_001) :=
  ⟨⟨'S', by decide, by decide⟩,
   (C3_text_step_keeps_matching_records sampleHost "Spring" mockCertificates).1
     ⟨'S', by decide, by decide⟩ rfl cert_001 (by decide)⟩

/-! ## The category, tag and date-range steps -/

theorem searchStep_empty (h : Host) (l : List Certificate) : searchStep h "" l = l := by
  simp [searchStep, truthy, trim]

theorem dateStep_not_set (h : Host) (r : DateRange) (l : List Certificate)
    (hr : bothBoundsSet r = false) : dateStep h r l = l := by
  unfold dateStep
  unfold bothBoundsSet at hr
  cases hs : r.start with
  | none => rfl
  | some a =>
    cases he : r.end_ with
    | none => rfl
    | some b =>
      have hab : (truthy a && truthy b) = false := by simpa [hs, he, truthyOpt] using hr
      simp [hab]

theorem dateStep_set (h : Host) (r : DateRange) (l : List Certificate)
    (hr : bothBoundsSet r = true) :
    ∃ a b, r.start = some a ∧ r.end_ = some b ∧
      dateStep h r l = l.filter (inDateRange h a b) := by
  unfold bothBoundsSet at hr
  cases hs : r.start with
  | none => simp [hs, truthyOpt] at hr
  | some a =>
    cases he : r.end_ with
    | none => simp [he, truthyOpt] at hr
    | some b =>
      have hab : (truthy a && truthy b) = true := by simpa [hs, he, truthyOpt] using hr
      exact ⟨a, b, rfl, rfl, by simp [dateStep, hs, he, hab]⟩

theorem timeLe_iff (a b : Option Int) :
    timeLe a b = true ↔ ∃ x y, a = some x ∧ b = some y ∧ x ≤ y := by
  cases a <;> cases b <;> simp [timeLe]

theorem inDateRange_iff (h : Host) (a b : String) (cert : Certificate) :
    inDateRange h a b cert = true ↔
      ∃ x d y, h.parseDate a = some x ∧ h.parseDate cert.date = some d ∧
        h.parseDate b = some y ∧ x ≤ d ∧ d ≤ y := by
  unfold inDateRange
  simp only [Bool.and_eq_true, timeLe_iff]
  constructor
  · rintro ⟨⟨x, d, hx, hd, hxd⟩, ⟨d2, y, hd2, hy, hdy⟩⟩
    rw [hd] at hd2
    cases hd2
    exact ⟨x, d, y, hx, hd, hy, hxd, hdy⟩
  · rintro ⟨x, d, y, hx, hd, hy, hxd, hdy⟩
    exact ⟨⟨x, d, hx, hd, hxd⟩, ⟨d, y, hd, hy, hdy⟩⟩

theorem derivedView_perm (h : Host) (s : State) :
    (derivedView h s).Perm (filterSteps h s) :=
  List.perm_insertionSort _ _

theorem filterSteps_only_categories (h : Host) (s : State)
    (hq : s.searchQuery = "") (ht : s.selectedTags = []) (hu : s.selectedUnits = [])
    (hd : bothBoundsSet s.dateRange = false) :
    filterSteps h s = categoryStep s.selectedCategories s.certificates := by
  unfold filterSteps
  rw [dateStep_not_set h _ _ hd, hq, searchStep_empty, ht, hu]
  simp [unitStep, tagStep]

theorem filterSteps_only_tags (h : Host) (s : State)
    (hq : s.searchQuery = "") (hc : s.selectedCategories = []) (hu : s.selectedUnits = [])
    (hd : bothBoundsSet s.dateRange = false) :
    filterSteps h s = tagStep s.selectedTags s.certificates := by
  unfold filterSteps
  rw [dateStep_not_set h _ _ hd, hq, searchStep_empty, hc, hu]
  simp [unitStep, categoryStep]

/-- C4: with an empty query and no tag, unit or date filter active, a
non-empty selected-category set keeps exactly the records of the collection
whose category is in the set, an empty set keeps every record, and on the
fixture the set with the one category "Security" leaves one record, whose
category is "Security". -/
theorem C4_category_step_keeps_selected (h : Host) (s : State)
    (hq : s.searchQuery = "") (ht : s.selectedTags = []) (hu : s.selectedUnits = [])
    (hd : bothBoundsSet s.dateRange = false) :
    (s.selectedCategories ≠ [] →
      (derivedView h s).Perm
        (s.certificates.filter (fun c => decide (c.category ∈ s.selectedCategories)))) ∧
    (s.selectedCategories = [] → (derivedView h s).Perm s.certificates) ∧
    ((setSelectedCategories h (loadedState h) ["Security"]).filteredCertificates.length = 1 ∧
      ∀ c ∈ (setSelectedCategories h (loadedState h) ["Security"]).filteredCertificates,
        c.category = "Security") := by
  have hv := derivedView_perm h s
  rw [filterSteps_only_categories h s hq ht hu hd] at hv
  refine ⟨?_, ?_, ?_⟩
  · intro hne
    have hpos : s.selectedCategories.length > 0 := List.length_pos.mpr hne
    have hstep : categoryStep s.selectedCategories s.certificates
        = s.certificates.filter (fun c => decide (c.category ∈ s.selectedCategories)) := by
      simp only [categoryStep, hpos, if_true]
      apply List.filter_congr
      intro c _
      simp
    rw [hstep] at hv
    exact hv
  · intro he
    simpa [categoryStep, he] using hv
  · have hsteps : filterSteps h
        { loadedState h with selectedCategories := ["Security"] } = [cert_004] := by
      rw [filterSteps_only_categories h
        { loadedState h with selectedCategories := ["Security"] } rfl rfl rfl rfl]
      show categoryStep ["Security"] mockCertificates = [cert_004]
      decide
    have hview : (setSelectedCategories h (loadedState h) ["Security"]).filteredCertificates
        = [cert_004] := by
      simp only [setSelectedCategories, filterEffect, derivedView, hsteps, jsSort,
        List.insertionSort, List.orderedInsert]
    rw [hview]
    refine ⟨rfl, ?_⟩
    intro c hc
    rw [List.mem_singleton.mp hc]
    rfl

/-- C4 at the loaded fixture with the category set of "Cloud" alone. -/
theorem C4_category_step_keeps_selected_witness :
    (derivedView sampleHost
        { loadedState sampleHost with selectedCategories := ["Cloud"] }).Perm
      (mockCertificates.filter (fun c => decide (c.category ∈ ["Cloud"]))) :=
  (C4_category_step_keeps_selected sampleHost
    { loadedState sampleHost with selectedCategories := ["Cloud"] }
    rfl rfl rfl rfl).1 (by decide)

/-- C5: with no other filter active, a non-empty selected-tag set keeps
exactly the records of the collection that carry at least one tag of the
set, each as often as the collection holds it, and an empty set keeps every
record. -/
theorem C5_tag_step_keeps_tagged (h : Host) (s : State)
    (hq : s.searchQuery = "") (hc : s.selectedCategories = []) (hu : s.selectedUnits = [])
    (hd : bothBoundsSet s.dateRange = false) :
    (s.selectedTags ≠ [] →
      (derivedView h s).Perm
        (s.certificates.filter (fun c => decide (∃ t ∈ c.tags, t ∈ s.selectedTags)))) ∧
    (s.selectedTags = [] → (derivedView h s).Perm s.certificates) := by
  have hv := derivedView_perm h s
  rw [filterSteps_only_tags h s hq hc hu hd] at hv
  refine ⟨?_, ?_⟩
  · intro hne
    have hpos : s.selectedTags.length > 0 := List.length_pos.mpr hne
    have hstep : tagStep s.selectedTags s.certificates
        = s.certificates.filter (fun c => decide (∃ t ∈ c.tags, t ∈ s.selectedTags)) := by
      simp only [tagStep, hpos, if_true]
      apply List.filter_congr
      intro c _
      rw [Bool.eq_iff_iff]
      simp only [List.any_eq_true, List.contains_iff_exists_mem_beq, beq_iff_eq, exists_eq_right, decide_eq_true_eq]
      constructor
      · rintro ⟨t, h1, a, h2, rfl⟩
        exact ⟨t, h2, h1⟩
      · rintro ⟨t, h1, h2⟩
        exact ⟨t, h2, t, h1, rfl⟩
    rw [hstep] at hv
    exact hv
  · intro he
    simpa [tagStep, he] using hv

/-- C5 at the loaded fixture with the tag set of "aws" and "react". -/
theorem C5_tag_step_keeps_tagged_witness :
    (derivedView sampleHost
        { loadedState sampleHost with selectedTags := ["aws", "react"] }).Perm
      (mockCertificates.filter
        (fun c => decide (∃ t ∈ c.tags, t ∈ ["aws", "react"]))) :=
  (C5_tag_step_keeps_tagged sampleHost
    { loadedState sampleHost with selectedTags := ["aws", "react"] }
    rfl rfl rfl rfl).1 (by decide)

/-- C6: the date-range step filters exactly when both bounds are set. With
both set it keeps, in their order, the records whose completion date lies in
the closed range from start to end; with one bound or none set it returns
its input unchanged, and so does the derived view, whatever the bound that
is set. -/
theorem C6_date_step_needs_both_bounds (h : Host) (s : State) (l : List Certificate) :
    (bothBoundsSet s.dateRange = true →
      (dateStep h s.dateRange l).Sublist l ∧
      ∀ c, c ∈ dateStep h s.dateRange l ↔ c ∈ l ∧ WithinRange h s.dateRange c) ∧
    (bothBoundsSet s.dateRange = false →
      dateStep h s.dateRange l = l ∧
      derivedView h s = derivedView h { s with dateRange := { start := none, end_ := none } })
    := by
  constructor
  · intro hr
    obtain ⟨a, b, hs, he, hstep⟩ := dateStep_set h s.dateRange l hr
    rw [hstep]
    refine ⟨List.filter_sublist l, ?_⟩
    intro c
    rw [List.mem_filter, inDateRange_iff]
    constructor
    · rintro ⟨hc, x, d, y, hx, hd, hy, hxd, hdy⟩
      exact ⟨hc, a, b, hs, he, x, d, y, hx, hd, hy, hxd, hdy⟩
    · rintro ⟨hc, a2, b2, hs2, he2, x, d, y, hx, hd, hy, hxd, hdy⟩
      rw [hs] at hs2
      rw [he] at he2
      cases hs2
      cases he2
      exact ⟨hc, x, d, y, hx, hd, hy, hxd, hdy⟩
  · intro hr
    refine ⟨dateStep_not_set h _ _ hr, ?_⟩
    unfold derivedView filterSteps
    rw [dateStep_not_set h _ _ hr]
    rfl

/-- C6 at the loaded fixture: with start "2025-03-01" alone nothing is
dropped, and with the end "2025-04-30" added, `cert_004` of 2025-03-28 is
kept. -/
theorem C6_date_step_needs_both_bounds_witness :
    dateStep sampleHost { start := some "2025-03-01", end_ := none } mockCertificates
      = mockCertificates ∧
    (cert_004 ∈ dateStep sampleHost
        { start := some "2025-03-01", end_ := some "2025-04-30" } mockCertificates ↔
      cert_004 ∈ mockCertificates ∧
      WithinRange sampleHost
        { start := some "2025-03-01", end_ := some "2025-04-30" } cert_004) :=
  ⟨((C6_date_step_needs_both_bounds sampleHost
      { loadedState sampleHost with dateRange := { start := some "2025-03-01", end_ := none } }
      mockCertificates).2 (by decide)).1,
   ((C6_date_step_needs_both_bounds sampleHost
      { loadedState sampleHost with
        dateRange := { start := some "2025-03-01", end_ := some "2025-04-30" } }
      mockCertificates).1 (by decide)).2 cert_004⟩

/-! ## Sorting -/

theorem sorted_orderedInsert_on {α : Type} (r : α → α → Prop) [DecidableRel r] (a : α) :
    ∀ l : List α, (∀ b ∈ l, r a b ∨ r b a) →
      (∀ b ∈ l, ∀ c ∈ l, r a b → r b c → r a c) →
      l.Sorted r → (l.orderedInsert r a).Sorted r := by
  intro l
  induction l with
  | nil => intro _ _ _; simp
  | cons b t ih =>
    intro htot htr hs
    have hbt : ∀ c ∈ t, r b c := List.rel_of_sorted_cons hs
    have hst : t.Sorted r := List.Sorted.of_cons hs
    rw [List.orderedInsert]
    split_ifs with hab
    · rw [List.Sorted, List.pairwise_cons]
      refine ⟨?_, hs⟩
      intro c hc
      rcases List.mem_cons.mp hc with rfl | hct
      · exact hab
      · exact htr b (List.mem_cons_self _ _) c (List.mem_cons_of_mem _ hct) hab (hbt c hct)
    · have hba : r b a := (htot b (List.mem_cons_self _ _)).resolve_left hab
      have iht := ih (fun c hc => htot c (List.mem_cons_of_mem _ hc))
        (fun c hc d hd => htr c (List.mem_cons_of_mem _ hc) d (List.mem_cons_of_mem _ hd)) hst
      rw [List.Sorted, List.pairwise_cons]
      refine ⟨?_, iht⟩
      intro c hc
      rcases (List.mem_orderedInsert r).mp hc with rfl | hct
      · exact hba
      · exact hbt c hct

theorem sorted_insertionSort_on {α : Type} (r : α → α → Prop) [DecidableRel r] :
    ∀ l : List α, (∀ a ∈ l, ∀ b ∈ l, r a b ∨ r b a) →
      (∀ a ∈ l, ∀ b ∈ l, ∀ c ∈ l, r a b → r b c → r a c) →
      (l.insertionSort r).Sorted r := by
  intro l
  induction l with
  | nil => intro _ _; simp
  | cons a t ih =>
    intro htot htr
    have hmem : ∀ x, x ∈ t.insertionSort r → x ∈ t := fun x hx =>
      (List.perm_insertionSort r t).subset hx
    have iht := ih
      (fun x hx y hy => htot x (List.mem_cons_of_mem _ hx) y (List.mem_cons_of_mem _ hy))
      (fun x hx y hy z hz => htr x (List.mem_cons_of_mem _ hx) y (List.mem_cons_of_mem _ hy)
        z (List.mem_cons_of_mem _ hz))
    rw [List.insertionSort]
    apply sorted_orderedInsert_on r a _ _ _ iht
    · intro b hb
      exact htot a (List.mem_cons_self _ _) b (List.mem_cons_of_mem _ (hmem b hb))
    · intro b hb c hc
      exact htr a (List.mem_cons_self _ _) b (List.mem_cons_of_mem _ (hmem b hb))
        c (List.mem_cons_of_mem _ (hmem c hc))

theorem eq_of_perm_of_sorted_on {α : Type} (r : α → α → Prop) :
    ∀ l₁ l₂ : List α, l₁.Perm l₂ → l₁.Sorted r → l₂.Sorted r →
      (∀ a ∈ l₁, ∀ b ∈ l₁, r a b → r b a → a = b) → l₁ = l₂ := by
  intro l₁
  induction l₁ with
  | nil =>
    intro l₂ hp _ _ _
    exact (List.Perm.nil_eq hp)
  | cons a t₁ ih =>
    intro l₂ hp hs₁ hs₂ hanti
    cases l₂ with
    | nil => exact absurd hp.symm (List.Perm.nil_eq · |> fun e => by cases e)
    | cons b t₂ =>
      have ha : a ∈ b :: t₂ := hp.subset (List.mem_cons_self _ _)
      have hb : b ∈ a :: t₁ := hp.symm.subset (List.mem_cons_self _ _)
      have hab : a = b := by
        rcases List.mem_cons.mp ha with e | hat
        · exact e
        · rcases List.mem_cons.mp hb with e | hbt
          · exact e.symm
          · exact hanti a (List.mem_cons_self _ _) b hb
              (List.rel_of_sorted_cons hs₁ b hbt) (List.rel_of_sorted_cons hs₂ a hat)
      subst hab
      have hp2 : t₁.Perm t₂ := List.Perm.cons_inv hp
      rw [ih t₂ hp2 (List.Sorted.of_cons hs₁) (List.Sorted.of_cons hs₂)
        (fun x hx y hy => hanti x (List.mem_cons_of_mem _ hx) y (List.mem_cons_of_mem _ hy))]

theorem sortCompare_date (h : Host) (a b : Certificate) (x y : Int)
    (ha : h.parseDate a.date = some x) (hb : h.parseDate b.date = some y) :
    sortCompare (comparison h "date") a b = x - y := by
  simp [sortCompare, comparison, ha, hb]

theorem sortLE_asc_iff (h : Host) (k : String) (a b : Certificate) :
    SortLE (compareFn h k "asc") a b ↔ sortCompare (comparison h k) a b ≤ 0 := by
  have hne : ¬ (("asc" : String) = "desc") := by decide
  simp only [SortLE, sortCompare, compareFn, hne, if_false]

theorem sortLE_desc_iff (h : Host) (k : String) (a b : Certificate) :
    SortLE (compareFn h k "desc") a b ↔ 0 ≤ sortCompare (comparison h k) a b := by
  simp only [SortLE, sortCompare, compareFn, if_true]
  cases comparison h k a b with
  | none => simp
  | some v => simp

theorem comparison_consistentOn (h : Host) (k : String) (l : List Certificate)
    (hv : k = "date" → DatesValid h l) :
    ConsistentOn (sortCompare (comparison h k)) l := by
  by_cases hd : k = "date"
  · subst hd
    have hval := hv rfl
    have hx : ∀ a ∈ l, ∃ x, h.parseDate a.date = some x := fun a ha =>
      Option.isSome_iff_exists.mp (hval a ha)
    constructor
    · intro a ha b hb
      obtain ⟨x, ex⟩ := hx a ha
      obtain ⟨y, ey⟩ := hx b hb
      rw [sortCompare_date h a b x y ex ey, sortCompare_date h b a y x ey ex]
      omega
    · intro a ha b hb d hd'
      obtain ⟨x, ex⟩ := hx a ha
      obtain ⟨y, ey⟩ := hx b hb
      obtain ⟨z, ez⟩ := hx d hd'
      rw [sortCompare_date h a b x y ex ey, sortCompare_date h b d y z ey ez,
        sortCompare_date h a d x z ex ez]
      omega
  · by_cases hl : k = "likes"
    · subst hl
      constructor
      · intro a _ b _
        simp only [sortCompare, comparison, hd, if_false, if_true, Option.getD_some]
        omega
      · intro a _ b _ d _
        simp only [sortCompare, comparison, hd, if_false, if_true, Option.getD_some]
        omega
    · by_cases hw : k = "views"
      · subst hw
        constructor
        · intro a _ b _
          simp only [sortCompare, comparison, hd, hl, if_false, if_true, Option.getD_some]
          omega
        · intro a _ b _ d _
          simp only [sortCompare, comparison, hd, hl, if_false, if_true, Option.getD_some]
          omega
      · by_cases ht : k = "title"
        · subst ht
          constructor
          · intro a _ b _
            simp only [sortCompare, comparison, hd, hl, hw, if_false, if_true,
              Option.getD_some]
            exact h.localeCompare_swap _ _
          · intro a _ b _ d _
            simp only [sortCompare, comparison, hd, hl, hw, if_false, if_true,
              Option.getD_some]
            exact h.localeCompare_trans _ _ _
        · constructor
          · intro a _ b _
            simp [sortCompare, comparison, hd, hl, hw, ht]
          · intro a _ b _ d _
            simp [sortCompare, comparison, hd, hl, hw, ht]

theorem keyLE_iff (h : Host) (k : String) (l : List Certificate)
    (hv : k = "date" → DatesValid h l) (a b : Certificate) (ha : a ∈ l) (hb : b ∈ l) :
    sortCompare (comparison h k) a b ≤ 0 ↔ KeyLE h k a b := by
  by_cases hd : k = "date"
  · subst hd
    obtain ⟨x, ex⟩ := Option.isSome_iff_exists.mp (hv rfl a ha)
    obtain ⟨y, ey⟩ := Option.isSome_iff_exists.mp (hv rfl b hb)
    rw [sortCompare_date h a b x y ex ey]
    simp only [KeyLE, if_true, DateLE, ex, ey, Option.some.injEq, exists_and_left,
      exists_eq_left']
    omega
  · by_cases hl : k = "likes"
    · subst hl
      simp only [sortCompare, comparison, KeyLE, hd, if_false, if_true, Option.getD_some]
      omega
    · by_cases hw : k = "views"
      · subst hw
        simp only [sortCompare, comparison, KeyLE, hd, hl, if_false, if_true,
          Option.getD_some]
        omega
      · by_cases ht : k = "title"
        · subst ht
          simp only [sortCompare, comparison, KeyLE, hd, hl, hw, if_false, if_true,
            Option.getD_some]
        · simp [sortCompare, comparison, KeyLE, hd, hl, hw, ht]

theorem jsSort_sorted_asc (h : Host) (k : String) (l : List Certificate)
    (hv : k = "date" → DatesValid h l) :
    (jsSort (compareFn h k "asc") l).Sorted (SortLE (compareFn h k "asc")) := by
  obtain ⟨hswap, htrans⟩ := comparison_consistentOn h k l hv
  apply sorted_insertionSort_on
  · intro a ha b hb
    rw [sortLE_asc_iff, sortLE_asc_iff]
    have := hswap a ha b hb
    omega
  · intro a ha b hb d hd
    rw [sortLE_asc_iff, sortLE_asc_iff, sortLE_asc_iff]
    exact htrans a ha b hb d hd

theorem jsSort_sorted_desc (h : Host) (k : String) (l : List Certificate)
    (hv : k = "date" → DatesValid h l) :
    (jsSort (compareFn h k "desc") l).Sorted (SortLE (compareFn h k "desc")) := by
  obtain ⟨hswap, htrans⟩ := comparison_consistentOn h k l hv
  apply sorted_insertionSort_on
  · intro a ha b hb
    rw [sortLE_desc_iff, sortLE_desc_iff]
    have := hswap a ha b hb
    omega
  · intro a ha b hb d hd
    rw [sortLE_desc_iff, sortLE_desc_iff, sortLE_desc_iff]
    intro h1 h2
    have s1 := hswap b hb a ha
    have s2 := hswap d hd b hb
    have s3 := hswap d hd a ha
    have s4 := hswap a ha d hd
    have t1 := htrans d hd b hb a ha
    omega

/-- C7, as stated, fails. One of four filtered records has the completion
date "not a date", which the host does not parse; every comparison with that
record yields `NaN`, which the sort reads as 0, and the ascending view by
date keeps the record dated 2025-03-01 before the records dated 2025-01-01
and 2025-02-01. -/
theorem C7_unparsable_date_breaks_chronological_order :
    unparsableDateState.sortBy = "date" ∧ unparsableDateState.sortOrder = "asc" ∧
    sampleHost.parseDate "not a date" = none ∧
    sampleHost.parseDate "2025-03-01" = some 1740787200000 ∧
    sampleHost.parseDate "2025-01-01" = some 1735689600000 ∧
    sampleHost.parseDate "2025-02-01" = some 1738368000000 ∧
    filterSteps sampleHost unparsableDateState
      = [{ cert_001 with date := "2025-03-01" }, { cert_002 with date := "not a date" },
         { cert_003 with date := "2025-01-01" }, { cert_004 with date := "2025-02-01" }] ∧
    derivedView sampleHost unparsableDateState
      = [{ cert_001 with date := "2025-03-01" }, { cert_002 with date := "not a date" },
         { cert_003 with date := "2025-01-01" }, { cert_004 with date := "2025-02-01" }] ∧
    unparsableDateState.filteredCertificates = derivedView sampleHost unparsableDateState ∧
    ¬ (derivedView sampleHost unparsableDateState).Sorted
        (KeyLE sampleHost unparsableDateState.sortBy) := by
  have hview : derivedView sampleHost unparsableDateState
      = [{ cert_001 with date := "2025-03-01" }, { cert_002 with date := "not a date" },
         { cert_003 with date := "2025-01-01" }, { cert_004 with date := "2025-02-01" }] := by
    decide
  have hmarch : sampleHost.parseDate "2025-03-01" = some 1740787200000 := by decide
  have hjanuary : sampleHost.parseDate "2025-01-01" = some 1735689600000 := by decide
  refine ⟨by decide, by decide, by decide, hmarch, hjanuary, by decide, by decide, hview,
    by decide, ?_⟩
  intro hsorted
  rw [hview] at hsorted
  have hpair : KeyLE sampleHost "date" { cert_001 with date := "2025-03-01" }
      { cert_003 with date := "2025-01-01" } :=
    (List.pairwise_cons.mp hsorted).1 _ (by simp)
  obtain ⟨x, y, hx, hy, hxy⟩ := hpair
  have hx2 : sampleHost.parseDate "2025-03-01" = some x := hx
  have hy2 : sampleHost.parseDate "2025-01-01" = some y := hy
  rw [hmarch] at hx2
  rw [hjanuary] at hy2
  have ex := Option.some.inj hx2
  have ey := Option.some.inj hy2
  omega

/-- C7, amended: with ascending direction and each of the four sort keys,
the derived view is a permutation of the filtered records, and it is in
non-decreasing order of the key: like counts, view counts, titles under the
locale comparison, and the time values of the completion dates when the host
parses the completion date of every filtered record. -/
theorem C7_ascending_view_is_sorted_permutation (h : Host) (s : State)
    (hasc : s.sortOrder = "asc") :
    (derivedView h s).Perm (filterSteps h s) ∧
    ((s.sortBy = "date" → DatesValid h (filterSteps h s)) →
      (derivedView h s).Sorted (KeyLE h s.sortBy)) := by
  refine ⟨derivedView_perm h s, ?_⟩
  intro hv
  have hs := jsSort_sorted_asc h s.sortBy (filterSteps h s) hv
  unfold derivedView
  rw [hasc]
  refine List.Pairwise.imp_of_mem ?_ hs
  intro a b ha hb hab
  have ha2 : a ∈ filterSteps h s := (List.perm_insertionSort _ _).subset ha
  have hb2 : b ∈ filterSteps h s := (List.perm_insertionSort _ _).subset hb
  rw [sortLE_asc_iff] at hab
  exact (keyLE_iff h s.sortBy _ hv a b ha2 hb2).mp hab

/-- C7 amended, at the loaded fixture sorted by date, ascending. -/
theorem C7_ascending_view_is_sorted_permutation_witness :
    ascendingState.sortOrder = "asc" ∧
    DatesValid sampleHost (filterSteps sampleHost ascendingState) ∧
    (derivedView sampleHost ascendingState).Perm (filterSteps sampleHost ascendingState) ∧
    (derivedView sampleHost ascendingState).Sorted (KeyLE sampleHost ascendingState.sortBy) :=
  have hw := C7_ascending_view_is_sorted_permutation sampleHost ascendingState (by decide)
  ⟨by decide, by unfold DatesValid; decide, hw.1,
   hw.2 (fun _ => by unfold DatesValid; decide)⟩

/-- C8, as stated, fails: two records tie on the like count; the descending
view keeps them in the order of the ascending view, which is not its
reverse. -/
theorem C8_tied_records_are_not_reversed :
    viewWithOrder sampleHost tiedState "asc" = [cert_001, { cert_002 with likes := 12 }] ∧
    viewWithOrder sampleHost tiedState "desc" = [cert_001, { cert_002 with likes := 12 }] ∧
    viewWithOrder sampleHost tiedState "desc"
      ≠ (viewWithOrder sampleHost tiedState "asc").reverse := by
  decide

/-- C8, amended: when no two different filtered records tie on the sort key,
the view computed with descending direction is the reverse of the view
computed with ascending direction. The completion dates are taken to be
dates the host can parse. -/
theorem C8_descending_reverses_without_ties (h : Host) (s : State)
    (hv : s.sortBy = "date" → DatesValid h (filterSteps h s))
    (hnt : NoTies h s.sortBy (filterSteps h s)) :
    viewWithOrder h s "desc" = (viewWithOrder h s "asc").reverse := by
  have hA := jsSort_sorted_asc h s.sortBy (filterSteps h s) hv
  have hD := jsSort_sorted_desc h s.sortBy (filterSteps h s) hv
  obtain ⟨hswap, _⟩ := comparison_consistentOn h s.sortBy (filterSteps h s) hv
  have hpA : (jsSort (compareFn h s.sortBy "asc") (filterSteps h s)).Perm (filterSteps h s) :=
    List.perm_insertionSort _ _
  have hpD : (jsSort (compareFn h s.sortBy "desc") (filterSteps h s)).Perm (filterSteps h s) :=
    List.perm_insertionSort _ _
  show jsSort (compareFn h s.sortBy "desc") (filterSteps h s)
    = (jsSort (compareFn h s.sortBy "asc") (filterSteps h s)).reverse
  apply eq_of_perm_of_sorted_on (SortLE (compareFn h s.sortBy "desc"))
  · exact hpD.trans (hpA.symm.trans (List.reverse_perm _).symm)
  · exact hD
  · rw [List.Sorted, List.pairwise_reverse]
    refine List.Pairwise.imp_of_mem ?_ hA
    intro a b ha hb hab
    rw [sortLE_asc_iff] at hab
    rw [sortLE_desc_iff]
    have := hswap a (hpA.subset ha) b (hpA.subset hb)
    omega
  · intro a ha b hb h1 h2
    rw [sortLE_desc_iff] at h1 h2
    have ha2 := hpD.subset ha
    have hb2 := hpD.subset hb
    have := hswap a ha2 b hb2
    exact hnt a ha2 b hb2 (by omega)

/-- C8 amended, at the loaded fixture sorted by date, where no two records
share a completion date. -/
theorem C8_descending_reverses_without_ties_witness :
    DatesValid sampleHost (filterSteps sampleHost (loadedState sampleHost)) ∧
    NoTies sampleHost "date" (filterSteps sampleHost (loadedState sampleHost)) ∧
    viewWithOrder sampleHost (loadedState sampleHost) "desc"
      = (viewWithOrder sampleHost (loadedState sampleHost) "asc").reverse :=
  ⟨by unfold DatesValid; decide, by unfold NoTies; decide,
   C8_descending_reverses_without_ties sampleHost (loadedState sampleHost)
     (fun _ => by unfold DatesValid; decide) (by unfold NoTies; decide)⟩

/-! ## The current page -/

/-- C9, evaluated: on page 2 of a two-page view, a like or a view increment
of `cert_001` replaces the collection, the filter effect runs again, and the
current page is back to 1. -/
theorem C9_like_and_view_reset_page :
    pageTwoState.currentPage = 2 ∧ getTotalPages pageTwoState = 2 ∧
    (toggleLike sampleHost pageTwoState "cert_001").2 = true ∧
    (toggleLike sampleHost pageTwoState "cert_001").1.currentPage = 1 ∧
    (incrementViews sampleHost pageTwoState "cert_001").currentPage = 1 := by
  decide

theorem filterEffect_page (h : Host) (s : State) :
    (filterEffect h s).currentPage = 1 ∧
    ((filterEffect h s).filteredCertificates ≠ [] →
      1 ≤ (filterEffect h s).currentPage ∧
      (filterEffect h s).currentPage ≤ (getTotalPages (filterEffect h s) : Int)) ∧
    ((filterEffect h s).filteredCertificates = [] →
      getTotalPages (filterEffect h s) = 0) := by
  refine ⟨rfl, ?_, ?_⟩
  · intro hne
    have hlen : 0 < (filterEffect h s).filteredCertificates.length := List.length_pos.mpr hne
    have hp : (filterEffect h s).currentPage = 1 := rfl
    rw [hp]
    unfold getTotalPages itemsPerPage
    omega
  · intro he
    unfold getTotalPages itemsPerPage
    rw [he]
    rfl

theorem applyChange_eq_filterEffect (h : Host) (s : State) (c : ParamChange)
    (hc : changesParam s c = true) : ∃ s2, applyChange h s c = filterEffect h s2 := by
  cases c with
  | searchQuery q =>
    have hne : ¬ q = s.searchQuery := by simpa [changesParam] using hc
    exact ⟨{ s with searchQuery := q }, by
      simp only [applyChange, setSearchQuery, hne, if_false]⟩
  | selectedCategories cs => exact ⟨_, rfl⟩
  | selectedTags ts => exact ⟨_, rfl⟩
  | selectedUnits us => exact ⟨_, rfl⟩
  | dateRange r => exact ⟨_, rfl⟩
  | sortBy k =>
    have hne : ¬ k = s.sortBy := by simpa [changesParam] using hc
    exact ⟨{ s with sortBy := k }, by
      simp only [applyChange, setSortBy, hne, if_false]⟩
  | sortOrder o =>
    have hne : ¬ o = s.sortOrder := by simpa [changesParam] using hc
    exact ⟨{ s with sortOrder := o }, by
      simp only [applyChange, setSortOrder, hne, if_false]⟩

/-- C10, as stated, fails: after a category is selected that no record
carries, the current page is 1 and the total page count is 0, so the page is
outside the range from 1 to the total page count. -/
theorem C10_page_outside_range_when_nothing_matches :
    changesParam (loadedState sampleHost) (.selectedCategories ["Astronomy"]) = true ∧
    applyChange sampleHost (loadedState sampleHost) (.selectedCategories ["Astronomy"])
      = noMatchState ∧
    noMatchState.currentPage = 1 ∧ getTotalPages noMatchState = 0 ∧
    ¬ (1 ≤ noMatchState.currentPage ∧
        noMatchState.currentPage ≤ (getTotalPages noMatchState : Int)) := by
  decide

/-- C10, amended: after any change to a filter or sort parameter the current
page is 1; it lies between 1 and the total page count when at least one
record matches, and when no record matches the total page count is 0. -/
theorem C10_param_change_resets_page (h : Host) (s : State) (c : ParamChange)
    (hc : changesParam s c = true) :
    (applyChange h s c).currentPage = 1 ∧
    ((applyChange h s c).filteredCertificates ≠ [] →
      1 ≤ (applyChange h s c).currentPage ∧
      (applyChange h s c).currentPage ≤ (getTotalPages (applyChange h s c) : Int)) ∧
    ((applyChange h s c).filteredCertificates = [] →
      getTotalPages (applyChange h s c) = 0) := by
  obtain ⟨s2, hs2⟩ := applyChange_eq_filterEffect h s c hc
  rw [hs2]
  exact filterEffect_page h s2

/-- C10 amended, at page 2 of the thirteen-record state when the sort key
changes to the title. -/
theorem C10_param_change_resets_page_witness :
    changesParam pageTwoState (.sortBy "title") = true ∧
    pageTwoState.currentPage = 2 ∧
    (applyChange sampleHost pageTwoState (.sortBy "title")).currentPage = 1 :=
  ⟨by decide, by decide,
   (C10_param_change_resets_page sampleHost pageTwoState (.sortBy "title") (by decide)).1⟩

/-! ## Create -/

theorem addCertificate_certificates (h : Host) (s : State) (draft : Draft) (now : Nat)
    (today : String) :
    (addCertificate h s draft now today).1.certificates
      = newCertificate draft now today :: s.certificates :=
  rfl

/-- C11: Create reports success; the resulting collection holds a record
with the new identifier, zero likes and zero views, whatever identifier and
counters the draft carries, whose descriptive fields are the draft's (the
date when the draft supplies one); and the lookup of the new identifier in
the collection returns that record. -/
theorem C11_create_adds_zeroed_record (h : Host) (s : State) (draft : Draft) (now : Nat)
    (today : String) :
    (addCertificate h s draft now today).2 = true ∧
    ∃ c, c ∈ (addCertificate h s draft now today).1.certificates ∧
      c.id = newCertificateId now ∧ c.likes = 0 ∧ c.views = 0 ∧
      c.title = draft.title ∧ c.category = draft.category ∧ c.issuer = draft.issuer ∧
      c.fileUrl = draft.fileUrl ∧
      (∀ d, draft.date = some d → truthy d = true → c.date = d) ∧
      c.subcategory = draft.subcategory ∧ c.author = draft.author ∧
      c.remarks = draft.remarks ∧ c.links = draft.links ∧ c.tags = draft.tags ∧
      c.contactsEnabled = draft.contactsEnabled ∧ c.visibility = draft.visibility ∧
      findCertificate (addCertificate h s draft now today).1.certificates
        (newCertificateId now) = some c := by
  refine ⟨rfl, newCertificate draft now today, ?_, rfl, rfl, rfl, rfl, rfl, rfl, rfl, ?_,
    rfl, rfl, rfl, rfl, rfl, rfl, rfl, ?_⟩
  · rw [addCertificate_certificates]
    exact List.mem_cons_self _ _
  · intro d hd ht
    simp [newCertificate, draftDate, hd, ht]
  · rw [addCertificate_certificates]
    simp [findCertificate, newCertificate]

/-- C11 at scenario D: the draft with title "X", category "Development",
issuer "Y" and date "2025-01-01", created on the loaded fixture. -/
theorem C11_create_adds_zeroed_record_witness :
    ∃ c, c ∈ (addCertificate sampleHost (loadedState sampleHost) scenarioDraft
          1730000000000 "2024-10-27").1.certificates ∧
      c.id = "cert_1730000000000" ∧ c.likes = 0 ∧ c.views = 0 ∧ c.title = "X" ∧
      c.date = "2025-01-01" ∧
      findCertificate (addCertificate sampleHost (loadedState sampleHost) scenarioDraft
          1730000000000 "2024-10-27").1.certificates "cert_1730000000000" = some c := by
  obtain ⟨_, c, hc, hid, hl, hv, ht, _, _, _, hd, _, _, _, _, _, _, _, hf⟩ :=
    C11_create_adds_zeroed_record sampleHost (loadedState sampleHost) scenarioDraft
      1730000000000 "2024-10-27"
  exact ⟨c, hc, hid.trans (by decide), hl, hv, ht.trans rfl,
    hd "2025-01-01" rfl (by decide), hf⟩

/-- C12: Create prepends. The resulting collection is one record longer, its
first element is the new record, and its remaining elements are the records
of the previous collection in their order. -/
theorem C12_create_prepends (h : Host) (s : State) (draft : Draft) (now : Nat)
    (today : String) :
    (addCertificate h s draft now today).1.certificates.length
      = s.certificates.length + 1 ∧
    (addCertificate h s draft now today).1.certificates.head?
      = some (newCertificate draft now today) ∧
    (newCertificate draft now today).id = newCertificateId now ∧
    (addCertificate h s draft now today).1.certificates.tail = s.certificates := by
  rw [addCertificate_certificates]
  exact ⟨rfl, rfl, rfl, rfl⟩

theorem digitChar_value (d : Nat) (hd : d < 10) : (Nat.digitChar d).toNat - 48 = d := by
  interval_cases d <;> rfl

theorem toDigitsCore_value (fuel : Nat) :
    ∀ (n : Nat) (acc : List Char), n < fuel →
      List.foldl (fun a c => 10 * a + (c.toNat - 48)) 0 (Nat.toDigitsCore 10 fuel n acc)
        = List.foldl (fun a c => 10 * a + (c.toNat - 48)) n acc := by
  induction fuel with
  | zero => intro n acc hn; omega
  | succ fuel ih =>
    intro n acc hn
    have hdig : (Nat.digitChar (n % 10)).toNat - 48 = n % 10 :=
      digitChar_value _ (Nat.mod_lt _ (by norm_num))
    rw [Nat.toDigitsCore]
    by_cases hz : n / 10 = 0
    · simp only [hz, if_true, List.foldl_cons, hdig]
      congr 1
      omega
    · simp only [hz, if_false]
      rw [ih (n / 10) _ (by omega)]
      simp only [List.foldl_cons, hdig]
      congr 1
      omega

theorem decimalValue_repr (n : Nat) : decimalValue (Nat.repr n).data = n := by
  have := toDigitsCore_value (n + 1) n [] (by omega)
  simpa [decimalValue, Nat.repr, Nat.toDigits, List.asString] using this

theorem newCertificateId_inj (a b : Nat) : newCertificateId a = newCertificateId b ↔ a = b := by
  constructor
  · intro hab
    have hdata : (newCertificateId a).data = (newCertificateId b).data := by rw [hab]
    simp only [newCertificateId, String.data_append, List.append_cancel_left_eq] at hdata
    have := congrArg decimalValue hdata
    rwa [decimalValue_repr, decimalValue_repr] at this
  · intro hab
    rw [hab]

theorem idsDistinct_create (h : Host) (s : State) (draft : Draft) (now : Nat)
    (today : String) (hd : IdsDistinct s.certificates)
    (hfresh : ∀ c ∈ s.certificates, c.id ≠ newCertificateId now) :
    IdsDistinct (addCertificate h s draft now today).1.certificates := by
  rw [addCertificate_certificates]
  unfold IdsDistinct at hd ⊢
  rw [List.map_cons, List.nodup_cons]
  refine ⟨?_, hd⟩
  intro hmem
  obtain ⟨c, hc, hid⟩ := List.mem_map.mp hmem
  exact hfresh c hc hid

/-- C13, as stated, fails: on the loaded fixture, whose identifiers are
pairwise distinct, two successive Create calls at the same clock millisecond
assign the same identifier; the second call assigns an identifier that the
collection already holds, and the identifiers are no longer pairwise
distinct. -/
theorem C13_same_millisecond_same_identifier :
    IdsDistinct (loadedState sampleHost).certificates ∧
    newCertificateId 1730000000000 ∈
      (addCertificate sampleHost (loadedState sampleHost) scenarioDraft 1730000000000
        "2024-10-27").1.certificates.map (fun c => c.id) ∧
    (createdTwice.certificates.map (fun c => c.id)).take 2
      = [newCertificateId 1730000000000, newCertificateId 1730000000000] ∧
    ¬ IdsDistinct createdTwice.certificates := by
  unfold IdsDistinct
  decide

/-- C13, amended: the identifier assigned by Create is "cert_" followed by
the clock reading, so two Create calls assign different identifiers exactly
when their clock readings differ. For a collection whose identifiers are
pairwise distinct and none of which is the identifier of the clock reading,
the identifiers stay pairwise distinct after Create, and after a second
Create at a different clock reading whose identifier the collection does
not hold either. -/
theorem C13_identifier_follows_clock (h : Host) (s : State) (draft : Draft) (now : Nat)
    (today : String) (hd : IdsDistinct s.certificates)
    (hfresh : ∀ c ∈ s.certificates, c.id ≠ newCertificateId now) :
    (newCertificate draft now today).id = newCertificateId now ∧
    (∀ now2, newCertificateId now2 = newCertificateId now ↔ now2 = now) ∧
    IdsDistinct (addCertificate h s draft now today).1.certificates ∧
    (∀ (draft2 : Draft) (now2 : Nat) (today2 : String), now2 ≠ now →
      (∀ c ∈ s.certificates, c.id ≠ newCertificateId now2) →
      IdsDistinct
        (addCertificate h (addCertificate h s draft now today).1 draft2 now2
          today2).1.certificates) := by
  have h1 := idsDistinct_create h s draft now today hd hfresh
  refine ⟨rfl, fun now2 => newCertificateId_inj now2 now, h1, ?_⟩
  intro draft2 now2 today2 hne hfresh2
  apply idsDistinct_create h _ draft2 now2 today2 h1
  intro c hc
  rw [addCertificate_certificates] at hc
  rcases List.mem_cons.mp hc with rfl | hc2
  · intro hid
    exact hne ((newCertificateId_inj now now2).mp hid).symm
  · exact hfresh2 c hc2

/-- C13 amended, at the loaded fixture and the clock reading
1730000000000. -/
theorem C13_identifier_follows_clock_witness :
    IdsDistinct (loadedState sampleHost).certificates ∧
    (∀ c ∈ (loadedState sampleHost).certificates, c.id ≠ newCertificateId 1730000000000) ∧
    IdsDistinct
      (addCertificate sampleHost (loadedState sampleHost) scenarioDraft 1730000000000
        "2024-10-27").1.certificates :=
  ⟨by unfold IdsDistinct; decide, by decide,
   (C13_identifier_follows_clock sampleHost (loadedState sampleHost) scenarioDraft
     1730000000000 "2024-10-27" (by unfold IdsDistinct; decide) (by decide)).2.2.1⟩

/-! ## Update and Delete -/

theorem updateCertificate_certificates (h : Host) (s : State) (certificateId : String)
    (u : Updates) :
    (updateCertificate h s certificateId u).1.certificates
      = s.certificates.map
          (fun cert => if cert.id = certificateId then applyUpdates cert u else cert) :=
  rfl

theorem deleteCertificate_certificates (h : Host) (s : State) (certificateId : String) :
    (deleteCertificate h s certificateId).1.certificates
      = s.certificates.filter (fun cert => cert.id != certificateId) :=
  rfl

theorem mergedField_getD {α : Type} (named : Option α) (old : α) :
    MergedField named old (named.getD old) := by
  cases named with
  | none => exact ⟨fun v hv => Option.noConfusion hv, fun _ => rfl⟩
  | some w => exact ⟨fun v hv => (Option.some.inj hv) ▸ rfl, fun hn => by cases hn⟩

theorem mergedRecord_applyUpdates (u : Updates) (old : Certificate) :
    MergedRecord u old (applyUpdates old u) :=
  ⟨mergedField_getD _ _, mergedField_getD _ _, mergedField_getD _ _, mergedField_getD _ _,
   mergedField_getD _ _, mergedField_getD _ _, mergedField_getD _ _, mergedField_getD _ _,
   mergedField_getD _ _, mergedField_getD _ _, mergedField_getD _ _, mergedField_getD _ _,
   mergedField_getD _ _, mergedField_getD _ _, mergedField_getD _ _, mergedField_getD _ _⟩

/-- C14: Update yields a collection of the same length and order; position
by position, a record that carries the identifier has each field named in
the partial set replaced by the given value and every field not named
unchanged, and a record with another identifier is unchanged. -/
theorem C14_update_merges_matching_records (h : Host) (s : State) (certificateId : String)
    (u : Updates) :
    (updateCertificate h s certificateId u).1.certificates.length
      = s.certificates.length ∧
    List.Forall₂
      (fun old result =>
        (old.id = certificateId → MergedRecord u old result) ∧
        (old.id ≠ certificateId → result = old))
      s.certificates (updateCertificate h s certificateId u).1.certificates := by
  rw [updateCertificate_certificates]
  refine ⟨List.length_map _ _, ?_⟩
  rw [List.forall₂_map_right_iff, List.forall₂_same]
  intro c _
  by_cases hid : c.id = certificateId
  · rw [if_pos hid]
    exact ⟨fun _ => mergedRecord_applyUpdates u c, fun hne => absurd hid hne⟩
  · rw [if_neg hid]
    exact ⟨fun he => absurd he hid, fun _ => rfl⟩

/-- C14 at the loaded fixture: Update of `cert_001` with a new title keeps the
ten records in place. -/
theorem C14_update_merges_matching_records_witness :
    (updateCertificate sampleHost (loadedState sampleHost) "cert_001"
      { title := some "Spring Boot" }).1.certificates.length = 10 ∧
    List.Forall₂
      (fun old result =>
        (old.id = "cert_001" → MergedRecord { title := some "Spring Boot" } old result) ∧
        (old.id ≠ "cert_001" → result = old))
      (loadedState sampleHost).certificates
      (updateCertificate sampleHost (loadedState sampleHost) "cert_001"
        { title := some "Spring Boot" }).1.certificates :=
  ⟨(C14_update_merges_matching_records sampleHost (loadedState sampleHost) "cert_001"
      { title := some "Spring Boot" }).1.trans (by decide),
   (C14_update_merges_matching_records sampleHost (loadedState sampleHost) "cert_001"
      { title := some "Spring Boot" }).2⟩

/-- C15, as stated, fails: no record of the fixture carries "cert_999", and
Update with that identifier leaves the collection unchanged but reports
success. -/
theorem C15_update_of_unknown_identifier_reports_success :
    (∀ c ∈ (loadedState sampleHost).certificates, c.id ≠ "cert_999") ∧
    (updateCertificate sampleHost (loadedState sampleHost) "cert_999"
      { title := some "Z" }).1.certificates = (loadedState sampleHost).certificates ∧
    (updateCertificate sampleHost (loadedState sampleHost) "cert_999"
      { title := some "Z" }).2 ≠ false := by
  decide

/-- C15, amended: Update called with an identifier that no record of the
collection carries leaves the collection unchanged and reports success. -/
theorem C15_update_of_unknown_identifier (h : Host) (s : State) (certificateId : String)
    (u : Updates) (habsent : ∀ c ∈ s.certificates, c.id ≠ certificateId) :
    (updateCertificate h s certificateId u).1.certificates = s.certificates ∧
    (updateCertificate h s certificateId u).2 = true := by
  refine ⟨?_, rfl⟩
  rw [updateCertificate_certificates]
  conv_rhs => rw [← List.map_id s.certificates]
  apply List.map_congr_left
  intro c hc
  simp [habsent c hc]

/-- C15 amended, at the loaded fixture and the identifier "cert_999". -/
theorem C15_update_of_unknown_identifier_witness :
    (∀ c ∈ (loadedState sampleHost).certificates, c.id ≠ "cert_999") ∧
    (updateCertificate sampleHost (loadedState sampleHost) "cert_999"
      { likes := some 3 }).1.certificates = (loadedState sampleHost).certificates ∧
    (updateCertificate sampleHost (loadedState sampleHost) "cert_999"
      { likes := some 3 }).2 = true :=
  ⟨by decide,
   C15_update_of_unknown_identifier sampleHost (loadedState sampleHost) "cert_999"
     { likes := some 3 } (by decide)⟩

/-- C16: Delete reports success and yields the collection without the
records that carry the identifier, the other records unchanged and in their
order; for an identifier that no record carries the collection and its
length are unchanged; and a second Delete of the same identifier changes
nothing, in the collection and in the whole provider state. -/
theorem C16_delete_removes_by_identifier (h : Host) (s : State) (certificateId : String) :
    (deleteCertificate h s certificateId).2 = true ∧
    (deleteCertificate h s certificateId).1.certificates
      = s.certificates.filter (fun c => decide (c.id ≠ certificateId)) ∧
    (deleteCertificate h s certificateId).1.certificates.Sublist s.certificates ∧
    ((∀ c ∈ s.certificates, c.id ≠ certificateId) →
      (deleteCertificate h s certificateId).1.certificates = s.certificates ∧
      (deleteCertificate h s certificateId).1.certificates.length
        = s.certificates.length) ∧
    (deleteCertificate h (deleteCertificate h s certificateId).1 certificateId).1
      = (deleteCertificate h s certificateId).1 := by
  have hfilter : (deleteCertificate h s certificateId).1.certificates
      = s.certificates.filter (fun c => decide (c.id ≠ certificateId)) := by
    rw [deleteCertificate_certificates]
    apply List.filter_congr
    intro c _
    by_cases hc : c.id = certificateId <;> simp [hc]
  refine ⟨rfl, hfilter, ?_, ?_, ?_⟩
  · rw [hfilter]
    exact List.filter_sublist _
  · intro habsent
    have hsame : (deleteCertificate h s certificateId).1.certificates = s.certificates := by
      rw [hfilter, List.filter_eq_self]
      intro c hc
      simpa using habsent c hc
    exact ⟨hsame, by rw [hsame]⟩
  · simp [deleteCertificate, setCertificates, filterEffect, derivedView, filterSteps,
      List.filter_filter]

/-- C16 at scenario E: Delete of "cert_999", which no fixture record
carries. -/
theorem C16_delete_removes_by_identifier_witness :
    (∀ c ∈ (loadedState sampleHost).certificates, c.id ≠ "cert_999") ∧
    (deleteCertificate sampleHost (loadedState sampleHost) "cert_999").2 = true ∧
    (deleteCertificate sampleHost (loadedState sampleHost) "cert_999").1.certificates.length
      = (loadedState sampleHost).certificates.length :=
  ⟨by decide,
   (C16_delete_removes_by_identifier sampleHost (loadedState sampleHost) "cert_999").1,
   ((C16_delete_removes_by_identifier sampleHost (loadedState sampleHost)
      "cert_999").2.2.2.1 (by decide)).2⟩

/-! ## Collections with pairwise distinct identifiers -/

theorem eq_of_id_eq {l : List Certificate} (hd : IdsDistinct l) {a b : Certificate}
    (ha : a ∈ l) (hb : b ∈ l) (hid : a.id = b.id) : a = b :=
  List.inj_on_of_nodup_map hd ha hb hid

theorem findCertificate_of_mem {l : List Certificate} (hd : IdsDistinct l)
    {cert : Certificate} (hc : cert ∈ l) : findCertificate l cert.id = some cert := by
  induction l with
  | nil => cases hc
  | cons a t ih =>
    unfold findCertificate
    rw [List.find?_cons]
    by_cases hid : a.id = cert.id
    · have hac : a = cert := eq_of_id_eq hd (List.mem_cons_self _ _) hc hid
      simp [hac]
    · have hne : (a.id == cert.id) = false := by simpa using hid
      rw [hne]
      have hct : cert ∈ t := by
        rcases List.mem_cons.mp hc with e | e
        · exact absurd (congrArg Certificate.id e).symm hid
        · exact e
      have hdt : IdsDistinct t := by
        unfold IdsDistinct at hd ⊢
        exact (List.nodup_cons.mp hd).2
      exact ih hdt hct

theorem findCertificate_absent {l : List Certificate} {certificateId : String}
    (habsent : ∀ c ∈ l, c.id ≠ certificateId) : findCertificate l certificateId = none := by
  unfold findCertificate
  rw [List.find?_eq_none]
  intro c hc
  simpa using habsent c hc

theorem map_by_id_eq_updateAt {l : List Certificate} (hd : IdsDistinct l)
    {cert : Certificate} (hc : cert ∈ l) (g : Certificate → Certificate) :
    l.map (fun c => if c.id = cert.id then g c else c) = updateAt l cert g := by
  unfold updateAt
  apply List.map_congr_left
  intro c hcl
  by_cases hcc : c = cert
  · subst hcc
    simp
  · have hid : ¬ c.id = cert.id := fun e => hcc (eq_of_id_eq hd hcl hc e)
    rw [if_neg hid, if_neg hcc]

theorem updateAt_congr (l : List Certificate) (cert : Certificate)
    (g g2 : Certificate → Certificate) (hg : g cert = g2 cert) :
    updateAt l cert g = updateAt l cert g2 := by
  unfold updateAt
  apply List.map_congr_left
  intro c _
  by_cases hcc : c = cert
  · subst hcc
    simp [hg]
  · rw [if_neg hcc, if_neg hcc]

theorem updateAt_self (l : List Certificate) (cert : Certificate)
    (g : Certificate → Certificate) (hg : g cert = cert) : updateAt l cert g = l := by
  unfold updateAt
  conv_rhs => rw [← List.map_id l]
  apply List.map_congr_left
  intro c _
  by_cases hcc : c = cert
  · subst hcc
    simp [hg]
  · simp [hcc]

theorem updateAt_ids (l : List Certificate) (cert : Certificate)
    (g : Certificate → Certificate) (hg : (g cert).id = cert.id) :
    (updateAt l cert g).map (fun c => c.id) = l.map (fun c => c.id) := by
  unfold updateAt
  rw [List.map_map]
  apply List.map_congr_left
  intro c _
  by_cases hcc : c = cert
  · subst hcc
    simp [hg]
  · simp [hcc]

theorem idsDistinct_updateAt {l : List Certificate} (hd : IdsDistinct l)
    (cert : Certificate) (g : Certificate → Certificate) (hg : (g cert).id = cert.id) :
    IdsDistinct (updateAt l cert g) := by
  unfold IdsDistinct at hd ⊢
  rw [updateAt_ids l cert g hg]
  exact hd

theorem mem_updateAt {l : List Certificate} {cert : Certificate} (hc : cert ∈ l)
    (g : Certificate → Certificate) : g cert ∈ updateAt l cert g := by
  unfold updateAt
  exact List.mem_map.mpr ⟨cert, hc, by simp⟩

theorem updateAt_updateAt {l : List Certificate} (hd : IdsDistinct l)
    {cert : Certificate} (hc : cert ∈ l) (g g2 : Certificate → Certificate)
    (hg : (g cert).id = cert.id) :
    updateAt (updateAt l cert g) (g cert) g2 = updateAt l cert (fun c => g2 (g c)) := by
  unfold updateAt
  rw [List.map_map]
  apply List.map_congr_left
  intro c hcl
  by_cases hcc : c = cert
  · subst hcc
    simp
  · have hne : ¬ c = g cert := by
      intro e
      apply hcc
      apply eq_of_id_eq hd hcl hc
      rw [e, hg]
    simp [hcc, hne]

theorem updateAt_forall₂ (l : List Certificate) (cert : Certificate)
    (g : Certificate → Certificate) :
    List.Forall₂ (fun old result => (old = cert → result = g old) ∧ (old ≠ cert → result = old))
      l (updateAt l cert g) := by
  unfold updateAt
  rw [List.forall₂_map_right_iff, List.forall₂_same]
  intro c _
  by_cases hcc : c = cert
  · rw [if_pos hcc]
    exact ⟨fun _ => rfl, fun hne => absurd hcc hne⟩
  · rw [if_neg hcc]
    exact ⟨fun e => absurd e hcc, fun _ => rfl⟩

/-! ## ToggleLike and IncrementViews -/

theorem roundToDouble_exact (n : Int) (hr : InExactRange n) : roundToDouble n = n := by
  obtain ⟨h1, h2⟩ := hr
  unfold roundToDouble
  by_cases hlt : n.natAbs < 9007199254740992
  · have hu : spacingFrom 1024 n.natAbs 1 = 1 := by
      show (if n.natAbs / 1 < 9007199254740992 then 1 else _) = 1
      rw [Nat.div_one, if_pos hlt]
    simp only [hu, Nat.div_one, Nat.mod_one, Nat.mul_zero, Nat.lt_one_iff, if_true, Nat.mul_one]
    exact Int.sign_mul_natAbs n
  · have hm : n.natAbs = 9007199254740992 := by omega
    rcases Int.natAbs_eq n with e | e
    · rw [hm] at e
      subst e
      decide
    · rw [hm] at e
      subst e
      decide

theorem roundToDouble_nonneg (n : Int) (hn : 0 ≤ n) : 0 ≤ roundToDouble n := by
  unfold roundToDouble
  exact Int.mul_nonneg (Int.sign_nonneg.mpr hn) (Int.ofNat_nonneg _)

theorem toggled_toggled (c : Certificate) : toggled (toggled c) = c := by
  cases c with
  | mk id title category subcategory issuer date fileUrl author remarks links tags
      contactsEnabled likes views visibility isLikedByUser =>
    cases isLikedByUser <;> simp [toggled]

theorem toggleLike_certificates (h : Host) (s : State) (cert : Certificate)
    (hd : IdsDistinct s.certificates) (hc : cert ∈ s.certificates)
    (hr : InExactRange (toggled cert).likes) :
    (toggleLike h s cert.id).2 = true ∧
    (toggleLike h s cert.id).1.certificates = updateAt s.certificates cert toggled := by
  have hfind : s.certificates.find? (fun c => c.id == cert.id) = some cert :=
    findCertificate_of_mem hd hc
  unfold toggleLike
  rw [hfind]
  refine ⟨rfl, ?_⟩
  show (updateCertificate h s cert.id _).1.certificates = _
  rw [updateCertificate_certificates, map_by_id_eq_updateAt hd hc]
  apply updateAt_congr
  have hx := roundToDouble_exact _ hr
  cases hflag : cert.isLikedByUser
  · simp only [toggled, hflag, Bool.false_eq_true, if_false] at hx
    simp [applyUpdates, toggled, hflag, numAdd, hx]
  · simp only [toggled, hflag, if_true] at hx
    simp [applyUpdates, toggled, hflag, numSub, hx]

theorem incrementViews_certificates (h : Host) (s : State) (cert : Certificate)
    (hd : IdsDistinct s.certificates) (hc : cert ∈ s.certificates)
    (hr : InExactRange (cert.views + 1)) :
    (incrementViews h s cert.id).certificates
      = updateAt s.certificates cert (fun c => viewed c 1) := by
  have hfind : s.certificates.find? (fun c => c.id == cert.id) = some cert :=
    findCertificate_of_mem hd hc
  unfold incrementViews
  rw [hfind]
  show (updateCertificate h s cert.id _).1.certificates = _
  rw [updateCertificate_certificates, map_by_id_eq_updateAt hd hc]
  apply updateAt_congr
  simp [applyUpdates, viewed, numAdd, roundToDouble_exact _ hr]

theorem incrementViewsTimes_certificates (h : Host) (s : State) (cert : Certificate)
    (hd : IdsDistinct s.certificates) (hc : cert ∈ s.certificates) (n : Nat)
    (hlo : -9007199254740992 ≤ cert.views) (hhi : cert.views + n ≤ 9007199254740992) :
    (incrementViewsTimes h s cert.id n).certificates
      = updateAt s.certificates cert (fun c => viewed c n) := by
  induction n with
  | zero =>
    rw [updateAt_self]
    · rfl
    · simp [viewed]
  | succ n ih =>
    have hhi2 : cert.views + (n : Int) ≤ 9007199254740992 := by
      push_cast at hhi
      omega
    have ih2 := ih hhi2
    have hid : (viewed cert n).id = cert.id := rfl
    have hd2 : IdsDistinct (incrementViewsTimes h s cert.id n).certificates := by
      rw [ih2]
      exact idsDistinct_updateAt hd cert _ hid
    have hc2 : viewed cert n ∈ (incrementViewsTimes h s cert.id n).certificates := by
      rw [ih2]
      exact mem_updateAt hc _
    have hr : InExactRange ((viewed cert n).views + 1) := by
      show -9007199254740992 ≤ cert.views + (n : Int) + 1 ∧
        cert.views + (n : Int) + 1 ≤ 9007199254740992
      push_cast at hhi
      omega
    have step := incrementViews_certificates h (incrementViewsTimes h s cert.id n)
      (viewed cert n) hd2 hc2 hr
    rw [hid] at step
    show (incrementViews h (incrementViewsTimes h s cert.id n) cert.id).certificates = _
    rw [step, ih2, updateAt_updateAt hd hc _ _ hid]
    apply updateAt_congr
    simp only [viewed, Nat.cast_add, Nat.cast_one, Certificate.mk.injEq, true_and, and_true]
    omega

/-- C17, as stated, fails. With two records that carry the identifier
"cert_002", the like toggle reads the first of them (12 likes, not liked) and
stores its new count and flag in both: the second record, `cert_002` with 24
likes, ends with 13 likes, and after a second toggle with 12. With a like
count of `2^53` the sum `likes + 1` is rounded back to `2^53`: the count does
not change, and the second toggle leaves it one below the start. -/
theorem C17_toggle_like_writes_the_first_match_into_all :
    duplicatedIdState.certificates[1]? = some cert_002 ∧
    cert_002.likes = 24 ∧ cert_002.isLikedByUser = false ∧
    (toggleLike sampleHost duplicatedIdState "cert_002").1.certificates[1]?
      = some { cert_002 with likes := 13, isLikedByUser := true } ∧
    (toggleLike sampleHost (toggleLike sampleHost duplicatedIdState "cert_002").1
        "cert_002").1.certificates[1]?
      = some { cert_002 with likes := 12, isLikedByUser := false } ∧
    largeCountState.certificates[0]?
      = some { cert_001 with likes := 9007199254740992, views := 9007199254740992 } ∧
    (toggleLike sampleHost largeCountState "cert_001").1.certificates[0]?
      = some { cert_001 with
          likes := 9007199254740992, views := 9007199254740992, isLikedByUser := true } ∧
    (toggleLike sampleHost (toggleLike sampleHost largeCountState "cert_001").1
        "cert_001").1.certificates[0]?
      = some { cert_001 with likes := 9007199254740991, views := 9007199254740992 } := by
  decide

/-- C17, amended: for a collection with pairwise distinct identifiers and a
record of it whose like count, before and after the change, has magnitude at
most `2^53`, ToggleLike reports success and replaces that record by the
record with the liked flag flipped and the like count one higher when it was
not liked, one lower when it was liked, all other fields and all other
records being unchanged; a second ToggleLike restores the record and the
collection. -/
theorem C17_toggle_like_flips_flag_and_count (h : Host) (s : State) (cert : Certificate)
    (hd : IdsDistinct s.certificates) (hc : cert ∈ s.certificates)
    (hr : InExactRange cert.likes) (hr2 : InExactRange (toggled cert).likes) :
    (toggleLike h s cert.id).2 = true ∧
    List.Forall₂
      (fun old result => (old = cert → result = toggled old) ∧ (old ≠ cert → result = old))
      s.certificates (toggleLike h s cert.id).1.certificates ∧
    (toggled cert).isLikedByUser = !cert.isLikedByUser ∧
    (cert.isLikedByUser = false → (toggled cert).likes = cert.likes + 1) ∧
    (cert.isLikedByUser = true → (toggled cert).likes = cert.likes - 1) ∧
    { toggled cert with likes := cert.likes, isLikedByUser := cert.isLikedByUser } = cert ∧
    findCertificate (toggleLike h (toggleLike h s cert.id).1 cert.id).1.certificates cert.id
      = some cert ∧
    (toggleLike h (toggleLike h s cert.id).1 cert.id).1.certificates = s.certificates := by
  obtain ⟨hok, hfirst⟩ := toggleLike_certificates h s cert hd hc hr2
  have hid : (toggled cert).id = cert.id := rfl
  have hd2 : IdsDistinct (toggleLike h s cert.id).1.certificates := by
    rw [hfirst]
    exact idsDistinct_updateAt hd cert _ hid
  have hc2 : toggled cert ∈ (toggleLike h s cert.id).1.certificates := by
    rw [hfirst]
    exact mem_updateAt hc _
  have hr3 : InExactRange (toggled (toggled cert)).likes := by
    rw [toggled_toggled]
    exact hr
  have hsecond := (toggleLike_certificates h (toggleLike h s cert.id).1 (toggled cert)
    hd2 hc2 hr3).2
  rw [hid] at hsecond
  have hback : (toggleLike h (toggleLike h s cert.id).1 cert.id).1.certificates
      = s.certificates := by
    rw [hsecond, hfirst, updateAt_updateAt hd hc _ _ hid]
    exact updateAt_self _ _ _ (toggled_toggled cert)
  refine ⟨hok, ?_, rfl, ?_, ?_, rfl, ?_, hback⟩
  · rw [hfirst]
    exact updateAt_forall₂ _ _ _
  · intro hf
    simp [toggled, hf]
  · intro ht
    simp [toggled, ht]
  · rw [hback]
    exact findCertificate_of_mem hd hc

/-- C17 amended, at scenario C: `cert_001` of the loaded fixture has 12 likes
and is not liked; one ToggleLike gives 13 likes and liked, a second one 12
likes and not liked. -/
theorem C17_toggle_like_flips_flag_and_count_witness :
    IdsDistinct (loadedState sampleHost).certificates ∧
    cert_001 ∈ (loadedState sampleHost).certificates ∧
    InExactRange cert_001.likes ∧ InExactRange (toggled cert_001).likes ∧
    cert_001.likes = 12 ∧ cert_001.isLikedByUser = false ∧
    (toggled cert_001).likes = 12 + 1 ∧ (toggled cert_001).isLikedByUser = true ∧
    findCertificate
      (toggleLike sampleHost (toggleLike sampleHost (loadedState sampleHost) "cert_001").1
        "cert_001").1.certificates "cert_001" = some cert_001 :=
  have hw := C17_toggle_like_flips_flag_and_count sampleHost (loadedState sampleHost)
    cert_001 (by unfold IdsDistinct; decide) (by decide) (by unfold InExactRange; decide)
    (by unfold InExactRange; decide)
  ⟨by unfold IdsDistinct; decide, by decide, by unfold InExactRange; decide,
   by unfold InExactRange; decide, rfl, rfl, hw.2.2.2.1 rfl, hw.2.2.1, hw.2.2.2.2.2.2.1⟩

/-- C19, as stated, fails. With two records that carry the identifier
"cert_002", the call reads the view count of the first of them (123) and
stores 124 in both: the second record, `cert_002` with 234 views, ends with
124. With a view count of `2^53` the sum `views + 1` is rounded back to
`2^53`: one call, and three calls, leave the count as it was. -/
theorem C19_increment_views_writes_the_first_match_into_all :
    duplicatedIdState.certificates[1]? = some cert_002 ∧ cert_002.views = 234 ∧
    (incrementViews sampleHost duplicatedIdState "cert_002").certificates[1]?
      = some { cert_002 with views := 124 } ∧
    largeCountState.certificates[0]?
      = some { cert_001 with likes := 9007199254740992, views := 9007199254740992 } ∧
    (incrementViews sampleHost largeCountState "cert_001").certificates[0]?
      = some { cert_001 with likes := 9007199254740992, views := 9007199254740992 } ∧
    (incrementViewsTimes sampleHost largeCountState "cert_001" 3).certificates[0]?
      = some { cert_001 with likes := 9007199254740992, views := 9007199254740992 } := by
  decide

/-- C19, amended: for a collection with pairwise distinct identifiers and a
record of it whose view count is at least `-2^53` and, raised by `n`, at most
`2^53`, `n` successive IncrementViews calls replace that record by the record
with the view count `n` higher, and one call, when `n` is not 0, by the
record with the view count one higher, all other fields and all other
records being unchanged; for an identifier that no record carries the state
is unchanged. -/
theorem C19_increment_views_adds_one (h : Host) (s : State) (cert : Certificate) (n : Nat)
    (hd : IdsDistinct s.certificates) (hc : cert ∈ s.certificates)
    (hlo : -9007199254740992 ≤ cert.views) (hhi : cert.views + n ≤ 9007199254740992) :
    (1 ≤ n → List.Forall₂
      (fun old result => (old = cert → result = viewed old 1) ∧ (old ≠ cert → result = old))
      s.certificates (incrementViews h s cert.id).certificates) ∧
    List.Forall₂
      (fun old result => (old = cert → result = viewed old n) ∧ (old ≠ cert → result = old))
      s.certificates (incrementViewsTimes h s cert.id n).certificates ∧
    (viewed cert 1).views = cert.views + 1 ∧
    (viewed cert n).views = cert.views + n ∧
    { viewed cert n with views := cert.views } = cert ∧
    (∀ certificateId, (∀ c ∈ s.certificates, c.id ≠ certificateId) →
      incrementViews h s certificateId = s) := by
  refine ⟨?_, ?_, ?_, rfl, rfl, ?_⟩
  · intro hn
    have hr : InExactRange (cert.views + 1) := by
      constructor <;> omega
    rw [incrementViews_certificates h s cert hd hc hr]
    exact updateAt_forall₂ _ _ _
  · rw [incrementViewsTimes_certificates h s cert hd hc n hlo hhi]
    exact updateAt_forall₂ _ _ _
  · simp [viewed]
  · intro certificateId habsent
    have hfind : s.certificates.find? (fun c => c.id == certificateId) = none :=
      findCertificate_absent habsent
    unfold incrementViews
    rw [hfind]

/-- C19 amended, at the loaded fixture: three IncrementViews calls on
`cert_002`, which has 234 views, give 237 views. -/
theorem C19_increment_views_adds_one_witness :
    IdsDistinct (loadedState sampleHost).certificates ∧
    cert_002 ∈ (loadedState sampleHost).certificates ∧
    cert_002.views = 234 ∧
    -9007199254740992 ≤ cert_002.views ∧ cert_002.views + (3 : Nat) ≤ 9007199254740992 ∧
    (viewed cert_002 3).views = 234 + 3 ∧
    List.Forall₂
      (fun old result =>
        (old = cert_002 → result = viewed old 1) ∧ (old ≠ cert_002 → result = old))
      (loadedState sampleHost).certificates
      (incrementViews sampleHost (loadedState sampleHost) "cert_002").certificates ∧
    List.Forall₂
      (fun old result =>
        (old = cert_002 → result = viewed old 3) ∧ (old ≠ cert_002 → result = old))
      (loadedState sampleHost).certificates
      (incrementViewsTimes sampleHost (loadedState sampleHost) "cert_002" 3).certificates :=
  have hw := C19_increment_views_adds_one sampleHost (loadedState sampleHost) cert_002 3
    (by unfold IdsDistinct; decide) (by decide) (by decide) (by decide)
  ⟨by unfold IdsDistinct; decide, by decide, rfl, by decide, by decide, hw.2.2.2.1,
   hw.1 (by decide), hw.2.1⟩

/-! ## Non-negative counters -/

theorem countsNonNeg_update (h : Host) (s : State) (certificateId : String) (u : Updates)
    (hs : CountsNonNeg s.certificates)
    (hl : ∀ v, u.likes = some v → 0 ≤ v) (hv : ∀ v, u.views = some v → 0 ≤ v) :
    CountsNonNeg (updateCertificate h s certificateId u).1.certificates := by
  rw [updateCertificate_certificates]
  intro c hc
  obtain ⟨old, hold, rfl⟩ := List.mem_map.mp hc
  have hnn := hs old hold
  by_cases hid : old.id = certificateId
  · rw [if_pos hid]
    constructor
    · show 0 ≤ u.likes.getD old.likes
      cases hul : u.likes with
      | none => exact hnn.1
      | some v => exact hl v hul
    · show 0 ≤ u.views.getD old.views
      cases huv : u.views with
      | none => exact hnn.2
      | some v => exact hv v huv
  · rw [if_neg hid]
    exact hnn

/-- C18, as stated, fails: all counters of the loaded fixture are
non-negative, and an Update whose partial set names `likes = -1` leaves a
negative like count; so does a ToggleLike on a record that is flagged as
liked while its like count is 0. -/
theorem C18_update_can_store_negative_count :
    CountsNonNeg (loadedState sampleHost).certificates ∧
    ¬ CountsNonNeg
      (applyMutator sampleHost (loadedState sampleHost)
        (.update "cert_001" { likes := some (-1) })).certificates ∧
    CountsNonNeg likedWithoutLikes ∧
    ¬ CountsNonNeg
      (applyMutator sampleHost
        (setCertificates sampleHost (loadedState sampleHost) likedWithoutLikes)
        (.toggleLike "cert_001")).certificates := by
  unfold CountsNonNeg
  decide

/-- C18, amended: for a collection in which all like and view counts are
non-negative, every like and view count is still non-negative after Create,
Delete and IncrementViews, after an Update whose partial set names no
negative like or view count, and after a ToggleLike unless it hits a record
that is flagged as liked while its like count is 0. -/
theorem C18_counts_stay_non_negative (h : Host) (s : State) (call : MutatorCall)
    (hs : CountsNonNeg s.certificates) (hcall : KeepsCountsNonNeg s call) :
    CountsNonNeg (applyMutator h s call).certificates := by
  cases call with
  | create draft now today =>
    show CountsNonNeg (addCertificate h s draft now today).1.certificates
    rw [addCertificate_certificates]
    intro c hc
    rcases List.mem_cons.mp hc with rfl | hc2
    · exact ⟨le_refl _, le_refl _⟩
    · exact hs c hc2
  | update certificateId updates =>
    exact countsNonNeg_update h s certificateId updates hs hcall.1 hcall.2
  | delete certificateId =>
    show CountsNonNeg (deleteCertificate h s certificateId).1.certificates
    rw [deleteCertificate_certificates]
    intro c hc
    exact hs c (List.mem_filter.mp hc).1
  | toggleLike certificateId =>
    show CountsNonNeg (toggleLike h s certificateId).1.certificates
    unfold toggleLike
    cases hfind : s.certificates.find? (fun c => c.id == certificateId) with
    | none => exact hs
    | some cert =>
      have hmem : cert ∈ s.certificates := List.mem_of_find?_eq_some hfind
      have hpos := hcall cert hfind
      have hnn := hs cert hmem
      apply countsNonNeg_update h s certificateId _ hs
      · intro v hv
        have hv2 : (if cert.isLikedByUser = true then numSub cert.likes 1
            else numAdd cert.likes 1) = v :=
          Option.some.inj hv
        rw [← hv2]
        by_cases hflag : cert.isLikedByUser = true
        · rw [if_pos hflag]
          have := hpos hflag
          exact roundToDouble_nonneg _ (by omega)
        · rw [if_neg hflag]
          exact roundToDouble_nonneg _ (by omega)
      · intro v hv
        cases hv
  | incrementViews certificateId =>
    show CountsNonNeg (incrementViews h s certificateId).certificates
    unfold incrementViews
    cases hfind : s.certificates.find? (fun c => c.id == certificateId) with
    | none => exact hs
    | some cert =>
      have hmem : cert ∈ s.certificates := List.mem_of_find?_eq_some hfind
      have hnn := hs cert hmem
      apply countsNonNeg_update h s certificateId _ hs
      · intro v hv
        cases hv
      · intro v hv
        have hv2 : numAdd cert.views 1 = v := Option.some.inj hv
        rw [← hv2]
        exact roundToDouble_nonneg _ (by omega)

/-- C18 amended, at the loaded fixture and a ToggleLike of `cert_001`, which
is not flagged as liked. -/
theorem C18_counts_stay_non_negative_witness :
    CountsNonNeg (loadedState sampleHost).certificates ∧
    KeepsCountsNonNeg (loadedState sampleHost) (.toggleLike "cert_001") ∧
    CountsNonNeg
      (applyMutator sampleHost (loadedState sampleHost) (.toggleLike "cert_001")).certificates :=
  have hs : CountsNonNeg (loadedState sampleHost).certificates := by
    unfold CountsNonNeg; decide
  have hcall : KeepsCountsNonNeg (loadedState sampleHost) (.toggleLike "cert_001") := by
    intro c hfind hflag
    have hc : c = cert_001 := by
      have h1 : findCertificate (loadedState sampleHost).certificates "cert_001"
          = some cert_001 := by decide
      rw [h1] at hfind
      exact (Option.some.inj hfind).symm
    rw [hc]
    decide
  ⟨hs, hcall,
   C18_counts_stay_non_negative sampleHost (loadedState sampleHost) (.toggleLike "cert_001")
     hs hcall⟩

/-! ## Analytics -/

/-- C20, evaluated: after the one record of category "Security" was deleted,
the collection holds no record of that category, yet the histogram still
reports 1 for it, because `getCertificatesByCategory` counts the fixture;
the histogram is the same in every provider state. -/
theorem C20_histogram_counts_the_fixture :
    countInCategory securityDeleted.certificates "Security" = 0 ∧
    (categoryData securityDeleted).find? (fun d => d.name == "Security")
      = some { name := "Security", value := 1 } ∧
    (∀ s : State, categoryData s = categoryData securityDeleted) := by
  refine ⟨by decide, by decide, fun _ => rfl⟩

/-! ## Certificate details lookup -/

/-- C23, evaluated: the details lookup searches the fixture. The record that
Create added is in the collection, yet the page reports it as not found, and
the record that Delete removed is no longer in the collection, yet the page
still finds it. -/
theorem C23_details_lookup_reads_the_fixture :
    (findCertificate scenarioCreated.certificates "cert_1730000000000").isSome = true ∧
    reportsNotFound scenarioCreated "cert_1730000000000" = true ∧
    findCertificate securityDeleted.certificates "cert_004" = none ∧
    reportsNotFound securityDeleted "cert_004" = false := by
  decide

/-! ## Update calls in flight -/

theorem resolveInFlight_certificates (h : Host) (s : State) (a : String) (ua : Updates)
    (b : String) (ub : Updates) :
    (resolveInFlight h s a ua b ub).certificates
      = s.certificates.map
          (fun cert => if cert.id = b then applyUpdates cert ub else cert) :=
  rfl

/-- C24, as stated, fails: Updates of the titles of `cert_001` and `cert_002`
are started on the loaded fixture and are in flight together. When the call
for `cert_001` resolves first, `cert_001` ends with its old title; when it
resolves last, `cert_002` ends with its old title. -/
theorem C24_update_resolved_first_is_lost :
    (findCertificate
        (resolveInFlight sampleHost (loadedState sampleHost)
          "cert_001" { title := some "A1" } "cert_002" { title := some "B2" }).certificates
        "cert_001").map (fun c => c.title) = some "Spring Boot Professional Certificate" ∧
    (findCertificate
        (resolveInFlight sampleHost (loadedState sampleHost)
          "cert_001" { title := some "A1" } "cert_002" { title := some "B2" }).certificates
        "cert_002").map (fun c => c.title) = some "B2" ∧
    (findCertificate
        (resolveInFlight sampleHost (loadedState sampleHost)
          "cert_002" { title := some "B2" } "cert_001" { title := some "A1" }).certificates
        "cert_002").map (fun c => c.title) = some "AWS Solutions Architect Associate" := by
  decide

/-- C24, amended: of two Update calls that are in flight at the same time,
both started from the same collection snapshot, the one that resolves last
decides the collection. Position by position, a record that carries the
identifier of that call has the call's fields merged, and every other
record, the one addressed by the call that resolved first included, is as
in the snapshot. -/
theorem C24_update_resolved_last_wins (h : Host) (s : State) (a : String) (ua : Updates)
    (b : String) (ub : Updates) :
    (resolveInFlight h s a ua b ub).certificates
      = (updateCertificate h s b ub).1.certificates ∧
    List.Forall₂
      (fun old result =>
        (old.id = b → MergedRecord ub old result) ∧ (old.id ≠ b → result = old))
      s.certificates (resolveInFlight h s a ua b ub).certificates := by
  refine ⟨rfl, ?_⟩
  rw [resolveInFlight_certificates, List.forall₂_map_right_iff, List.forall₂_same]
  intro c _
  by_cases hid : c.id = b
  · rw [if_pos hid]
    exact ⟨fun _ => mergedRecord_applyUpdates ub c, fun hne => absurd hid hne⟩
  · rw [if_neg hid]
    exact ⟨fun he => absurd he hid, fun _ => rfl⟩

/-! ## Identifier uniqueness -/

theorem idsDistinct_update (h : Host) (s : State) (certificateId : String) (u : Updates)
    (hu : ∀ i, u.id = some i → i = certificateId) (hd : IdsDistinct s.certificates) :
    IdsDistinct (updateCertificate h s certificateId u).1.certificates := by
  rw [updateCertificate_certificates]
  unfold IdsDistinct at hd ⊢
  have hids : (s.certificates.map
      (fun cert => if cert.id = certificateId then applyUpdates cert u else cert)).map
        (fun c => c.id) = s.certificates.map (fun c => c.id) := by
    rw [List.map_map]
    apply List.map_congr_left
    intro c _
    by_cases hid : c.id = certificateId
    · simp only [Function.comp, if_pos hid]
      show u.id.getD c.id = c.id
      cases hui : u.id with
      | none => rfl
      | some i => rw [Option.getD_some, hu i hui, hid]
    · simp only [Function.comp, if_neg hid]
  rw [hids]
  exact hd

/-- C25, as stated, fails: the identifiers of the loaded fixture are
pairwise distinct, and an Update of `cert_001` whose partial set names the
identifier "cert_002" leaves two records with that identifier. -/
theorem C25_update_can_duplicate_an_identifier :
    IdsDistinct (loadedState sampleHost).certificates ∧
    ¬ IdsDistinct
      (updateCertificate sampleHost (loadedState sampleHost) "cert_001"
        { id := some "cert_002" }).1.certificates := by
  unfold IdsDistinct
  decide

/-- C25, amended: if the identifiers of the collection are pairwise
distinct, they are pairwise distinct after Delete, ToggleLike and
IncrementViews with any identifier argument, and after an Update whose
partial set names no identifier other than the one the call addresses. -/
theorem C25_identifiers_stay_distinct (h : Host) (s : State) (call : MutatorCall)
    (hd : IdsDistinct s.certificates) (hcall : KeepsIdsDistinct s call) :
    IdsDistinct (applyMutator h s call).certificates := by
  cases call with
  | create draft now today => exact idsDistinct_create h s draft now today hd hcall
  | update certificateId updates => exact idsDistinct_update h s certificateId updates hcall hd
  | delete certificateId =>
    show IdsDistinct (deleteCertificate h s certificateId).1.certificates
    rw [deleteCertificate_certificates]
    unfold IdsDistinct at hd ⊢
    exact List.Nodup.sublist ((List.filter_sublist _).map _) hd
  | toggleLike certificateId =>
    show IdsDistinct (toggleLike h s certificateId).1.certificates
    unfold toggleLike
    cases hfind : s.certificates.find? (fun c => c.id == certificateId) with
    | none => exact hd
    | some cert =>
      exact idsDistinct_update h s certificateId _ (fun i hi => Option.noConfusion hi) hd
  | incrementViews certificateId =>
    show IdsDistinct (incrementViews h s certificateId).certificates
    unfold incrementViews
    cases hfind : s.certificates.find? (fun c => c.id == certificateId) with
    | none => exact hd
    | some cert =>
      exact idsDistinct_update h s certificateId _ (fun i hi => Option.noConfusion hi) hd

/-- C25 amended, at the loaded fixture and an Update of the title of
`cert_001`. -/
theorem C25_identifiers_stay_distinct_witness :
    IdsDistinct (loadedState sampleHost).certificates ∧
    KeepsIdsDistinct (loadedState sampleHost)
      (.update "cert_001" { title := some "Spring Boot" }) ∧
    IdsDistinct
      (applyMutator sampleHost (loadedState sampleHost)
        (.update "cert_001" { title := some "Spring Boot" })).certificates :=
  ⟨by unfold IdsDistinct; decide, fun i hi => Option.noConfusion hi,
   C25_identifiers_stay_distinct sampleHost (loadedState sampleHost)
     (.update "cert_001" { title := some "Spring Boot" })
     (by unfold IdsDistinct; decide) (fun i hi => Option.noConfusion hi)⟩

/-- C24 amended, at the loaded fixture: the call for `cert_002` resolves last
and its title is stored. -/
theorem C24_update_resolved_last_wins_witness :
    (resolveInFlight sampleHost (loadedState sampleHost)
        "cert_001" { title := some "A1" } "cert_002" { title := some "B2" }).certificates
      = (updateCertificate sampleHost (loadedState sampleHost) "cert_002"
          { title := some "B2" }).1.certificates :=
  (C24_update_resolved_last_wins sampleHost (loadedState sampleHost)
    "cert_001" { title := some "A1" } "cert_002" { title := some "B2" }).1

/-! ## Idempotence of the derivation -/

theorem chain_orderedInsert {α : Type} (r : α → α → Prop) [DecidableRel r]
    (htot : ∀ a b, r a b ∨ r b a) (a : α) :
    ∀ l : List α, l.Chain' r → (l.orderedInsert r a).Chain' r := by
  intro l
  induction l with
  | nil => intro _; simp
  | cons b t ih =>
    intro hc
    rw [List.orderedInsert]
    split_ifs with hab
    · exact List.Chain'.cons hab hc
    · have hba : r b a := (htot a b).resolve_left hab
      have iht := ih (List.Chain'.tail hc)
      cases t with
      | nil => simpa using hba
      | cons c u =>
        rw [List.orderedInsert] at iht ⊢
        split_ifs at iht ⊢ with hac
        · exact List.Chain'.cons hba iht
        · exact List.Chain'.cons (List.Chain'.rel_head hc) iht

theorem chain_insertionSort {α : Type} (r : α → α → Prop) [DecidableRel r]
    (htot : ∀ a b, r a b ∨ r b a) : ∀ l : List α, (l.insertionSort r).Chain' r := by
  intro l
  induction l with
  | nil => simp
  | cons a t ih =>
    rw [List.insertionSort]
    exact chain_orderedInsert r htot a _ ih

theorem insertionSort_eq_of_chain {α : Type} (r : α → α → Prop) [DecidableRel r] :
    ∀ l : List α, l.Chain' r → l.insertionSort r = l := by
  intro l
  induction l with
  | nil => intro _; rfl
  | cons a t ih =>
    intro hc
    rw [List.insertionSort, ih (List.Chain'.tail hc)]
    cases t with
    | nil => rfl
    | cons b u =>
      rw [List.orderedInsert, if_pos (List.Chain'.rel_head hc)]

theorem sortCompare_comparison_total (h : Host) (k : String) (a b : Certificate) :
    (sortCompare (comparison h k) a b ≤ 0 ∨ sortCompare (comparison h k) b a ≤ 0) ∧
    (0 ≤ sortCompare (comparison h k) a b ∨ 0 ≤ sortCompare (comparison h k) b a) := by
  unfold sortCompare comparison
  by_cases hd : k = "date"
  · subst hd
    simp only [if_true]
    cases h.parseDate a.date <;> cases h.parseDate b.date <;> simp
    omega
  · by_cases hl : k = "likes"
    · subst hl
      simp only [hd, if_false, if_true, Option.getD_some]
      omega
    · by_cases hw : k = "views"
      · subst hw
        simp only [hd, hl, if_false, if_true, Option.getD_some]
        omega
      · by_cases ht : k = "title"
        · subst ht
          simp only [hd, hl, hw, if_false, if_true, Option.getD_some]
          have s1 := h.localeCompare_swap a.title b.title
          have s2 := h.localeCompare_swap b.title a.title
          omega
        · simp [hd, hl, hw, ht]

theorem sortLE_total (h : Host) (k o : String) (a b : Certificate) :
    SortLE (compareFn h k o) a b ∨ SortLE (compareFn h k o) b a := by
  have ht := sortCompare_comparison_total h k a b
  by_cases ho : o = "desc"
  · subst ho
    rw [sortLE_desc_iff, sortLE_desc_iff]
    exact ht.2
  · have e : ∀ x y, SortLE (compareFn h k o) x y ↔ sortCompare (comparison h k) x y ≤ 0 := by
      intro x y
      simp only [SortLE, sortCompare, compareFn, ho, if_false]
    rw [e, e]
    exact ht.1

theorem jsSort_derivedView (h : Host) (s : State) :
    jsSort (compareFn h s.sortBy s.sortOrder) (derivedView h s) = derivedView h s :=
  insertionSort_eq_of_chain _ _
    (chain_insertionSort _ (sortLE_total h s.sortBy s.sortOrder) _)

theorem condFilter_fix {c : Prop} [Decidable c] {p : Certificate → Bool}
    {v l : List Certificate} (hv : ∀ x ∈ v, x ∈ (if c then l.filter p else l)) :
    (if c then v.filter p else v) = v := by
  by_cases hc : c
  · rw [if_pos hc] at hv ⊢
    exact List.filter_eq_self.mpr (fun x hx => (List.mem_filter.mp (hv x hx)).2)
  · rw [if_neg hc]

theorem condFilter_subset {c : Prop} [Decidable c] {p : Certificate → Bool}
    {l : List Certificate} {x : Certificate} (hx : x ∈ (if c then l.filter p else l)) :
    x ∈ l := by
  by_cases hc : c
  · rw [if_pos hc] at hx
    exact (List.mem_filter.mp hx).1
  · rw [if_neg hc] at hx
    exact hx

theorem dateStep_as_if (h : Host) (r : DateRange) (l : List Certificate) :
    dateStep h r l
      = if bothBoundsSet r = true then
          l.filter (inDateRange h (r.start.getD "") (r.end_.getD ""))
        else l := by
  by_cases hr : bothBoundsSet r = true
  · rw [if_pos hr]
    obtain ⟨a, b, hs, he, hstep⟩ := dateStep_set h r l hr
    rw [hstep, hs, he]
    rfl
  · rw [if_neg hr]
    exact dateStep_not_set h r l (by simpa using hr)

theorem filterSteps_of_view (h : Host) (s : State) (v : List Certificate)
    (hq : truthy (trim s.searchQuery) = false) (hv : ∀ x ∈ v, x ∈ filterSteps h s) :
    filterSteps h { s with certificates := v } = v := by
  unfold filterSteps at hv ⊢
  simp only [searchStep, hq, dateStep_as_if, categoryStep, tagStep, unitStep] at hv ⊢
  have h4 := hv
  have h3 : ∀ x ∈ v, x ∈ _ := fun x hx => condFilter_subset (h4 x hx)
  have h2 : ∀ x ∈ v, x ∈ _ := fun x hx => condFilter_subset (h3 x hx)
  have h1 : ∀ x ∈ v, x ∈ _ := fun x hx => condFilter_subset (h2 x hx)
  simp only [Bool.false_eq_true, if_false] at h1 h2 h3 h4 ⊢
  rw [condFilter_fix h1, condFilter_fix h2, condFilter_fix h3, condFilter_fix h4]

theorem derivedView_of_view (h : Host) (s : State) :
    derivedView h { s with certificates := derivedView h s } = derivedView h s := by
  by_cases hq : truthy (trim s.searchQuery) = true
  · have hsteps : filterSteps h { s with certificates := derivedView h s }
        = filterSteps h s := by
      simp only [filterSteps, searchStep, hq, if_true]
    show jsSort (compareFn h s.sortBy s.sortOrder)
      (filterSteps h { s with certificates := derivedView h s }) = derivedView h s
    rw [hsteps]
    rfl
  · have hq2 : truthy (trim s.searchQuery) = false := by simpa using hq
    have hsteps := filterSteps_of_view h s (derivedView h s) hq2
      (fun x hx => (derivedView_perm h s).subset hx)
    show jsSort (compareFn h s.sortBy s.sortOrder)
      (filterSteps h { s with certificates := derivedView h s }) = derivedView h s
    rw [hsteps]
    exact jsSort_derivedView h s

/-- C26: the derivation applied to its own output, with the same parameters,
gives the same view; the filter effect run a second time leaves the provider
state as it is; and two provider states that agree on the collection and on
the seven parameters have the same derived view. -/
theorem C26_derivation_is_idempotent (h : Host) (s t : State) :
    derivedView h { s with certificates := derivedView h s } = derivedView h s ∧
    filterEffect h (filterEffect h s) = filterEffect h s ∧
    (SameInputs s t → derivedView h s = derivedView h t) := by
  refine ⟨derivedView_of_view h s, rfl, ?_⟩
  rintro ⟨h1, h2, h3, h4, h5, h6, h7, h8⟩
  simp only [derivedView, filterSteps, h1, h2, h3, h4, h5, h6, h7, h8]

/-- C26 at the thirteen-record state and the same state moved to page 2. -/
theorem C26_derivation_is_idempotent_witness :
    SameInputs (thirteenState sampleHost) pageTwoState ∧
    derivedView sampleHost (thirteenState sampleHost) = derivedView sampleHost pageTwoState :=
  ⟨⟨rfl, rfl, rfl, rfl, rfl, rfl, rfl, rfl⟩,
   (C26_derivation_is_idempotent sampleHost (thirteenState sampleHost) pageTwoState).2.2
     ⟨rfl, rfl, rfl, rfl, rfl, rfl, rfl, rfl⟩⟩

/-! ## Permissions -/

/-- C27: `hasPermission` is a static lookup. Without a current user it is
false for every permission name; with a current user it is the user's
manager flag for "manage_unit_certs" and "export_data", true for
"view_analytics" and "add_certificate", and false for every other name. -/
theorem C27_hasPermission_is_a_static_lookup (u : User) (permission : String) :
    hasPermission none permission = false ∧
    hasPermission (some u) "manage_unit_certs" = u.isManager ∧
    hasPermission (some u) "export_data" = u.isManager ∧
    hasPermission (some u) "view_analytics" = true ∧
    hasPermission (some u) "add_certificate" = true ∧
    (permission ≠ "manage_unit_certs" → permission ≠ "export_data" →
      permission ≠ "view_analytics" → permission ≠ "add_certificate" →
      hasPermission (some u) permission = false) := by
  refine ⟨rfl, ?_, ?_, ?_, ?_, ?_⟩
  · simp [hasPermission]
  · simp [hasPermission]
  · simp [hasPermission]
  · simp [hasPermission]
  · intro h1 h2 h3 h4
    simp [hasPermission, h1, h2, h3, h4]

/-- C27 at a manager and the permission name "delete_everything". -/
theorem C27_hasPermission_is_a_static_lookup_witness :
    hasPermission
      (some { id := "u_002", name := "Sarah Chen", jobTitle := "Cloud Architect",
              unit := "Infrastructure", email := "sarah.chen@example.com",
              avatarUrl := "/avatars/sarah.jpg", isManager := true,
              joinDate := "2022-01-10", certificationCount := 5, bio := "", skills := [] })
      "delete_everything" = false :=
  (C27_hasPermission_is_a_static_lookup
    { id := "u_002", name := "Sarah Chen", jobTitle := "Cloud Architect",
      unit := "Infrastructure", email := "sarah.chen@example.com",
      avatarUrl := "/avatars/sarah.jpg", isManager := true,
      joinDate := "2022-01-10", certificationCount := 5, bio := "", skills := [] }
    "delete_everything").2.2.2.2.2 (by decide) (by decide) (by decide) (by decide)

/-! ## Certificate form -/

/-- C28, evaluated: the tag list holding "react" is duplicate-free and
lowercase; with "React" typed, `handleAddTag` looks for "React" in the list,
does not find it, and appends its lower-cased form, so the list holds
"react" twice. -/
theorem C28_tag_is_compared_before_lowercasing :
    (["react"] : List String).Nodup ∧
    (∀ t ∈ (["react"] : List String), sampleHost.toLowerCase t = t) ∧
    handleAddTag sampleHost ["react"] "React" = (["react", "react"], "") ∧
    ¬ (handleAddTag sampleHost ["react"] "React").1.Nodup := by
  decide

theorem truthy_iff_ne_empty (text : String) : truthy text = true ↔ text ≠ "" := by
  unfold truthy
  rw [Bool.not_eq_true', List.isEmpty_eq_false]
  constructor
  · intro hne he
    apply hne
    rw [he]
  · intro hne hd
    apply hne
    cases text with
    | mk data =>
      simp only at hd
      rw [hd]

theorem truthy_trim_eq_false (text : String) :
    truthy (trim text) = false ↔ ¬ NonBlank text := by
  rw [← Bool.not_eq_true, truthy_trim_iff]
  rfl

theorem truthy_eq_false (text : String) : truthy text = false ↔ text = "" := by
  rw [← Bool.not_eq_true, truthy_iff_ne_empty]
  exact not_not

theorem validateForm_keys (f : FormData) (field : String) :
    field ∈ (validateForm f).1.map Prod.fst ↔
      (field = "title" ∧ truthy (trim f.title) = false) ∨
      (field = "category" ∧ truthy f.category = false) ∨
      (field = "issuer" ∧ truthy (trim f.issuer) = false) ∨
      (field = "date" ∧ truthy f.date = false) ∨
      (field = "file" ∧ f.file.isSome = false ∧ truthy f.fileUrl = false) := by
  unfold validateForm
  generalize truthy (trim f.title) = b1
  generalize truthy f.category = b2
  generalize truthy (trim f.issuer) = b3
  generalize truthy f.date = b4
  generalize f.file.isSome = b5
  generalize truthy f.fileUrl = b6
  cases b1 <;> cases b2 <;> cases b3 <;> cases b4 <;> cases b5 <;> cases b6 <;> simp

theorem validateForm_flag (f : FormData) :
    (validateForm f).2 = true ↔
      truthy (trim f.title) = true ∧ truthy f.category = true ∧
      truthy (trim f.issuer) = true ∧ truthy f.date = true ∧
      (f.file.isSome = true ∨ truthy f.fileUrl = true) := by
  unfold validateForm
  generalize truthy (trim f.title) = b1
  generalize truthy f.category = b2
  generalize truthy (trim f.issuer) = b3
  generalize truthy f.date = b4
  generalize f.file.isSome = b5
  generalize truthy f.fileUrl = b6
  cases b1 <;> cases b2 <;> cases b3 <;> cases b4 <;> cases b5 <;> cases b6 <;> simp

theorem validateForm_nodup (f : FormData) :
    ((validateForm f).1.map Prod.fst).Nodup := by
  unfold validateForm
  generalize truthy (trim f.title) = b1
  generalize truthy f.category = b2
  generalize truthy (trim f.issuer) = b3
  generalize truthy f.date = b4
  generalize f.file.isSome = b5
  generalize truthy f.fileUrl = b6
  cases b1 <;> cases b2 <;> cases b3 <;> cases b4 <;> cases b5 <;> cases b6 <;> decide

/-- C29: `validateForm` accepts exactly when the title is non-blank, a
category is selected, the issuer is non-blank, a completion date is set and
a file or a file reference is present; the errors it records are one for
each required field that is missing, among title, category, issuer, date
and file, and none for any other field. -/
theorem C29_validateForm_accepts_complete_forms (f : FormData) :
    ((validateForm f).2 = true ↔
      NonBlank f.title ∧ f.category ≠ "" ∧ NonBlank f.issuer ∧ f.date ≠ "" ∧
      (f.file ≠ none ∨ f.fileUrl ≠ "")) ∧
    (∀ field, field ∈ (validateForm f).1.map Prod.fst ↔ MissingField f field) ∧
    ((validateForm f).1.map Prod.fst).Nodup ∧
    ((validateForm f).2 = true ↔ (validateForm f).1 = []) := by
  refine ⟨?_, ?_, validateForm_nodup f, ?_⟩
  · rw [validateForm_flag, truthy_trim_iff, truthy_trim_iff, truthy_iff_ne_empty,
      truthy_iff_ne_empty, truthy_iff_ne_empty, Option.isSome_iff_ne_none]
    rfl
  · intro field
    rw [validateForm_keys, truthy_trim_eq_false, truthy_trim_eq_false, truthy_eq_false,
      truthy_eq_false, truthy_eq_false]
    unfold MissingField
    have hnone : f.file.isSome = false ↔ f.file = none := by
      cases f.file <;> simp
    rw [hnone]
  · show ((validateForm f).1.length == 0) = true ↔ _
    rw [beq_iff_eq, List.length_eq_zero]

/-- C29 at a form with every required field filled in, and at the same form
without its title. -/
theorem C29_validateForm_accepts_complete_forms_witness :
    (validateForm filledForm).2 = true ∧
    (validateForm { filledForm with title := "  " }).1.map Prod.fst = ["title"] ∧
    MissingField { filledForm with title := "  " } "title" :=
  ⟨by decide, by decide,
   ((C29_validateForm_accepts_complete_forms { filledForm with title := "  " }).2.1
      "title").mp (by decide)⟩

/-! ## The guard of the text step -/

theorem nonBlank_trim (q : String) (hq : NonBlank q) : NonBlank (trim q) := by
  have ht : truthy (trim q) = true := (truthy_trim_iff q).mpr hq
  unfold truthy trim at ht
  simp only [Bool.not_eq_true', List.isEmpty_eq_false, ne_eq, List.reverse_eq_nil_iff] at ht
  unfold NonBlank trim
  refine ⟨(List.dropWhile isWhiteSpace (List.dropWhile isWhiteSpace q.data).reverse).head ht,
    ?_, List.head_dropWhile_not _ _ ht⟩
  simp only [List.mem_reverse]
  exact List.head_mem ht

theorem eq_on_of_filter_eq {α : Type} (p q : α → Bool) :
    ∀ l : List α, l.filter p = l.filter q → ∀ x ∈ l, p x = q x := by
  intro l
  induction l with
  | nil => intro _ x hx; cases hx
  | cons a t ih =>
    intro hf x hx
    have hpa : p a = q a := by
      cases hp : p a <;> cases hq : q a
      · rfl
      · exfalso
        rw [List.filter_cons_of_neg (by simp [hp]), List.filter_cons_of_pos hq] at hf
        have hmem : a ∈ List.filter p t := by rw [hf]; exact List.mem_cons_self _ _
        have := (List.mem_filter.mp hmem).2
        rw [hp] at this
        exact absurd this (by decide)
      · exfalso
        rw [List.filter_cons_of_pos hp, List.filter_cons_of_neg (by simp [hq])] at hf
        have hmem : a ∈ List.filter q t := by rw [← hf]; exact List.mem_cons_self _ _
        have := (List.mem_filter.mp hmem).2
        rw [hq] at this
        exact absurd this (by decide)
      · rfl
    have htail : t.filter p = t.filter q := by
      cases hp : p a
      · have hq : q a = false := by rw [← hpa, hp]
        rw [List.filter_cons_of_neg (by simp [hp]), List.filter_cons_of_neg (by simp [hq])] at hf
        exact hf
      · have hq : q a = true := by rw [← hpa, hp]
        rw [List.filter_cons_of_pos hp, List.filter_cons_of_pos hq] at hf
        exact List.tail_eq_of_cons_eq hf
    rcases List.mem_cons.mp hx with rfl | hxt
    · exact hpa
    · exact ih htail x hxt

theorem searchStep_nonBlank (h : Host) (q : String) (l : List Certificate)
    (hq : NonBlank q) : searchStep h q l = searchCertificates h q := by
  have ht : truthy (trim q) = true := (truthy_trim_iff q).mpr hq
  simp only [searchStep, ht, if_true]

theorem searchStep_blank (h : Host) (q : String) (l : List Certificate)
    (hq : ¬ NonBlank q) : searchStep h q l = l := by
  have ht : truthy (trim q) = false := (truthy_trim_eq_false q).mpr hq
  simp [searchStep, ht]

theorem searchCertificates_eq_iff (h : Host) (q r : String) :
    searchCertificates h q = searchCertificates h r ↔
      ∀ cert ∈ mockCertificates, (TextMatch h q cert ↔ TextMatch h r cert) := by
  unfold searchCertificates
  constructor
  · intro hf cert hc
    have := eq_on_of_filter_eq _ _ _ hf cert hc
    rw [← matchesSearch_iff, ← matchesSearch_iff, this]
  · intro hm
    apply List.filter_congr
    intro cert hc
    rw [Bool.eq_iff_iff, matchesSearch_iff, matchesSearch_iff]
    exact hm cert hc

/-- C30: the guard of the text step holds exactly when the query has a
non-whitespace character. A query without one gives the derived view of the
empty query. A query with one is matched as typed, untrimmed: the step keeps
the fixture records in which the untrimmed text occurs, and it gives the
result of the trimmed query exactly when both texts occur in the same
records, in which case the derived views agree too. -/
theorem C30_text_step_runs_on_non_blank_query (h : Host) (s : State) (q : String) :
    (truthy (trim q) = true ↔ NonBlank q) ∧
    (¬ NonBlank q →
      searchStep h q s.certificates = s.certificates ∧
      derivedView h { s with searchQuery := q } = derivedView h { s with searchQuery := "" }) ∧
    (NonBlank q →
      searchStep h q s.certificates = searchCertificates h q ∧
      (∀ cert, cert ∈ searchStep h q s.certificates ↔
        cert ∈ mockCertificates ∧ TextMatch h q cert) ∧
      (searchStep h q s.certificates = searchStep h (trim q) s.certificates ↔
        ∀ cert ∈ mockCertificates, (TextMatch h q cert ↔ TextMatch h (trim q) cert)) ∧
      ((∀ cert ∈ mockCertificates, (TextMatch h q cert ↔ TextMatch h (trim q) cert)) →
        derivedView h { s with searchQuery := q }
          = derivedView h { s with searchQuery := trim q })) := by
  refine ⟨truthy_trim_iff q, ?_, ?_⟩
  · intro hq
    have hstep := searchStep_blank h q s.certificates hq
    refine ⟨hstep, ?_⟩
    simp only [derivedView, filterSteps, hstep, searchStep_empty]
  · intro hq
    have hstep := searchStep_nonBlank h q s.certificates hq
    have hstep2 := searchStep_nonBlank h (trim q) s.certificates (nonBlank_trim q hq)
    refine ⟨hstep, ?_, ?_, ?_⟩
    · intro cert
      rw [hstep]
      unfold searchCertificates
      rw [List.mem_filter, matchesSearch_iff]
    · rw [hstep, hstep2]
      exact searchCertificates_eq_iff h q (trim q)
    · intro hm
      have heq : searchStep h q s.certificates = searchStep h (trim q) s.certificates := by
        rw [hstep, hstep2]
        exact (searchCertificates_eq_iff h q (trim q)).mpr hm
      simp only [derivedView, filterSteps, heq]

/-- C30 at the loaded fixture: the query of two spaces leaves the ten records,
and the query " spring", with its leading space, is matched untrimmed and
finds nothing, while its trimmed form finds `cert_001`. -/
theorem C30_text_step_runs_on_non_blank_query_witness :
    ¬ NonBlank "  " ∧
    searchStep sampleHost "  " (loadedState sampleHost).certificates
      = (loadedState sampleHost).certificates ∧
    NonBlank " spring" ∧
    searchStep sampleHost " spring" (loadedState sampleHost).certificates
      = searchCertificates sampleHost " spring" ∧
    searchCertificates sampleHost " spring" = [] ∧
    searchCertificates sampleHost (trim " spring") = [cert_001] :=
  have hblank : ¬ NonBlank "  " := by
    unfold NonBlank
    decide
  have hspring : NonBlank " spring" := ⟨'s', by decide, by decide⟩
  ⟨hblank,
   ((C30_text_step_runs_on_non_blank_query sampleHost (loadedState sampleHost) "  ").2.1
      hblank).1,
   hspring,
   ((C30_text_step_runs_on_non_blank_query sampleHost (loadedState sampleHost)
      " spring").2.2 hspring).1,
   by decide, by decide⟩

/-! ## Objects used as counters -/

theorem bump_keys (acc : List (String × Nat)) (key : String) :
    (bump acc key).map Prod.fst
      = if key ∈ acc.map Prod.fst then acc.map Prod.fst else acc.map Prod.fst ++ [key] := by
  induction acc with
  | nil => simp [bump]
  | cons e rest ih =>
    obtain ⟨k, n⟩ := e
    by_cases hk : k = key
    · subst hk
      simp [bump]
    · have hne : ¬ key = k := fun e => hk e.symm
      simp only [bump, if_neg hk, List.map_cons, ih, List.mem_cons, hne, false_or]
      split_ifs <;> simp

theorem bump_countOf (acc : List (String × Nat)) (key k2 : String) :
    countOf (bump acc key) k2 = countOf acc k2 + (if k2 = key then 1 else 0) := by
  induction acc with
  | nil =>
    by_cases hk : k2 = key
    · subst hk
      simp [bump, countOf, List.lookup]
    · have hb : (k2 == key) = false := beq_eq_false_iff_ne.mpr hk
      simp only [bump, countOf, List.lookup, hb, if_neg hk]
      rfl
  | cons e rest ih =>
    obtain ⟨k, n⟩ := e
    unfold countOf at ih ⊢
    by_cases hk : k = key
    · subst hk
      by_cases h2 : k2 = k
      · subst h2
        simp [bump, List.lookup]
      · have hb : (k2 == k) = false := beq_eq_false_iff_ne.mpr h2
        simp only [bump, if_true, List.lookup, hb, if_neg h2, Nat.add_zero]
    · by_cases h2 : k2 = k
      · subst h2
        have hne : ¬ k2 = key := hk
        simp [bump, List.lookup, hk, hne]
      · simp only [bump, if_neg hk, List.lookup, beq_eq_false_iff_ne.mpr h2]
        exact ih

theorem foldl_bump_keys (keys : List String) :
    ∀ acc : List (String × Nat), ∀ k2,
      k2 ∈ (keys.foldl bump acc).map Prod.fst ↔ k2 ∈ acc.map Prod.fst ∨ k2 ∈ keys := by
  induction keys with
  | nil => intro acc k2; simp
  | cons key rest ih =>
    intro acc k2
    rw [List.foldl_cons, ih, bump_keys]
    split_ifs with hmem
    · constructor
      · rintro (h1 | h1)
        · exact Or.inl h1
        · exact Or.inr (List.mem_cons_of_mem _ h1)
      · rintro (h1 | h1)
        · exact Or.inl h1
        · rcases List.mem_cons.mp h1 with rfl | h2
          · exact Or.inl hmem
          · exact Or.inr h2
    · simp only [List.mem_append, List.mem_singleton, List.mem_cons]
      tauto

theorem foldl_bump_nodup (keys : List String) :
    ∀ acc : List (String × Nat), (acc.map Prod.fst).Nodup →
      ((keys.foldl bump acc).map Prod.fst).Nodup := by
  induction keys with
  | nil => intro acc hn; exact hn
  | cons key rest ih =>
    intro acc hn
    rw [List.foldl_cons]
    apply ih
    rw [bump_keys]
    split_ifs with hmem
    · exact hn
    · rw [List.nodup_append]
      refine ⟨hn, List.nodup_singleton _, ?_⟩
      intro x hx hx2
      rw [List.mem_singleton] at hx2
      subst hx2
      exact hmem hx

theorem foldl_bump_countOf (keys : List String) :
    ∀ acc : List (String × Nat), ∀ k2,
      countOf (keys.foldl bump acc) k2 = countOf acc k2 + keys.count k2 := by
  induction keys with
  | nil => intro acc k2; simp
  | cons key rest ih =>
    intro acc k2
    rw [List.foldl_cons, ih, bump_countOf, List.count_cons]
    by_cases hk : k2 = key
    · subst hk
      simp
      omega
    · have hne : (key == k2) = false := by
        rw [beq_eq_false_iff_ne]
        exact fun e => hk e.symm
      simp [hk, hne]

theorem countOf_of_mem {props : List (String × Nat)} (hn : (props.map Prod.fst).Nodup)
    {k : String} {n : Nat} (hm : (k, n) ∈ props) : countOf props k = n := by
  induction props with
  | nil => cases hm
  | cons e rest ih =>
    obtain ⟨k1, n1⟩ := e
    rw [List.map_cons, List.nodup_cons] at hn
    unfold countOf at ih ⊢
    rcases List.mem_cons.mp hm with heq | hrest
    · cases heq
      simp [List.lookup]
    · have hne : ¬ k = k1 := by
        intro e
        apply hn.1
        rw [← e]
        exact List.mem_map.mpr ⟨(k, n), hrest, rfl⟩
      simp only [List.lookup, beq_eq_false_iff_ne.mpr hne]
      exact ih hn.2 hrest

theorem tally_eq_some (keys : List String)
    (hplain : ∀ k ∈ keys, prototypeNames.contains k = false) :
    tally keys = some (keys.foldl bump []) := by
  unfold tally
  generalize ([] : List (String × Nat)) = acc
  induction keys generalizing acc with
  | nil => rfl
  | cons key rest ih =>
    rw [List.foldl_cons, List.foldl_cons]
    have hk := hplain key (List.mem_cons_self _ _)
    have hstep : countKey (some acc) key = some (bump acc key) := by
      simp only [countKey, hk, Bool.false_eq_true, if_false]
    rw [hstep]
    exact ih (fun k hkr => hplain k (List.mem_cons_of_mem _ hkr)) _

theorem tally_spec (keys : List String) :
    ((keys.foldl bump []).map Prod.fst).Nodup ∧
    (∀ k, k ∈ (keys.foldl bump []).map Prod.fst ↔ k ∈ keys) ∧
    (∀ e ∈ keys.foldl bump [], e.2 = keys.count e.1) := by
  refine ⟨foldl_bump_nodup keys [] List.nodup_nil, ?_, ?_⟩
  · intro k
    rw [foldl_bump_keys]
    simp
  · intro e he
    have hc := countOf_of_mem (foldl_bump_nodup keys [] List.nodup_nil)
      (show (e.1, e.2) ∈ keys.foldl bump [] from he)
    rw [foldl_bump_countOf] at hc
    simp only [countOf, List.lookup, Option.getD_none, zero_add] at hc
    exact hc.symm

theorem objectEntries_perm (props : List (String × Nat)) :
    (objectEntries props).Perm props := by
  unfold objectEntries
  exact ((List.perm_insertionSort _ _).append_right _).trans
    (List.filter_append_perm (fun e => isArrayIndex e.1) props)

/-! ## Top issuers -/

theorem jsSlice_zero_five {α : Type} (xs : List α) : jsSlice xs 0 5 = xs.take 5 := by
  unfold jsSlice
  simp only [lt_self_iff_false, if_false, show ¬ ((5 : Int) < 0) by omega]
  have hk : (min (0 : Int) (xs.length : Int)).toNat = 0 := by omega
  rw [hk, List.drop_zero, List.take_eq_take]
  omega

theorem sortLE_issuerCompare (a b : String × Nat) :
    SortLE issuerCompare a b ↔ b.2 ≤ a.2 := by
  simp only [SortLE, sortCompare, issuerCompare, Option.getD_some]
  omega

theorem jsSort_issuerCompare_sorted (l : List (String × Nat)) :
    (jsSort issuerCompare l).Sorted (fun a b => b.2 ≤ a.2) := by
  have hs : (jsSort issuerCompare l).Sorted (SortLE issuerCompare) := by
    apply sorted_insertionSort_on
    · intro a _ b _
      rw [sortLE_issuerCompare, sortLE_issuerCompare]
      omega
    · intro a _ b _ c _
      rw [sortLE_issuerCompare, sortLE_issuerCompare, sortLE_issuerCompare]
      omega
  exact List.Pairwise.imp (fun hab => (sortLE_issuerCompare _ _).mp hab) hs

theorem count_map_issuer (certs : List Certificate) (issuer : String) :
    (certs.map (fun c => c.issuer)).count issuer = countByIssuer certs issuer := by
  unfold countByIssuer
  rw [List.count_eq_countP, List.countP_map, List.countP_eq_length_filter]
  rfl

/-- For a collection none of whose issuers names a member of
`Object.prototype`, the top-issuers list has min(5, number of distinct
issuers) entries with pairwise distinct names, in non-increasing order of
the count; the count of an entry is the number of records with that issuer;
and no issuer left out of the list has more records than an issuer in it. -/
theorem topIssuers_by_count (s : State) (hplain : PlainIssuers s.certificates) :
    ∃ top, topIssuers s = some top ∧
      top.length = min 5 (s.certificates.map (fun c => c.issuer)).dedup.length ∧
      (top.map (fun e => e.name)).Nodup ∧
      top.Pairwise (fun a b => b.value ≤ a.value) ∧
      (∀ e ∈ top, e.value = countByIssuer s.certificates e.name ∧
        ∃ c ∈ s.certificates, c.issuer = e.name) ∧
      (∀ c ∈ s.certificates, c.issuer ∉ top.map (fun e => e.name) →
        ∀ e ∈ top, countByIssuer s.certificates c.issuer ≤ e.value) := by
  have htally : tally (s.certificates.map (fun c => c.issuer))
      = some ((s.certificates.map (fun c => c.issuer)).foldl bump []) := by
    apply tally_eq_some
    intro k hk
    obtain ⟨c, hc, rfl⟩ := List.mem_map.mp hk
    exact hplain c hc
  obtain ⟨hnodup, hkeys, hcount⟩ := tally_spec (s.certificates.map (fun c => c.issuer))
  generalize hT : (s.certificates.map (fun c => c.issuer)).foldl bump [] = props
    at htally hnodup hkeys hcount
  have hperm : (jsSort issuerCompare (objectEntries props)).Perm props :=
    (List.perm_insertionSort _ _).trans (objectEntries_perm props)
  have hsorted := jsSort_issuerCompare_sorted (objectEntries props)
  generalize hS : jsSort issuerCompare (objectEntries props) = sorted at hperm hsorted
  have htop : topIssuers s
      = some ((sorted.take 5).map (fun e => ({ name := e.1, value := e.2 } : IssuerDatum))) := by
    unfold topIssuers
    rw [htally, Option.map_some', hS, jsSlice_zero_five]
  have hnames : ((sorted.take 5).map
      (fun e => ({ name := e.1, value := e.2 } : IssuerDatum))).map (fun e => e.name)
        = (sorted.take 5).map Prod.fst := by
    rw [List.map_map]
    rfl
  have hsnodup : (sorted.map Prod.fst).Nodup := (hperm.map Prod.fst).nodup_iff.mpr hnodup
  refine ⟨_, htop, ?_, ?_, ?_, ?_, ?_⟩
  · rw [List.length_map, List.length_take, hperm.length_eq]
    have hlen : props.length = (s.certificates.map (fun c => c.issuer)).dedup.length := by
      rw [← List.length_map props Prod.fst]
      apply List.Perm.length_eq
      rw [List.perm_ext_iff_of_nodup hnodup (List.nodup_dedup _)]
      intro k
      rw [hkeys, List.mem_dedup]
    rw [hlen]
  · rw [hnames]
    exact List.Nodup.sublist ((List.take_sublist 5 sorted).map Prod.fst) hsnodup
  · rw [List.pairwise_map]
    exact List.Pairwise.sublist (List.take_sublist 5 sorted) hsorted
  · intro e he
    obtain ⟨p, hp, rfl⟩ := List.mem_map.mp he
    have hpm : p ∈ props := hperm.subset (List.mem_of_mem_take hp)
    have hc := hcount p hpm
    rw [count_map_issuer] at hc
    refine ⟨hc, ?_⟩
    have hk : p.1 ∈ s.certificates.map (fun c => c.issuer) :=
      (hkeys p.1).mp (List.mem_map.mpr ⟨p, hpm, rfl⟩)
    obtain ⟨c, hcm, hci⟩ := List.mem_map.mp hk
    exact ⟨c, hcm, hci⟩
  · intro c hc hout e he
    rw [hnames] at hout
    obtain ⟨p, hp, rfl⟩ := List.mem_map.mp he
    have hk : c.issuer ∈ props.map Prod.fst :=
      (hkeys c.issuer).mpr (List.mem_map.mpr ⟨c, hc, rfl⟩)
    obtain ⟨q, hq, hqi⟩ := List.mem_map.mp hk
    have hqs : q ∈ sorted := hperm.symm.subset hq
    rw [← List.take_append_drop 5 sorted] at hqs hsorted
    have hqd : q ∈ sorted.drop 5 := by
      rcases List.mem_append.mp hqs with h1 | h1
      · exfalso
        apply hout
        rw [← hqi]
        exact List.mem_map.mpr ⟨q, h1, rfl⟩
      · exact h1
    have hrel := (List.pairwise_append.mp hsorted).2.2 p hp q hqd
    have hcq := hcount q hq
    rw [count_map_issuer, hqi] at hcq
    show countByIssuer s.certificates c.issuer ≤ p.2
    rw [← hcq]
    exact hrel

/-- The top issuers of the loaded fixture: five entries, "Coursera" with 2
records first. -/
theorem topIssuers_by_count_at_fixture :
    PlainIssuers (loadedState sampleHost).certificates ∧
    ∃ top, topIssuers (loadedState sampleHost) = some top ∧ top.length = 5 ∧
      top.head? = some { name := "Coursera", value := 2 } ∧
      top.Pairwise (fun a b => b.value ≤ a.value) := by
  have hplain : PlainIssuers (loadedState sampleHost).certificates := by
    unfold PlainIssuers
    decide
  obtain ⟨top, htop, _, _, hsorted, _, _⟩ :=
    topIssuers_by_count (loadedState sampleHost) hplain
  have hval : topIssuers (loadedState sampleHost)
      = some [⟨"Coursera", 2⟩, ⟨"Amazon Web Services", 1⟩, ⟨"Epic React", 1⟩,
          ⟨"CompTIA", 1⟩, ⟨"Cloud Native Computing Foundation", 1⟩] := by decide
  have heq := htop.symm.trans hval
  cases heq
  exact ⟨hplain, _, hval, rfl, rfl, hsorted⟩

/-- C22, evaluated: the issuer "constructor" passes the form validation. In
the loaded fixture the top-issuers list has five entries with their counts.
After a record of that issuer was created, the collection holds one record
of the issuer, but the read `acc["constructor"]` yields the inherited member
of `Object.prototype` in place of a missing count, the value stored for the
issuer is not a number, and there is no list of issuers with their counts. -/
theorem C22_issuer_named_constructor_gets_no_count :
    (validateForm constructorForm).2 = true ∧
    constructorDraft.issuer = constructorForm.issuer ∧
    topIssuers (loadedState sampleHost)
      = some [⟨"Coursera", 2⟩, ⟨"Amazon Web Services", 1⟩, ⟨"Epic React", 1⟩,
          ⟨"CompTIA", 1⟩, ⟨"Cloud Native Computing Foundation", 1⟩] ∧
    constructorState.certificates.length = 11 ∧
    countByIssuer constructorState.certificates "constructor" = 1 ∧
    prototypeNames.contains "constructor" = true ∧
    tally ["constructor"] = none ∧
    topIssuers constructorState = none := by
  decide

/-! ## Monthly series -/

theorem char_eq_of_toNat_eq {a b : Char} (hab : a.toNat = b.toNat) : a = b := by
  rw [← Char.ofNat_toNat a, ← Char.ofNat_toNat b, hab]

theorem isDigit_of_isDigit {c : Char} (hc : c.isDigit = true) : IsDigit c := by
  unfold Char.isDigit at hc
  simp only [Bool.and_eq_true, decide_eq_true_eq] at hc
  exact ⟨hc.1, hc.2⟩

theorem compareChars_total :
    ∀ a b : List Char, compareChars a b ≤ 0 ∨ compareChars b a ≤ 0 := by
  intro a
  induction a with
  | nil => intro b; cases b <;> simp [compareChars]
  | cons x xs ih =>
    intro b
    cases b with
    | nil => simp [compareChars]
    | cons y ys =>
      simp only [compareChars]
      have := ih ys
      split_ifs <;> omega

theorem compareChars_trans : ∀ a b c : List Char,
    compareChars a b ≤ 0 → compareChars b c ≤ 0 → compareChars a c ≤ 0 := by
  intro a
  induction a with
  | nil => intro b c; cases b <;> cases c <;> simp [compareChars]
  | cons x xs ih =>
    intro b c
    cases b with
    | nil => simp [compareChars]
    | cons y ys =>
      cases c with
      | nil =>
        simp only [compareChars]
        split_ifs <;> simp
      | cons z zs =>
        simp only [compareChars]
        have := ih ys zs
        split_ifs <;> omega

theorem jsSort_defaultCompare_sorted (l : List (String × Nat)) :
    (jsSort defaultCompare l).Sorted (SortLE defaultCompare) := by
  apply sorted_insertionSort_on
  · intro a _ b _
    exact compareChars_total _ _
  · intro a _ b _ c _
    exact compareChars_trans _ _ _

theorem jsSlice_last_six {α : Type} (xs : List α) :
    jsSlice xs (-6) xs.length = xs.drop (xs.length - 6) := by
  unfold jsSlice
  have h1 : ((-6 : Int) < 0) := by omega
  have h2 : ¬ ((xs.length : Int) < 0) := by omega
  simp only [h1, h2, if_true, if_false]
  have hk : (max ((xs.length : Int) + -6) 0).toNat = xs.length - 6 := by omega
  rw [hk]
  apply List.take_of_length_le
  rw [List.length_drop]
  omega

theorem wellFormedKey_shape {key : String} (hk : wellFormedKey key = true) :
    ∃ y1 y2 y3 y4 m1 m2 : Char,
      key.data = [y1, y2, y3, y4, '-', m1, m2] ∧
      IsDigit y1 ∧ IsDigit y2 ∧ IsDigit y3 ∧ IsDigit y4 ∧ IsDigit m1 ∧ IsDigit m2 := by
  unfold wellFormedKey at hk
  split at hk
  · rename_i y1 y2 y3 y4 s1 m1 m2 hdata
    simp only [Bool.and_eq_true, beq_iff_eq] at hk
    obtain ⟨⟨⟨⟨⟨⟨h1, h2⟩, h3⟩, h4⟩, hs⟩, h5⟩, h6⟩ := hk
    subst hs
    exact ⟨y1, y2, y3, y4, m1, m2, hdata, isDigit_of_isDigit h1, isDigit_of_isDigit h2,
      isDigit_of_isDigit h3, isDigit_of_isDigit h4, isDigit_of_isDigit h5,
      isDigit_of_isDigit h6⟩
  · cases hk

theorem wellFormedKey_monthKey {date : String} (hd : wellFormedDate date = true) :
    wellFormedKey (monthKey date) = true := by
  unfold wellFormedDate at hd
  split at hd
  · rename_i y1 y2 y3 y4 s1 m1 m2 s2 d1 d2 hdata
    simp only [Bool.and_eq_true, beq_iff_eq] at hd
    obtain ⟨⟨⟨⟨⟨⟨⟨⟨⟨h1, h2⟩, h3⟩, h4⟩, hs⟩, h5⟩, h6⟩, _⟩, _⟩, _⟩ := hd
    simp [wellFormedKey, monthKey, hdata, h1, h2, h3, h4, hs, h5, h6]
  · cases hd

theorem yearOf_monthKey (date : String) : yearOf (monthKey date) = yearOf date := by
  simp [yearOf, monthKey, List.take_take]

theorem monthOf_monthKey (date : String) : monthOf (monthKey date) = monthOf date := by
  simp [monthOf, monthKey, List.drop_take, List.take_take]

theorem compareChars_cons (a b : Char) (as bs : List Char) :
    compareChars (a :: as) (b :: bs)
      = if a.toNat < b.toNat then -1 else if b.toNat < a.toNat then 1 else compareChars as bs := by
  rw [compareChars]

theorem compareChars_cons_le (a b : Char) (as bs : List Char) :
    compareChars (a :: as) (b :: bs) ≤ 0 ↔
      a.toNat < b.toNat ∨ (a.toNat = b.toNat ∧ compareChars as bs ≤ 0) := by
  rw [compareChars_cons]
  split_ifs <;> omega

theorem yearOf_chars (y1 y2 y3 y4 sep m1 m2 : Char) :
    yearOf ⟨[y1, y2, y3, y4, sep, m1, m2]⟩
      = 10 * (10 * (10 * (y1.toNat - 48) + (y2.toNat - 48)) + (y3.toNat - 48))
          + (y4.toNat - 48) := by
  simp [yearOf, decimalValue]

theorem monthOf_chars (y1 y2 y3 y4 sep m1 m2 : Char) :
    monthOf ⟨[y1, y2, y3, y4, sep, m1, m2]⟩ = 10 * (m1.toNat - 48) + (m2.toNat - 48) := by
  simp [monthOf, decimalValue]

theorem key_chars_order (y1 y2 y3 y4 m1 m2 z1 z2 z3 z4 n1 n2 sep : Char) (r1 r2 : List Char)
    (hy1 : IsDigit y1) (hy2 : IsDigit y2) (hy3 : IsDigit y3) (hy4 : IsDigit y4)
    (hm1 : IsDigit m1) (hm2 : IsDigit m2)
    (hz1 : IsDigit z1) (hz2 : IsDigit z2) (hz3 : IsDigit z3) (hz4 : IsDigit z4)
    (hn1 : IsDigit n1) (hn2 : IsDigit n2)
    (hne : [y1, y2, y3, y4, sep, m1, m2] ≠ [z1, z2, z3, z4, sep, n1, n2])
    (hle : compareChars ([y1, y2, y3, y4, sep, m1, m2] ++ r1)
      ([z1, z2, z3, z4, sep, n1, n2] ++ r2) ≤ 0) :
    YearMonthLT ⟨[y1, y2, y3, y4, sep, m1, m2]⟩ ⟨[z1, z2, z3, z4, sep, n1, n2]⟩ := by
  have hne2 : ¬ (y1.toNat = z1.toNat ∧ y2.toNat = z2.toNat ∧ y3.toNat = z3.toNat ∧
      y4.toNat = z4.toNat ∧ m1.toNat = n1.toNat ∧ m2.toNat = n2.toNat) := by
    rintro ⟨e1, e2, e3, e4, e5, e6⟩
    apply hne
    rw [char_eq_of_toNat_eq e1, char_eq_of_toNat_eq e2, char_eq_of_toNat_eq e3,
      char_eq_of_toNat_eq e4, char_eq_of_toNat_eq e5, char_eq_of_toNat_eq e6]
  clear hne
  unfold IsDigit at hy1 hy2 hy3 hy4 hm1 hm2 hz1 hz2 hz3 hz4 hn1 hn2
  simp only [List.cons_append, List.nil_append, compareChars_cons_le] at hle
  unfold YearMonthLT
  rw [yearOf_chars, yearOf_chars, monthOf_chars, monthOf_chars]
  omega

theorem key_chars_eq_iff (y1 y2 y3 y4 m1 m2 z1 z2 z3 z4 n1 n2 sep : Char)
    (hy1 : IsDigit y1) (hy2 : IsDigit y2) (hy3 : IsDigit y3) (hy4 : IsDigit y4)
    (hm1 : IsDigit m1) (hm2 : IsDigit m2)
    (hz1 : IsDigit z1) (hz2 : IsDigit z2) (hz3 : IsDigit z3) (hz4 : IsDigit z4)
    (hn1 : IsDigit n1) (hn2 : IsDigit n2) :
    (yearOf ⟨[y1, y2, y3, y4, sep, m1, m2]⟩ = yearOf ⟨[z1, z2, z3, z4, sep, n1, n2]⟩ ∧
      monthOf ⟨[y1, y2, y3, y4, sep, m1, m2]⟩ = monthOf ⟨[z1, z2, z3, z4, sep, n1, n2]⟩) ↔
    [y1, y2, y3, y4, sep, m1, m2] = [z1, z2, z3, z4, sep, n1, n2] := by
  constructor
  · unfold IsDigit at hy1 hy2 hy3 hy4 hm1 hm2 hz1 hz2 hz3 hz4 hn1 hn2
    rw [yearOf_chars, yearOf_chars, monthOf_chars, monthOf_chars]
    rintro ⟨hy, hm⟩
    have e1 : y1.toNat = z1.toNat := by omega
    have e2 : y2.toNat = z2.toNat := by omega
    have e3 : y3.toNat = z3.toNat := by omega
    have e4 : y4.toNat = z4.toNat := by omega
    have e5 : m1.toNat = n1.toNat := by omega
    have e6 : m2.toNat = n2.toNat := by omega
    rw [char_eq_of_toNat_eq e1, char_eq_of_toNat_eq e2, char_eq_of_toNat_eq e3,
      char_eq_of_toNat_eq e4, char_eq_of_toNat_eq e5, char_eq_of_toNat_eq e6]
  · intro he
    have hs : (⟨[y1, y2, y3, y4, sep, m1, m2]⟩ : String) = ⟨[z1, z2, z3, z4, sep, n1, n2]⟩ := by
      rw [he]
    rw [hs]
    exact ⟨rfl, rfl⟩
theorem key_order {k1 k2 : String} (h1 : wellFormedKey k1 = true)
    (h2 : wellFormedKey k2 = true) (n1 n2 : Nat) (hne : k1 ≠ k2)
    (hle : SortLE defaultCompare (k1, n1) (k2, n2)) : YearMonthLT k1 k2 := by
  obtain ⟨y1, y2, y3, y4, m1, m2, hd1, hy1, hy2, hy3, hy4, hm1, hm2⟩ := wellFormedKey_shape h1
  obtain ⟨z1, z2, z3, z4, p1, p2, hd2, hz1, hz2, hz3, hz4, hp1, hp2⟩ := wellFormedKey_shape h2
  cases k1 with
  | mk d1 =>
    cases k2 with
    | mk d2 =>
      simp only at hd1 hd2
      subst hd1
      subst hd2
      have hle2 : compareChars ([y1, y2, y3, y4, '-', m1, m2] ++ ("," ++ Nat.repr n1).data)
          ([z1, z2, z3, z4, '-', p1, p2] ++ ("," ++ Nat.repr n2).data) ≤ 0 := by
        simpa [SortLE, sortCompare, defaultCompare, entryString, String.data_append,
          List.append_assoc] using hle
      exact key_chars_order y1 y2 y3 y4 m1 m2 z1 z2 z3 z4 p1 p2 '-' _ _
        hy1 hy2 hy3 hy4 hm1 hm2 hz1 hz2 hz3 hz4 hp1 hp2
        (fun e => hne (congrArg String.mk e)) hle2

theorem key_eq_iff {k1 k2 : String} (h1 : wellFormedKey k1 = true)
    (h2 : wellFormedKey k2 = true) :
    (yearOf k1 = yearOf k2 ∧ monthOf k1 = monthOf k2) ↔ k1 = k2 := by
  obtain ⟨y1, y2, y3, y4, m1, m2, hd1, hy1, hy2, hy3, hy4, hm1, hm2⟩ := wellFormedKey_shape h1
  obtain ⟨z1, z2, z3, z4, p1, p2, hd2, hz1, hz2, hz3, hz4, hp1, hp2⟩ := wellFormedKey_shape h2
  cases k1 with
  | mk d1 =>
    cases k2 with
    | mk d2 =>
      simp only at hd1 hd2
      subst hd1
      subst hd2
      rw [key_chars_eq_iff y1 y2 y3 y4 m1 m2 z1 z2 z3 z4 p1 p2 '-'
        hy1 hy2 hy3 hy4 hm1 hm2 hz1 hz2 hz3 hz4 hp1 hp2]
      constructor
      · intro e
        rw [e]
      · intro e
        exact congrArg String.data e

theorem not_prototypeName_of_key {key : String} (hk : wellFormedKey key = true) :
    prototypeNames.contains key = false := by
  obtain ⟨y1, y2, y3, y4, m1, m2, hd, hy1, _⟩ := wellFormedKey_shape hk
  have hall : ∀ n ∈ prototypeNames, ∀ c, n.data.head? = some c → ¬ IsDigit c := by
    unfold IsDigit
    decide
  rw [← Bool.not_eq_true]
  intro hc
  have hmem : key ∈ prototypeNames := by simpa using hc
  exact hall key hmem y1 (by rw [hd]; rfl) hy1

theorem count_map_monthKey (certs : List Certificate) (key : String) :
    (certs.map (fun c => monthKey c.date)).count key
      = (certs.filter (fun c => monthKey c.date == key)).length := by
  rw [List.count_eq_countP, List.countP_map, List.countP_eq_length_filter]
  rfl

theorem countInMonth_eq (certs : List Certificate) (key : String)
    (hwf : ∀ c ∈ certs, wellFormedDate c.date = true) (hk : wellFormedKey key = true) :
    (certs.map (fun c => monthKey c.date)).count key = countInMonth certs key := by
  rw [count_map_monthKey]
  unfold countInMonth
  congr 1
  apply List.filter_congr
  intro c hc
  have hck := wellFormedKey_monthKey (hwf c hc)
  rw [Bool.eq_iff_iff]
  simp only [beq_iff_eq, Bool.and_eq_true]
  rw [← key_eq_iff hck hk, yearOf_monthKey, monthOf_monthKey]

/-- C21: for a collection whose completion dates have the shape YYYY-MM-DD,
the monthly series has at most 6 entries, with pairwise distinct keys and in
strictly increasing year-month order; every entry stands for the year-month
of some record and its count is the number of records in that year-month;
and a record whose year-month has no entry is older than all 6 entries, so
the entries are the 6 latest year-months, or all when there are fewer. -/
theorem C21_monthly_series_latest_six (s : State)
    (hwf : ∀ c ∈ s.certificates, wellFormedDate c.date = true) :
    ∃ entries, monthlyEntries s = some entries ∧
      entries.length ≤ 6 ∧
      (entries.map Prod.fst).Nodup ∧
      entries.Pairwise (fun a b => YearMonthLT a.1 b.1) ∧
      (∀ e ∈ entries, e.2 = countInMonth s.certificates e.1 ∧
        ∃ c ∈ s.certificates, monthKey c.date = e.1) ∧
      (∀ c ∈ s.certificates,
        (∃ e ∈ entries, e.1 = monthKey c.date) ∨
        (entries.length = 6 ∧ ∀ e ∈ entries, YearMonthLT c.date e.1)) ∧
      (∀ label : String → String,
        monthlyChartData label s
          = some (entries.map
              (fun e => ({ month := label e.1, certificates := e.2 } : MonthDatum)))) := by
  have hkeywf : ∀ k ∈ s.certificates.map (fun c => monthKey c.date),
      wellFormedKey k = true := by
    intro k hk
    obtain ⟨c, hc, rfl⟩ := List.mem_map.mp hk
    exact wellFormedKey_monthKey (hwf c hc)
  have htally : tally (s.certificates.map (fun c => monthKey c.date))
      = some ((s.certificates.map (fun c => monthKey c.date)).foldl bump []) :=
    tally_eq_some _ (fun k hk => not_prototypeName_of_key (hkeywf k hk))
  obtain ⟨hnodup, hkeys, hcount⟩ := tally_spec (s.certificates.map (fun c => monthKey c.date))
  generalize hT : (s.certificates.map (fun c => monthKey c.date)).foldl bump [] = props
    at htally hnodup hkeys hcount
  have hperm : (jsSort defaultCompare (objectEntries props)).Perm props :=
    (List.perm_insertionSort _ _).trans (objectEntries_perm props)
  have hsorted := jsSort_defaultCompare_sorted (objectEntries props)
  generalize hS : jsSort defaultCompare (objectEntries props) = sorted at hperm hsorted
  have hentries : monthlyEntries s = some (sorted.drop (sorted.length - 6)) := by
    unfold monthlyEntries
    rw [htally, Option.map_some', hS, jsSlice_last_six]
  have hsnodup : (sorted.map Prod.fst).Nodup := (hperm.map Prod.fst).nodup_iff.mpr hnodup
  have hmemwf : ∀ e ∈ sorted, wellFormedKey e.1 = true := fun e he =>
    hkeywf e.1 ((hkeys e.1).mp (List.mem_map.mpr ⟨e, hperm.subset he, rfl⟩))
  have hstrict : sorted.Pairwise (fun a b => YearMonthLT a.1 b.1) := by
    have hne : sorted.Pairwise (fun a b => a.1 ≠ b.1) := List.pairwise_map.mp hsnodup
    refine List.Pairwise.imp_of_mem ?_ (hsorted.and hne)
    intro a b ha hb hab
    exact key_order (hmemwf a ha) (hmemwf b hb) a.2 b.2 hab.2 hab.1
  have hsub : (sorted.drop (sorted.length - 6)).Sublist sorted := List.drop_sublist _ _
  refine ⟨_, hentries, ?_, ?_, ?_, ?_, ?_, ?_⟩
  · rw [List.length_drop]
    omega
  · exact List.Nodup.sublist (hsub.map Prod.fst) hsnodup
  · exact List.Pairwise.sublist hsub hstrict
  · intro e he
    have hes : e ∈ sorted := hsub.subset he
    have hep : e ∈ props := hperm.subset hes
    have hc := hcount e hep
    rw [countInMonth_eq s.certificates e.1 hwf (hmemwf e hes)] at hc
    refine ⟨hc, ?_⟩
    have hk := (hkeys e.1).mp (List.mem_map.mpr ⟨e, hep, rfl⟩)
    obtain ⟨c, hcm, hce⟩ := List.mem_map.mp hk
    exact ⟨c, hcm, hce⟩
  · intro c hc
    have hk : monthKey c.date ∈ props.map Prod.fst :=
      (hkeys _).mpr (List.mem_map.mpr ⟨c, hc, rfl⟩)
    obtain ⟨q, hq, hqk⟩ := List.mem_map.mp hk
    have hqs : q ∈ sorted := hperm.symm.subset hq
    rw [← List.take_append_drop (sorted.length - 6) sorted] at hqs hstrict
    rcases List.mem_append.mp hqs with htake | hdrop
    · right
      have hpos : 0 < (sorted.take (sorted.length - 6)).length :=
        List.length_pos.mpr (List.ne_nil_of_mem htake)
      rw [List.length_take] at hpos
      refine ⟨?_, ?_⟩
      · rw [List.length_drop]
        omega
      · intro e he
        have hrel := (List.pairwise_append.mp hstrict).2.2 q htake e he
        rw [hqk] at hrel
        unfold YearMonthLT at hrel ⊢
        rwa [yearOf_monthKey, monthOf_monthKey] at hrel
    · left
      exact ⟨q, hdrop, hqk⟩
  · intro label
    unfold monthlyChartData
    rw [hentries, Option.map_some']

/-- C21 at the loaded fixture, whose ten records fall in ten year-months:
the series holds the six latest, 2025-01 to 2025-06, with one record
each. -/
theorem C21_monthly_series_latest_six_witness :
    (∀ c ∈ (loadedState sampleHost).certificates, wellFormedDate c.date = true) ∧
    monthlyEntries (loadedState sampleHost)
      = some [("2025-01", 1), ("2025-02", 1), ("2025-03", 1), ("2025-04", 1),
          ("2025-05", 1), ("2025-06", 1)] ∧
    ∃ entries, monthlyEntries (loadedState sampleHost) = some entries ∧
      entries.length ≤ 6 ∧ entries.Pairwise (fun a b => YearMonthLT a.1 b.1) := by
  have hwf : ∀ c ∈ (loadedState sampleHost).certificates, wellFormedDate c.date = true := by
    decide
  obtain ⟨entries, he, hlen, _, hord, _⟩ :=
    C21_monthly_series_latest_six (loadedState sampleHost) hwf
  exact ⟨hwf, by decide, entries, he, hlen, hord⟩

end CertifyHub
